import Mathlib

/-!
Verification of the banksim simulation engine against its specification.

The TypeScript source is embedded shallowly:
* JS `number` values are modelled as `ℚ` (exact rational arithmetic; the
  engine's own guards make every division that the code performs well
  defined, and `Number.isFinite` checks are modelled as always true since
  `ℚ` has no `NaN`/`Infinity`).  The four regulatory ratios, which the code
  deliberately sets to `Infinity` when a denominator is zero, are modelled
  by the dedicated type `QInf` below.
* Month counters (`termMonths`, `ageMonths`, time steps, cohort ids) are
  JS numbers that the code validates to be integers; they are modelled as
  `ℤ`.
* JS objects used as maps (`loanCohorts`, `extraLosses`,
  `recognizedLoanLosses`) are modelled as insertion-ordered association
  lists, matching `Object.entries`/`Object.keys` iteration order.
* Mutation of the `BankState` is modelled by explicit state passing.
* `throw` is modelled with `Except EngineError`.
* The only irrational primitive the engine uses is
  `Math.pow(x, 1 / 12)` (annual-to-monthly PD conversion); it is kept as
  an explicit function parameter `rt12` so that every definition stays
  executable over `ℚ`.  Theorems assume only the properties of `rt12`
  they need (e.g. `rt12 1 = 1`).
-/

/- Batteries marks the `ℚ` arithmetic operations `@[irreducible]` purely
for elaboration performance.  Restoring the default reducibility lets
`decide` evaluate the embedded engine on concrete rational inputs; kernel
semantics are unaffected. -/
set_option allowUnsafeReducibility true

attribute [semireducible] Rat.add Rat.sub Rat.mul Rat.inv Rat.ofScientific

deriving instance DecidableEq for Except

namespace Banksim

/-- Clamp into `[lo, hi]`, as the source's `clamp` helpers
(`Math.min(max, Math.max(min, value))`). -/
def clampQ (value lo hi : ℚ) : ℚ := min hi (max lo value)

/-- Balance-sheet side of a product (`BalanceSheetSide` in the source). -/
inductive Side
  | asset
  | liability
deriving DecidableEq, Repr

/-- The closed product taxonomy (`AssetProductType ∪ LiabilityProductType`). -/
inductive ProductType
  | CashReserves
  | Gilts
  | Mortgages
  | CorporateLoans
  | ReverseRepo
  | RetailDeposits
  | CorporateDeposits
  | WholesaleFundingST
  | WholesaleFundingLT
  | RepurchaseAgreements
deriving DecidableEq, Repr

/-- Deposit segment flag from `PRODUCT_META`. -/
inductive DepositSegment
  | retail
  | corporate
deriving DecidableEq, Repr

/-- Loan benchmark flag from `PRODUCT_META`. -/
inductive LoanBenchmark
  | mortgage
  | corporate
deriving DecidableEq, Repr

namespace ProductType

/-- `PRODUCT_META[p].side`. -/
def side : ProductType → Side
  | CashReserves | Gilts | Mortgages | CorporateLoans | ReverseRepo => .asset
  | _ => .liability

/-- `PRODUCT_META[p].behaviour.isLoan` (true only for Mortgages and
CorporateLoans). -/
def isLoan : ProductType → Bool
  | Mortgages | CorporateLoans => true
  | _ => false

/-- `PRODUCT_META[p].behaviour.isCustomerDeposit`. -/
def isCustomerDeposit : ProductType → Bool
  | RetailDeposits | CorporateDeposits => true
  | _ => false

/-- `PRODUCT_META[p].behaviour.affectsBehaviouralDepositFlow` (set exactly
on the two customer-deposit products in the source metadata). -/
def affectsBehaviouralDepositFlow : ProductType → Bool
  | RetailDeposits | CorporateDeposits => true
  | _ => false

/-- `PRODUCT_META[p].behaviour.affectsBehaviouralLoanFlow` (set exactly on
the two loan products in the source metadata). -/
def affectsBehaviouralLoanFlow : ProductType → Bool
  | Mortgages | CorporateLoans => true
  | _ => false

/-- `PRODUCT_META[p].behaviour.depositSegment`. -/
def depositSegment : ProductType → Option DepositSegment
  | RetailDeposits => some .retail
  | CorporateDeposits => some .corporate
  | _ => none

/-- `PRODUCT_META[p].behaviour.loanBenchmark`. -/
def loanBenchmark : ProductType → Option LoanBenchmark
  | Mortgages => some .mortgage
  | CorporateLoans => some .corporate
  | _ => none

end ProductType

/-- HQLA tiers (`HQLALevel`). -/
inductive HqlaLevel
  | level1
  | level2A
  | level2B
  | none
deriving DecidableEq, Repr

/-- Liquidity metadata attached to a balance-sheet item (`LiquidityTag`).
Optional JS fields become `Option ℚ`. -/
structure LiquidityTag where
  productType : ProductType
  hqlaLevel : HqlaLevel
  lcrOutflowRate : Option ℚ
  lcrInflowRate : Option ℚ
  nsfrAsfFactor : Option ℚ
  nsfrRsfFactor : Option ℚ
deriving DecidableEq, Repr

/-- `Encumbrance`. -/
structure Encumbrance where
  encumberedAmount : ℚ
deriving DecidableEq, Repr

/-- One balance-sheet line (`BalanceSheetItem`).  The purely decorative
fields of the source interface (`label`, `currency`, `maturityBucket`) are
omitted: they are constants per product and never influence behaviour.
`liquidityTag` and `encumbrance` are `Option`s because the engine guards
every access (`if (!item.liquidityTag)`, `item.encumbrance?.…`). -/
structure BalanceSheetItem where
  side : Side
  productType : ProductType
  balance : ℚ
  interestRate : ℚ
  liquidityTag : Option LiquidityTag
  encumbrance : Option Encumbrance
deriving DecidableEq, Repr

/-- `BalanceSheet`. -/
structure BalanceSheet where
  items : List BalanceSheetItem
deriving DecidableEq, Repr

/-- One loan cohort (`LoanCohort`).  Month counts are integers (the
validator enforces `Number.isInteger` on them). -/
structure LoanCohort where
  productType : ProductType
  cohortId : ℤ
  originalPrincipal : ℚ
  outstandingPrincipal : ℚ
  annualInterestRate : ℚ
  termMonths : ℤ
  ageMonths : ℤ
  annualPd : ℚ
  lgd : ℚ
deriving DecidableEq, Repr

/-- `loanCohorts` map: JS object keyed by product type, modelled as an
insertion-ordered association list (mirrors `Object.entries` order). -/
abbrev CohortMap := List (ProductType × List LoanCohort)

/-- Loss accumulator maps (`Partial<Record<ProductType, number>>`). -/
abbrev LossMap := List (ProductType × ℚ)

/-- First entry for a key, if any. -/
def lookupCohorts (m : CohortMap) (p : ProductType) : Option (List LoanCohort) :=
  (m.find? (fun e => e.1 == p)).map (·.2)

/-- Replace the value stored under `p` (first occurrence), appending a new
entry at the end when the key is absent — JS object assignment order. -/
def setCohorts : CohortMap → ProductType → List LoanCohort → CohortMap
  | [], p, cs => [(p, cs)]
  | e :: rest, p, cs => if e.1 = p then (p, cs) :: rest else e :: setCohorts rest p cs

/-- `getLoanCohortsArray`: returns the existing cohort array, creating an
empty entry when missing (the source mutates `state.loanCohorts`). -/
def getOrCreateCohorts (m : CohortMap) (p : ProductType) : CohortMap × List LoanCohort :=
  match lookupCohorts m p with
  | some cs => (m, cs)
  | none => (m ++ [(p, [])], [])

/-- Value stored in a loss map, `?? 0`. -/
def lookupLoss (l : LossMap) (p : ProductType) : ℚ :=
  ((l.find? (fun e => e.1 == p)).map (·.2)).getD 0

/-- `losses[p] = (losses[p] ?? 0) + v` with JS key-insertion order. -/
def bumpLoss : LossMap → ProductType → ℚ → LossMap
  | [], p, v => [(p, v)]
  | e :: rest, p, v => if e.1 = p then (p, e.2 + v) :: rest else e :: bumpLoss rest p v

/-- `CapitalState`. -/
structure CapitalState where
  cet1 : ℚ
  at1 : ℚ
deriving DecidableEq, Repr

/-- `IncomeStatement`. -/
structure IncomeStatement where
  interestIncome : ℚ
  interestExpense : ℚ
  netInterestIncome : ℚ
  feeIncome : ℚ
  creditLosses : ℚ
  operatingExpenses : ℚ
  preTaxProfit : ℚ
  tax : ℚ
  netIncome : ℚ
deriving DecidableEq, Repr

/-- `CashFlowStatement`. -/
structure CashFlowStatement where
  cashStart : ℚ
  cashEnd : ℚ
  netChange : ℚ
  operatingCashFlow : ℚ
  investingCashFlow : ℚ
  financingCashFlow : ℚ
deriving DecidableEq, Repr

/-- A JS number that is either a finite rational or `+Infinity`.  The four
regulatory ratios are the only values the engine deliberately sets to
`Infinity` (always positive); `NaN`/`-Infinity` are unreachable. -/
inductive QInf
  | fin (q : ℚ)
  | inf
deriving DecidableEq, Repr

/-- JS `<` between a ratio and a finite limit: `Infinity < x` is false. -/
def QInf.ltQ : QInf → ℚ → Bool
  | .fin q, m => q < m
  | .inf, _ => false

/-- `RiskMetrics`. -/
structure RiskMetrics where
  rwa : ℚ
  leverageExposure : ℚ
  cet1Ratio : QInf
  leverageRatio : QInf
  hqla : ℚ
  lcr : QInf
  lcrOutflowMultiplier : ℚ
  asf : ℚ
  rsf : ℚ
  nsfr : QInf
deriving DecidableEq, Repr

/-- `RiskLimits`. -/
structure RiskLimits where
  minCet1Ratio : ℚ
  minLeverageRatio : ℚ
  minLcr : ℚ
  minNsfr : ℚ
deriving DecidableEq, Repr

/-- `ComplianceStatus`. -/
structure ComplianceStatus where
  cet1Breached : Bool
  leverageBreached : Bool
  lcrBreached : Bool
  nsfrBreached : Bool
deriving DecidableEq, Repr

/-- `GdpRegime`. -/
inductive GdpRegime
  | normal
  | recession
deriving DecidableEq, Repr

/-- `UkMacroFactors`. -/
structure UkMacroFactors where
  fD : ℚ
  fS : ℚ
  fF : ℚ
  fR : ℚ
deriving DecidableEq, Repr

/-- `UkMacroModelState`. -/
structure UkMacroModelState where
  factors : UkMacroFactors
  gdpRegime : GdpRegime
  unemploymentLatent : ℚ
  termPremium : ℚ
  rngSeed : ℤ
deriving DecidableEq, Repr

/-- `NelsonSiegelFactors`. -/
structure NelsonSiegelFactors where
  level : ℚ
  slope : ℚ
  curvature : ℚ
  lambda : ℚ
deriving DecidableEq, Repr

/-- `GiltCurveYields`. -/
structure GiltCurveYields where
  y1 : ℚ
  y2 : ℚ
  y3 : ℚ
  y5 : ℚ
  y10 : ℚ
  y20 : ℚ
  y30 : ℚ
deriving DecidableEq, Repr

/-- `GiltCurveState`. -/
structure GiltCurveState where
  nelsonSiegel : NelsonSiegelFactors
  yields : GiltCurveYields
deriving DecidableEq, Repr

/-- `MarketState`. -/
structure MarketState where
  baseRate : ℚ
  riskFreeShort : ℚ
  riskFreeLong : ℚ
  mortgageSpread : ℚ
  corporateLoanSpread : ℚ
  wholesaleFundingSpread : ℚ
  seniorDebtSpread : ℚ
  giltRepoHaircut : ℚ
  corpBondRepoHaircut : ℚ
  competitorRetailDepositRate : ℚ
  competitorMortgageRate : ℚ
  competitorCorporateDepositRate : Option ℚ
  gdpGrowthMoM : ℚ
  unemploymentRate : ℚ
  inflationRate : ℚ
  creditSpread : ℚ
  giltCurve : GiltCurveState
  macroModel : UkMacroModelState
deriving DecidableEq, Repr

/-- `BehaviouralState`. -/
structure BehaviouralState where
  depositFranchiseStrength : ℚ
  reputation : ℚ
  ratingNotchOffset : ℚ
deriving DecidableEq, Repr

/-- `SimulationTime`; `date` is the epoch-millisecond value of the JS
`Date` (kept rational because `stepLengthMonths` may be fractional). -/
structure SimulationTime where
  step : ℤ
  date : ℚ
  stepLengthMonths : ℚ
deriving DecidableEq, Repr

/-- `SimulationStatus`. -/
structure SimulationStatus where
  isInResolution : Bool
  hasFailed : Bool
deriving DecidableEq, Repr

/-- `FinancialState`. -/
structure FinancialState where
  balanceSheet : BalanceSheet
  capital : CapitalState
  incomeStatement : IncomeStatement
  cashFlowStatement : CashFlowStatement
deriving DecidableEq, Repr

/-- `RiskState`. -/
structure RiskState where
  riskMetrics : RiskMetrics
  compliance : ComplianceStatus
deriving DecidableEq, Repr

/-- `BankState` (the current, nested shape with `financial`/`risk`/`status`). -/
structure BankState where
  version : String
  time : SimulationTime
  financial : FinancialState
  risk : RiskState
  market : MarketState
  behaviour : BehaviouralState
  loanCohorts : CohortMap
  status : SimulationStatus
deriving DecidableEq, Repr

/-- Items list of a state. -/
def BankState.items (s : BankState) : List BalanceSheetItem :=
  s.financial.balanceSheet.items

/-- Replace the items list. -/
def BankState.setItems (s : BankState) (items : List BalanceSheetItem) : BankState :=
  { s with financial := { s.financial with balanceSheet := { items := items } } }

/-- `LoanCohortParameters` (the sub-record fields the engine reads;
the seasoned-portfolio generator, which the claims do not touch, is not
embedded, so its tuning fields are omitted here).
`defaultTermMonths` is checked with JS falsiness (`!defaultTerm`), so the
value 0 behaves like a missing value; we keep it as a plain integer. -/
structure LoanCohortParameters where
  defaultTermMonths : ℤ
  maxTermMonths : ℤ
deriving DecidableEq, Repr

/-- `ProductRiskParameters`. -/
structure ProductRiskParameters where
  riskWeight : ℚ
  baseDefaultRate : ℚ
  lossGivenDefault : ℚ
  volumeElasticityToRate : ℚ
  loan : Option LoanCohortParameters
deriving DecidableEq, Repr

/-- `GlobalSimulationParameters` (seasoning seed omitted; unused by the
embedded operations). -/
structure GlobalSimulationParameters where
  taxRate : ℚ
  operatingCostRatio : ℚ
  maxDepositGrowthPerStep : ℚ
  maxLoanGrowthPerStep : ℚ
  fixedOperatingCostPerMonth : ℚ
deriving DecidableEq, Repr

/-- `BehaviourParameters`. -/
structure BehaviourParameters where
  depositBaselineGrowthMonthly : ℚ
  loanBaselineGrowthMonthly : ℚ
  minDepositGrowthPerStep : ℚ
  minLoanGrowthPerStep : ℚ
  loanFeeRateMonthly : ℚ
deriving DecidableEq, Repr

/-- `IdiosyncraticRunParameters`. -/
structure IdiosyncraticRunParameters where
  baseRunOffRate : ℚ
  incrementalRate : ℚ
  maxRunOffRate : ℚ
deriving DecidableEq, Repr

/-- `ShockParameters`. -/
structure ShockParameters where
  idiosyncraticRun : IdiosyncraticRunParameters
deriving DecidableEq, Repr

/-- `ToleranceParameters`. -/
structure ToleranceParameters where
  cashFlowRoundingTolerance : ℚ
  cashFlowBreachThreshold : ℚ
deriving DecidableEq, Repr

/-- `SimulationConfig`.  The JS `Record<ProductType, _>` maps are total,
so they are modelled as functions. -/
structure SimulationConfig where
  productParameters : ProductType → ProductRiskParameters
  liquidityTags : ProductType → LiquidityTag
  globalParams : GlobalSimulationParameters
  riskLimits : RiskLimits
  behaviour : BehaviourParameters
  shockParameters : ShockParameters
  tolerances : ToleranceParameters

/-- Errors thrown by the embedded engine functions. -/
inductive EngineError
  | invalidCohort
  | missingCashForOrigination
  | missingCashForPrepayment
  | missingCashForCohortStep
  | invalidOriginationTerm
  | missingDefaultTermMonths
deriving DecidableEq, Repr

/-! ## Loan cohort engine (`src/engine/loanCohorts.ts`) -/

/-- `findItem` from loanCohorts.ts (first match by product type). -/
def findItemIn (items : List BalanceSheetItem) (p : ProductType) : Option BalanceSheetItem :=
  items.find? (fun i => i.productType == p)

/-- Map `f` over the first item with the given product type, mirroring the
source's mutation of the object returned by `find`. -/
def updateFirstItem : List BalanceSheetItem → ProductType → (BalanceSheetItem → BalanceSheetItem) → List BalanceSheetItem
  | [], _, _ => []
  | i :: rest, p, f =>
    if i.productType = p then f i :: rest else i :: updateFirstItem rest p f

/-- `getCashItem`. -/
def getCashItem (s : BankState) : Option BalanceSheetItem :=
  findItemIn s.items .CashReserves

/-- `sumLoanOutstanding`. -/
def sumLoanOutstanding (cohorts : List LoanCohort) : ℚ :=
  cohorts.foldl (fun sum c => sum + c.outstandingPrincipal) 0

/-- The fold inside `syncLoanBalancesFromCohorts`: walk the cohort-map
entries and, for loan products, set the matching line's balance to the
cohort outstanding sum. -/
def syncFold : List BalanceSheetItem → CohortMap → List BalanceSheetItem
  | items, [] => items
  | items, e :: rest =>
    syncFold
      (if e.1.isLoan then
        updateFirstItem items e.1 (fun it => { it with balance := sumLoanOutstanding e.2 })
      else items)
      rest

/-- `syncLoanBalancesFromCohorts`: for every loan product in the cohort
map that has a balance-sheet line, set that line's balance to the cohort
outstanding sum. -/
def syncLoanBalancesFromCohorts (s : BankState) : BankState :=
  s.setItems (syncFold s.items s.loanCohorts)

/-- `cleanCohorts`: drop cohorts with dust balances (`≤ 1e-2`) or at/past
term (the source splices in place; the result is a filter). -/
def cleanCohorts (cohorts : List LoanCohort) : List LoanCohort :=
  cohorts.filter (fun c => !(c.outstandingPrincipal ≤ 1e-2 || c.ageMonths ≥ c.termMonths))

/-- `validateCohort`, as a boolean: `true` means the source does not
throw.  Finiteness checks are always true over `ℚ`; the `Number.isInteger`
checks hold by construction for the `ℤ`-valued month fields. -/
def validateCohort (c : LoanCohort) (maxTermMonths : ℤ) : Bool :=
  (0 ≤ c.outstandingPrincipal : Bool) &&
  (0 ≤ c.originalPrincipal : Bool) &&
  (0 ≤ c.annualInterestRate : Bool) &&
  (0 < c.termMonths : Bool) &&
  !(c.termMonths > maxTermMonths || c.termMonths > 420) &&
  (0 ≤ c.ageMonths : Bool) &&
  (c.ageMonths < c.termMonths : Bool) &&
  (0 ≤ c.annualPd : Bool) &&
  !(c.lgd < 0 || c.lgd > 1)

/-- `getMaxTermMonths`. -/
def getMaxTermMonths (config : SimulationConfig) (p : ProductType) : ℤ :=
  min 420 (((config.productParameters p).loan.map (·.maxTermMonths)).getD 420)

/-- `getDefaultTermMonths` (throws when the loan sub-record is missing or
the configured value is JS-falsy, i.e. 0). -/
def getDefaultTermMonths (config : SimulationConfig) (p : ProductType) : Except EngineError ℤ :=
  match (config.productParameters p).loan with
  | none => .error .missingDefaultTermMonths
  | some lp => if lp.defaultTermMonths = 0 then .error .missingDefaultTermMonths else .ok lp.defaultTermMonths

/-- Short-circuiting left fold over `Except`, used to model loops whose
body can throw. -/
def foldlE {α β : Type _} (f : β → α → Except EngineError β) : β → List α → Except EngineError β
  | b, [] => .ok b
  | b, a :: as =>
    match f b a with
    | .error e => .error e
    | .ok b' => foldlE f b' as

/-- The state mutation performed by `upsertOriginationCohort` once all of
its guards have passed: deduct the funded principal from cash, merge into
an existing cohort with the same id (outstanding-weighted averages) or
append a fresh cohort, then clean and re-sync. -/
def upsertApply (state : BankState) (productType : ProductType) (cohortId : ℤ)
    (fundedPrincipal annualInterestRate : ℚ) (termMonths : ℤ) (annualPd lgd : ℚ) :
    BankState :=
  let (map₁, cohorts) := getOrCreateCohorts state.loanCohorts productType
  let existing? := cohorts.find? (fun c => c.cohortId == cohortId)
  let state := state.setItems
    (updateFirstItem state.items .CashReserves
      (fun it => { it with balance := it.balance - fundedPrincipal }))
  let cohorts' :=
    match existing? with
    | some _ =>
      cohorts.map (fun c =>
        if c.cohortId = cohortId then
          let w0 := max 0 c.outstandingPrincipal
          let w1 := fundedPrincipal
          let w := w0 + w1
          { c with
            outstandingPrincipal := c.outstandingPrincipal + fundedPrincipal
            originalPrincipal := c.originalPrincipal + fundedPrincipal
            annualInterestRate :=
              if w > 0 then (c.annualInterestRate * w0 + annualInterestRate * w1) / w
              else annualInterestRate
            annualPd := if w > 0 then (c.annualPd * w0 + annualPd * w1) / w else annualPd
            lgd := if w > 0 then (c.lgd * w0 + lgd * w1) / w else lgd
            termMonths := max c.termMonths termMonths
            ageMonths := min c.ageMonths 0 }
        else c)
    | none =>
      cohorts ++ [{
        productType := productType
        cohortId := cohortId
        originalPrincipal := fundedPrincipal
        outstandingPrincipal := fundedPrincipal
        annualInterestRate := max 0 annualInterestRate
        termMonths := termMonths
        ageMonths := 0
        annualPd := max 0 annualPd
        lgd := clampQ lgd 0 1 }]
  let state := { state with loanCohorts := setCohorts map₁ productType (cleanCohorts cohorts') }
  syncLoanBalancesFromCohorts state

/-- `upsertOriginationCohort`.  Returns the mutated state together with
the funded principal.  (In the source, the cohort array is looked up just
before the missing-cash check; both are pure reads, so the order of the
guards below is observationally identical.) -/
def upsertOriginationCohort (state : BankState) (config : SimulationConfig)
    (productType : ProductType) (cohortId : ℤ) (principalArg : ℚ)
    (annualInterestRate : ℚ) (termMonthsOpt : Option ℤ) (annualPd lgd : ℚ) :
    Except EngineError (BankState × ℚ) :=
  if !productType.isLoan then .ok (state, 0)
  else
    let principal := max 0 principalArg
    if principal ≤ 0 then .ok (state, 0)
    else
      let cash? := getCashItem state
      let availableCash := max 0 ((cash?.map (·.balance)).getD 0)
      let fundedPrincipal := min principal availableCash
      if fundedPrincipal ≤ 0 then .ok (state, 0)
      else
        let baseTerm? : Except EngineError ℤ :=
          match termMonthsOpt with
          | some t => .ok t
          | none => getDefaultTermMonths config productType
        match baseTerm? with
        | .error e => .error e
        | .ok baseTerm =>
          let termMonths := min (getMaxTermMonths config productType) baseTerm
          if termMonths ≤ 0 then .error .invalidOriginationTerm
          else if cash?.isNone then .error .missingCashForOrigination
          else .ok (upsertApply state productType cohortId fundedPrincipal
                      annualInterestRate termMonths annualPd lgd, fundedPrincipal)

/-- The allocation loop of `applyExtraPrepayment` (lines 462–471): walks
the cohort list carrying the remaining amount, breaking once it drops to
`1e-9` or below; a non-final cohort gets the pro-rata base
`actual · outstanding / total`, the final cohort gets the whole remainder.
Returns the updated cohorts and the unallocated remainder. -/
def allocPrepay (actual total : ℚ) : List LoanCohort → ℚ → List LoanCohort × ℚ
  | [], remaining => ([], remaining)
  | c :: rest, remaining =>
    if remaining ≤ 1e-9 then (c :: rest, remaining)
    else
      let base := if rest = [] then remaining else actual * c.outstandingPrincipal / total
      let reduction := min c.outstandingPrincipal (max 0 base)
      let c' := { c with outstandingPrincipal := c.outstandingPrincipal - reduction }
      let (rest', rem') := allocPrepay actual total rest (remaining - reduction)
      (c' :: rest', rem')

/-- The state mutation performed by `applyExtraPrepayment` once its
guards have passed: run the allocation loop, credit cash with the paid
amount, clean, and re-sync. -/
def prepayApply (state : BankState) (productType : ProductType)
    (actual totalOutstanding : ℚ) (cohorts : List LoanCohort) : BankState :=
  let (cohorts', _) := allocPrepay actual totalOutstanding cohorts actual
  let state := state.setItems
    (updateFirstItem state.items .CashReserves
      (fun it => { it with balance := it.balance + actual }))
  let state :=
    { state with loanCohorts := setCohorts state.loanCohorts productType (cleanCohorts cohorts') }
  syncLoanBalancesFromCohorts state

/-- `applyExtraPrepayment`. -/
def applyExtraPrepayment (state : BankState) (productType : ProductType) (amount : ℚ) :
    Except EngineError (BankState × ℚ) :=
  if !productType.isLoan then .ok (state, 0)
  else
    let (map₁, cohorts) := getOrCreateCohorts state.loanCohorts productType
    let state₁ := { state with loanCohorts := map₁ }
    let totalOutstanding := sumLoanOutstanding cohorts
    let requested := max 0 amount
    let actual := min requested totalOutstanding
    if actual ≤ 0 then .ok (state₁, 0)
    else if (getCashItem state₁).isNone then .error .missingCashForPrepayment
    else .ok (prepayApply state₁ productType actual totalOutstanding cohorts, actual)

/-- `monthlyPayment`.  The source's `Number.isFinite(denom)` guard fires
exactly when `(1+r)^(-n)` is infinite, i.e. when `1 + r = 0` with a
positive exponent; that case is made explicit here (double overflow at
astronomically large rates is outside the model). -/
def monthlyPayment (outstandingPrincipal annualRate : ℚ) (remainingMonths : ℤ) : ℚ :=
  if remainingMonths ≤ 0 then outstandingPrincipal
  else
    let r := annualRate / 12
    if |r| < 1e-12 then outstandingPrincipal / (remainingMonths : ℚ)
    else if 1 + r = 0 then outstandingPrincipal
    else
      let denom := 1 - (1 + r) ^ (-remainingMonths)
      if |denom| < 1e-12 then outstandingPrincipal
      else outstandingPrincipal * r / denom

/-- Per-cohort body of the monthly loop in `stepLoanCohorts`.  Returns the
cohort after payment/default/ageing together with the cash delta, the
interest earned, and — when the `defaulted > 0` branch ran — the
recognised loss (`none` means the loss map is not touched).  `rt12 x`
models `Math.pow(x, 1 / 12)`. -/
def stepCohortMonthCore (rt12 : ℚ → ℚ) (pdMultiplier lgdMultiplier : ℚ)
    (c : LoanCohort) : LoanCohort × ℚ × ℚ × Option ℚ :=
  let remainingMonths := c.termMonths - c.ageMonths
  let pmt := monthlyPayment c.outstandingPrincipal c.annualInterestRate remainingMonths
  let r := c.annualInterestRate / 12
  let interest := c.outstandingPrincipal * r
  let principal := min c.outstandingPrincipal (max 0 (pmt - interest))
  let out₁ := c.outstandingPrincipal - principal
  let annualPd := clampQ (c.annualPd * pdMultiplier) 0 0.999999
  let pdMonth := 1 - rt12 (1 - annualPd)
  let defaulted := max 0 (out₁ * pdMonth)
  if defaulted > 0 then
    let lgd := clampQ (c.lgd * lgdMultiplier) 0 1
    let loss := defaulted * lgd
    let recovery := defaulted - loss
    ({ c with outstandingPrincipal := out₁ - defaulted, ageMonths := c.ageMonths + 1 },
     interest + principal + recovery, interest, some loss)
  else
    ({ c with outstandingPrincipal := out₁, ageMonths := c.ageMonths + 1 },
     interest + principal, interest, none)

/-- Guarded per-cohort body: skip finished cohorts, validate, then run the
payment/default computation. -/
def stepCohortMonth (rt12 : ℚ → ℚ) (pdMultiplier lgdMultiplier : ℚ) (maxTermMonths : ℤ)
    (c : LoanCohort) : Except EngineError (LoanCohort × ℚ × ℚ × Option ℚ) :=
  if c.outstandingPrincipal ≤ 0 then .ok (c, 0, 0, none)
  else if c.ageMonths ≥ c.termMonths then .ok (c, 0, 0, none)
  else if !validateCohort c maxTermMonths then .error .invalidCohort
  else .ok (stepCohortMonthCore rt12 pdMultiplier lgdMultiplier c)

/-- Inner accumulator step of the per-product cohort loop. -/
def stepCohortAcc (rt12 : ℚ → ℚ) (pdMultiplier lgdMultiplier : ℚ) (maxTermMonths : ℤ)
    (p : ProductType) (inner : List LoanCohort × ℚ × ℚ × LossMap) (c : LoanCohort) :
    Except EngineError (List LoanCohort × ℚ × ℚ × LossMap) :=
  match stepCohortMonth rt12 pdMultiplier lgdMultiplier maxTermMonths c with
  | .error e => .error e
  | .ok (c', dCash, dInt, dLoss) =>
    let (outCohorts, cashDelta, inc, ls) := inner
    let ls' := match dLoss with
      | some l => bumpLoss ls p l
      | none => ls
    .ok (outCohorts ++ [c'], cashDelta + dCash, inc + dInt, ls')

/-- One month of `stepLoanCohorts` for one product: runs every cohort
through `stepCohortMonth`, then `cleanCohorts`.  The accumulator carries
(state, loanInterestIncome, recognizedLoanLosses). -/
def stepProductMonth (rt12 : ℚ → ℚ) (pdMultiplier lgdMultiplier : ℚ) (config : SimulationConfig)
    (acc : BankState × ℚ × LossMap) (p : ProductType) :
    Except EngineError (BankState × ℚ × LossMap) :=
  let (state, income, losses) := acc
  if !p.isLoan then .ok acc
  else
    let (map₁, cohorts) := getOrCreateCohorts state.loanCohorts p
    let state := { state with loanCohorts := map₁ }
    let maxTermMonths := getMaxTermMonths config p
    match foldlE (stepCohortAcc rt12 pdMultiplier lgdMultiplier maxTermMonths p)
        ([], 0, 0, losses) cohorts with
    | .error e => .error e
    | .ok (cohorts', cashDelta, dIncome, losses') =>
      let state := state.setItems
        (updateFirstItem state.items .CashReserves
          (fun it => { it with balance := it.balance + cashDelta }))
      let state :=
        { state with loanCohorts := setCohorts state.loanCohorts p (cleanCohorts cohorts') }
      .ok (state, income + dIncome, losses')

/-- The write-down loop of the extra-losses stage of `stepLoanCohorts`
(lines 562–570): same shape as `allocPrepay`, but additionally returns the
total amount written down (which the source accumulates into
`recognizedLoanLosses`). -/
def allocLoss (lossToApply total : ℚ) : List LoanCohort → ℚ → List LoanCohort × ℚ × ℚ
  | [], remaining => ([], remaining, 0)
  | c :: rest, remaining =>
    if remaining ≤ 1e-9 then (c :: rest, remaining, 0)
    else
      let alloc := if rest = [] then remaining else lossToApply * c.outstandingPrincipal / total
      let writeDown := min c.outstandingPrincipal (max 0 alloc)
      let c' := { c with outstandingPrincipal := c.outstandingPrincipal - writeDown }
      let (rest', rem', written) := allocLoss lossToApply total rest (remaining - writeDown)
      (c' :: rest', rem', writeDown + written)

/-- One entry of the extra-losses stage of `stepLoanCohorts` (the body of
the `extraEntries.forEach`).  The accumulator carries
(state, recognizedLoanLosses).  The source bumps
`recognizedLoanLosses[p]` once per processed cohort; the net effect — the
key receives the total written amount, and is only created when at least
one cohort was processed (i.e. the loop did not break immediately) — is
reproduced here. -/
def applyExtraLossEntry (acc : BankState × LossMap) (entry : ProductType × ℚ) :
    BankState × LossMap :=
  let (state, losses) := acc
  let (p, loss) := entry
  if !p.isLoan then acc
  else if loss ≤ 0 then acc
  else
    let (map₁, cohorts) := getOrCreateCohorts state.loanCohorts p
    let state := { state with loanCohorts := map₁ }
    let total := sumLoanOutstanding cohorts
    if total ≤ 0 then (state, losses)
    else
      let lossToApply := min loss total
      let (cohorts', _, written) := allocLoss lossToApply total cohorts lossToApply
      let losses' := if lossToApply ≤ 1e-9 then losses else bumpLoss losses p written
      ({ state with loanCohorts := setCohorts state.loanCohorts p (cleanCohorts cohorts') }, losses')

/-- Result record of `stepLoanCohorts` (`LoanCohortStepResult`). -/
structure LoanCohortStepResult where
  loanInterestIncome : ℚ
  recognizedLoanLosses : LossMap
deriving DecidableEq, Repr

/-- `stepLoanCohorts`.  `dtMonths` is floored and clamped at 0; with a
zero month count the function returns immediately (before the extra-loss
stage).  Then: the monthly loop over the product keys captured at entry,
the extra-losses stage, and a final balance re-sync. -/
def stepLoanCohorts (rt12 : ℚ → ℚ) (state : BankState) (config : SimulationConfig)
    (dtMonths : ℚ) (pdMultiplier lgdMultiplier : ℚ) (extraLossesByProduct : LossMap) :
    Except EngineError (BankState × LoanCohortStepResult) :=
  let dt := (max 0 ⌊dtMonths⌋).toNat
  if dt = 0 then .ok (state, { loanInterestIncome := 0, recognizedLoanLosses := [] })
  else if (getCashItem state).isNone then .error .missingCashForCohortStep
  else
    let loanProductTypes := state.loanCohorts.map (·.1)
    let monthly := fun (acc : BankState × ℚ × LossMap) (_ : ℕ) =>
      foldlE (stepProductMonth rt12 pdMultiplier lgdMultiplier config) acc loanProductTypes
    match foldlE monthly (state, 0, []) (List.range dt) with
    | .error e => .error e
    | .ok (state, loanInterestIncome, losses) =>
      let (state, losses) := extraLossesByProduct.foldl applyExtraLossEntry (state, losses)
      .ok (syncLoanBalancesFromCohorts state,
           { loanInterestIncome := loanInterestIncome, recognizedLoanLosses := losses })

/-! ## Risk metrics (`src/engine/metrics.ts`) -/

/-- `HQLA_FACTORS`. -/
def hqlaFactor : HqlaLevel → ℚ
  | .level1 => 1
  | .level2A => 17/20
  | .level2B => 1/2
  | .none => 0

/-- `computeHqla` (called on the asset items). -/
def computeHqla (items : List BalanceSheetItem) : ℚ :=
  items.foldl
    (fun sum item =>
      match item.liquidityTag with
      | none => sum
      | some tag =>
        let enc := ((item.encumbrance.map (·.encumberedAmount)).getD 0)
        let unencumbered := max 0 (item.balance - enc)
        sum + unencumbered * hqlaFactor tag.hqlaLevel)
    0

/-- The amount one item adds to the LCR outflow accumulator: zero without
a tag or outflow rate, otherwise `balance · rate · multiplier` where the
stress multiplier applies exactly to retail and corporate deposits. -/
def lcrItemOutflow (m : ℚ) (item : BalanceSheetItem) : ℚ :=
  match item.liquidityTag with
  | none => 0
  | some tag =>
    match tag.lcrOutflowRate with
    | none => 0
    | some rate =>
      let multiplier :=
        if item.productType = .RetailDeposits ∨ item.productType = .CorporateDeposits then m
        else 1
      item.balance * rate * multiplier

/-- The amount one item adds to the LCR inflow accumulator. -/
def lcrItemInflow (item : BalanceSheetItem) : ℚ :=
  match item.liquidityTag with
  | none => 0
  | some tag =>
    match tag.lcrInflowRate with
    | none => 0
    | some rate => item.balance * rate

/-- `computeLcr`: accumulate outflows and inflows over all items (the
source's `forEach`), cap inflows at 75% of outflows, floor net outflows
at 0, and return `Infinity` when there are no net outflows. -/
def computeLcr (items : List BalanceSheetItem) (hqla lcrOutflowMultiplier : ℚ) :
    QInf × ℚ :=
  let flows := items.foldl
    (fun (acc : ℚ × ℚ) item =>
      (acc.1 + lcrItemOutflow lcrOutflowMultiplier item, acc.2 + lcrItemInflow item))
    (0, 0)
  let outflows := flows.1
  let inflows := flows.2
  let inflowsCapped := min inflows (3/4 * outflows)
  let netOutflows := max 0 (outflows - inflowsCapped)
  let lcr := if netOutflows > 0 then QInf.fin (hqla / netOutflows) else QInf.inf
  (lcr, netOutflows)

/-- `computeNsfr`: available stable funding starts from capital, each item
adds `balance · asfFactor` and requires `balance · rsfFactor`. -/
def computeNsfr (items : List BalanceSheetItem) (cet1 at1 : ℚ) : ℚ × ℚ × QInf :=
  let acc := items.foldl
    (fun (acc : ℚ × ℚ) item =>
      match item.liquidityTag with
      | none => acc
      | some tag =>
        ((match tag.nsfrAsfFactor with
          | none => acc.1
          | some f => acc.1 + item.balance * f),
         (match tag.nsfrRsfFactor with
          | none => acc.2
          | some f => acc.2 + item.balance * f)))
    (cet1 + at1, 0)
  let asf := acc.1
  let rsf := acc.2
  let nsfr := if rsf > 0 then QInf.fin (asf / rsf) else QInf.inf
  (asf, rsf, nsfr)

/-- Asset-side items of a state. -/
def assetsOf (s : BankState) : List BalanceSheetItem :=
  s.items.filter (fun i => i.side == Side.asset)

/-- `leverageExposure = Σ asset balances`. -/
def totalAssetsOf (s : BankState) : ℚ :=
  (assetsOf s).foldl (fun sum a => sum + a.balance) 0

/-- `rwa = Σ asset balance · riskWeight` (the config record is total, so
the source's `?? 0` fallback is always the configured weight). -/
def rwaOf (s : BankState) (config : SimulationConfig) : ℚ :=
  (assetsOf s).foldl (fun sum a => sum + a.balance * (config.productParameters a.productType).riskWeight) 0

/-- `calculateRiskMetrics`.  (The metrics module in the snapshot reads the
flat state shape; the current engine state nests the balance sheet and
capital under `financial`, which is what is read here — the computation
itself is unchanged.) -/
def calculateRiskMetrics (s : BankState) (config : SimulationConfig)
    (lcrOutflowMultiplier : ℚ) : RiskMetrics :=
  let rwa := rwaOf s config
  let leverageExposure := totalAssetsOf s
  let cet1Ratio := if rwa > 0 then QInf.fin (s.financial.capital.cet1 / rwa) else QInf.inf
  let leverageRatio :=
    if leverageExposure > 0 then
      QInf.fin ((s.financial.capital.cet1 + s.financial.capital.at1) / leverageExposure)
    else QInf.inf
  let hqla := computeHqla (assetsOf s)
  let lcrPair := computeLcr s.items hqla lcrOutflowMultiplier
  let nsfrTriple := computeNsfr s.items s.financial.capital.cet1 s.financial.capital.at1
  { rwa := rwa
    leverageExposure := leverageExposure
    cet1Ratio := cet1Ratio
    leverageRatio := leverageRatio
    hqla := hqla
    lcr := lcrPair.1
    lcrOutflowMultiplier := lcrOutflowMultiplier
    asf := nsfrTriple.1
    rsf := nsfrTriple.2.1
    nsfr := nsfrTriple.2.2 }

/-- `evaluateCompliance`: a ratio breaches when it is strictly below its
configured minimum; `Infinity` never breaches. -/
def evaluateCompliance (metrics : RiskMetrics) (limits : RiskLimits) : ComplianceStatus :=
  { cet1Breached := metrics.cet1Ratio.ltQ limits.minCet1Ratio
    leverageBreached := metrics.leverageRatio.ltQ limits.minLeverageRatio
    lcrBreached := metrics.lcr.ltQ limits.minLcr
    nsfrBreached := metrics.nsfr.ltQ limits.minNsfr }

/-! ## Simulation engine step (`src/engine/simulation.ts`) -/

/-- `EventSeverity`. -/
inductive Severity
  | info
  | warning
  | error
deriving DecidableEq, Repr

/-- The event messages the engine can emit.  The source renders these to
strings; each constructor carries every datum its string interpolates, so
two messages are equal exactly when the rendered strings are. -/
inductive Msg
  | cashShortAfterFlow (shortfall : ℚ)
  | cashShortAfterOutflow (shortfall : ℚ)
  | issuedEquity (amount : ℚ)
  | issuedDebt (p : ProductType) (amount rate : ℚ)
  | insufficientCashToBuy (p : ProductType) (requested executed : ℚ)
  | bought (p : ProductType) (amount : ℚ)
  | sold (p : ProductType) (amount : ℚ)
  | repoBorrowFailed (p : ProductType)
  | repoBorrow (p : ProductType) (borrowed requested : ℚ) (wasCapped : Bool)
  | repoLend (amount : ℚ)
  | counterpartyDefault (p : ProductType) (loss : ℚ)
  | shockDepositCompetition (retailRateIncrease : ℚ)
  | shockMarketSpread (wholesaleSpreadBps : ℚ)
  | runRetailReduced (paid rate : ℚ)
  | unmetRetailWithdrawal (amount : ℚ)
  | runCorporateReduced (paid rate : ℚ)
  | unmetCorporateWithdrawal (amount : ℚ)
  | shockIdiosyncraticRun (multiplier : ℚ)
  | shockMacroDownturn (pdMultiplier lgdMultiplier : ℚ)
  | adjustedRate (p : ProductType) (newRate : ℚ)
  | unmetDepositWithdrawal (p : ProductType) (amount : ℚ)
  | behaviourGrowth (p : ProductType) (growth : ℚ)
  | insufficientCashToOriginate (p : ProductType) (requested executed : ℚ)
  | regulatoryBreach
  | invariantNotBalanced (diff : ℚ)
  | invariantNegativeBalance (p : ProductType) (balance : ℚ)
  | cashFlowMismatch (operating investing financing netChange diff : ℚ)
deriving DecidableEq, Repr

/-- The deterministic core of a `SimulationEvent`: severity and message.
`createEvent` adds the id and timestamp, which depend on `Date.now()` and
the module-level `eventSequence` counter and are therefore modelled
separately (`decorate`). -/
abbrev EventCore := Severity × Msg

/-- `findItem` from simulation.ts. -/
def findItem (bs : BalanceSheet) (p : ProductType) : Option BalanceSheetItem :=
  bs.items.find? (fun i => i.productType == p)

/-- `adjustCashOrFail`: apply a cash delta; on a negative result floor the
balance at 0, mark the bank failed and emit an error event. -/
def adjustCashOrFail (state : BankState) (delta : ℚ) (events : List EventCore) :
    BankState × List EventCore :=
  match findItem state.financial.balanceSheet .CashReserves with
  | none => (state, events)
  | some cash =>
    if cash.balance + delta ≥ 0 then
      (state.setItems (updateFirstItem state.items .CashReserves
        (fun it => { it with balance := (it.balance + delta) })), events)
    else
      let shortfall := -(cash.balance + delta)
      let state := state.setItems (updateFirstItem state.items .CashReserves
        (fun it => { it with balance := 0 }))
      let state := { state with status := { state.status with hasFailed := true } }
      (state, events ++ [(Severity.error, Msg.cashShortAfterFlow shortfall)])

/-- `applyCashOutflowOrFail`: pay out at most the available cash; on a
shortfall mark the bank failed.  Returns the amount actually paid. -/
def applyCashOutflowOrFail (state : BankState) (outflow : ℚ) (events : List EventCore) :
    BankState × List EventCore × ℚ :=
  if outflow ≤ 0 then (state, events, 0)
  else
    match findItem state.financial.balanceSheet .CashReserves with
    | none => (state, events, 0)
    | some cash =>
      let paid := max 0 (min outflow cash.balance)
      let state := state.setItems (updateFirstItem state.items .CashReserves
        (fun it => { it with balance := (it.balance - paid) }))
      if outflow - paid ≤ 0 then (state, events, paid)
      else
        let state := { state with status := { state.status with hasFailed := true } }
        (state, events ++ [(Severity.error, Msg.cashShortAfterOutflow (outflow - paid))], paid)

/-- `adjustInterestRate` (no-op when the line is missing). -/
def adjustInterestRate (state : BankState) (p : ProductType) (newRate : ℚ) : BankState :=
  match findItem state.financial.balanceSheet p with
  | none => state
  | some _ => state.setItems (updateFirstItem state.items p
      (fun it => { it with interestRate := newRate }))

/-- `applyIssueEquity`: add to CET1 and to cash. -/
def applyIssueEquity (state : BankState) (amount : ℚ) (events : List EventCore) :
    BankState × List EventCore :=
  let state := { state with financial := { state.financial with
    capital := { state.financial.capital with
      cet1 := (state.financial.capital.cet1 + amount) } } }
  let state := match findItem state.financial.balanceSheet .CashReserves with
    | none => state
    | some _ => state.setItems (updateFirstItem state.items .CashReserves
        (fun it => { it with balance := (it.balance + amount) }))
  (state, events ++ [(Severity.info, Msg.issuedEquity amount)])

/-- `blendRate`. -/
def blendRate (existingBalance existingRate newAmount newRate : ℚ) : ℚ :=
  if existingBalance + newAmount = 0 then newRate
  else (existingBalance * existingRate + newAmount * newRate) / (existingBalance + newAmount)

/-- `ensureLineItem`: append a zero-balance line when the product has no
line yet (label/currency/maturity are decorative and omitted from the
embedding). -/
def ensureLineItem (state : BankState) (side : Side) (p : ProductType) (rate : ℚ)
    (config : SimulationConfig) : BankState :=
  match findItem state.financial.balanceSheet p with
  | some _ => state
  | none => state.setItems (state.items ++
      [{ side := side, productType := p, balance := 0, interestRate := rate,
         liquidityTag := some (config.liquidityTags p),
         encumbrance := some ⟨0⟩ }])

/-- `applyIssueDebt`. -/
def applyIssueDebt (state : BankState) (config : SimulationConfig) (p : ProductType)
    (amount : ℚ) (rateOverride : Option ℚ) (events : List EventCore) :
    BankState × List EventCore :=
  match findItem state.financial.balanceSheet .CashReserves with
  | none => (state, events)
  | some _ =>
    let pricingRate := rateOverride.getD
      (if p = .WholesaleFundingST then
        state.market.riskFreeShort + state.market.wholesaleFundingSpread
       else state.market.riskFreeLong + state.market.seniorDebtSpread)
    let state := ensureLineItem state .liability p pricingRate config
    let line := (findItem state.financial.balanceSheet p).getD
      ⟨.liability, p, 0, pricingRate, none, none⟩
    let newRate := blendRate line.balance line.interestRate amount pricingRate
    let state := state.setItems (updateFirstItem state.items p
      (fun it => { it with interestRate := newRate, balance := (it.balance + amount) }))
    let state := state.setItems (updateFirstItem state.items .CashReserves
      (fun it => { it with balance := (it.balance + amount) }))
    (state, events ++ [(Severity.info, Msg.issuedDebt p amount newRate)])

/-- `applyBuySellAsset` (loans route through origination/prepayment; other
assets trade at par against cash). -/
def applyBuySellAsset (state : BankState) (config : SimulationConfig) (p : ProductType)
    (amountDelta : ℚ) (events : List EventCore) :
    Except EngineError (BankState × List EventCore) :=
  match findItem state.financial.balanceSheet p,
        findItem state.financial.balanceSheet .CashReserves with
  | some asset, some cashIt =>
    if p.isLoan then
      let params := config.productParameters p
      if amountDelta ≥ 0 then
        match upsertOriginationCohort state config p state.time.step amountDelta
            asset.interestRate none params.baseDefaultRate params.lossGivenDefault with
        | .error e => .error e
        | .ok (state, executed) =>
          let events := if executed + 1e-6 < amountDelta then
              events ++ [(Severity.warning, Msg.insufficientCashToBuy p amountDelta executed)]
            else events
          .ok (state, events ++ [(Severity.info, Msg.bought p executed)])
      else
        match applyExtraPrepayment state p |amountDelta| with
        | .error e => .error e
        | .ok (state, executed) =>
          .ok (state, events ++ [(Severity.info, Msg.sold p executed)])
    else
      if amountDelta ≥ 0 then
        let buyAmount := min amountDelta (max 0 cashIt.balance)
        let state := state.setItems (updateFirstItem state.items p
          (fun it => { it with balance := (it.balance + buyAmount) }))
        let state := state.setItems (updateFirstItem state.items .CashReserves
          (fun it => { it with balance := (it.balance - buyAmount) }))
        let events := if buyAmount < amountDelta then
            events ++ [(Severity.warning, Msg.insufficientCashToBuy p amountDelta buyAmount)]
          else events
        .ok (state, events ++ [(Severity.info, Msg.bought p buyAmount)])
      else
        let sellAmount := min asset.balance |amountDelta|
        let state := state.setItems (updateFirstItem state.items p
          (fun it => { it with balance := (it.balance - sellAmount) }))
        let (state, events) := adjustCashOrFail state sellAmount events
        .ok (state, events ++ [(Severity.info, Msg.sold p sellAmount)])
  | _, _ => .ok (state, events)

/-- `applyRepoBorrow`. -/
def applyRepoBorrow (state : BankState) (config : SimulationConfig)
    (collateralProduct : ProductType) (amount : ℚ) (haircut : Option ℚ) (rate : ℚ)
    (events : List EventCore) : BankState × List EventCore :=
  match findItem state.financial.balanceSheet .CashReserves with
  | none => (state, events)
  | some _ =>
    let collateralFound := findItem state.financial.balanceSheet collateralProduct
    let collateralRequirement := 1 + max 0 (haircut.getD 0)
    let availableCollateral := match collateralFound with
      | some col => max 0 (col.balance - ((col.encumbrance.map (·.encumberedAmount)).getD 0))
      | none => 0
    let maxBorrow := if collateralRequirement > 0 then
        availableCollateral / collateralRequirement
      else 0
    let borrowAmount := min amount maxBorrow
    if borrowAmount ≤ 0 then
      (state, events ++ [(Severity.warning, Msg.repoBorrowFailed collateralProduct)])
    else
      let state := ensureLineItem state .liability .RepurchaseAgreements rate config
      let funding := (findItem state.financial.balanceSheet .RepurchaseAgreements).getD
        ⟨.liability, .RepurchaseAgreements, 0, rate, none, none⟩
      let newRate := blendRate funding.balance funding.interestRate borrowAmount rate
      let state := state.setItems (updateFirstItem state.items .RepurchaseAgreements
        (fun it => { it with interestRate := newRate, balance := (it.balance + borrowAmount) }))
      let state := state.setItems (updateFirstItem state.items .CashReserves
        (fun it => { it with balance := (it.balance + borrowAmount) }))
      let state := match collateralFound with
        | none => state
        | some _ => state.setItems (updateFirstItem state.items collateralProduct
            (fun it => { it with encumbrance := (some ⟨clampQ
              (((it.encumbrance.map (·.encumberedAmount)).getD 0) +
                min it.balance (borrowAmount * collateralRequirement)) 0 it.balance⟩) }))
      (state, events ++ [(Severity.info,
        Msg.repoBorrow collateralProduct borrowAmount amount
          (decide (borrowAmount + 1e-9 < amount)))])

/-- `applyRepoLend`. -/
def applyRepoLend (state : BankState) (config : SimulationConfig) (amount rate : ℚ)
    (events : List EventCore) : BankState × List EventCore :=
  match findItem state.financial.balanceSheet .CashReserves with
  | none => (state, events)
  | some cashIt =>
    let state := ensureLineItem state .asset .ReverseRepo rate config
    let rr := (findItem state.financial.balanceSheet .ReverseRepo).getD
      ⟨.asset, .ReverseRepo, 0, rate, none, none⟩
    let lendAmount := min cashIt.balance amount
    let newRate := blendRate rr.balance rr.interestRate lendAmount rate
    let state := state.setItems (updateFirstItem state.items .ReverseRepo
      (fun it => { it with interestRate := newRate, balance := (it.balance + lendAmount) }))
    let state := state.setItems (updateFirstItem state.items .CashReserves
      (fun it => { it with balance := (it.balance - lendAmount) }))
    (state, events ++ [(Severity.info, Msg.repoLend lendAmount)])

/-- Repo direction. -/
inductive RepoDirection
  | borrow
  | lend
deriving DecidableEq, Repr

/-- `applyEnterRepo`. -/
def applyEnterRepo (state : BankState) (config : SimulationConfig)
    (direction : RepoDirection) (collateralProduct : ProductType) (amount : ℚ)
    (haircut : Option ℚ) (rate : ℚ) (events : List EventCore) : BankState × List EventCore :=
  match direction with
  | .borrow => applyRepoBorrow state config collateralProduct amount haircut rate events
  | .lend => applyRepoLend state config amount rate events

/-- `PlayerAction`. -/
inductive PlayerAction
  | adjustRate (productType : ProductType) (newRate : ℚ)
  | buySellAsset (productType : ProductType) (amountDelta : ℚ) (rate : Option ℚ)
  | issueDebt (productType : ProductType) (amount rate : ℚ)
  | issueEquity (amount : ℚ)
  | enterRepo (direction : RepoDirection) (collateralProduct : ProductType)
      (amount rate : ℚ) (haircut : Option ℚ)
deriving DecidableEq, Repr

/-- The action dispatcher (`dispatchAction`); origination inside
`buySellAsset` can throw, so the fold is short-circuiting. -/
def dispatchAction (config : SimulationConfig) (acc : BankState × List EventCore)
    (a : PlayerAction) : Except EngineError (BankState × List EventCore) :=
  match a with
  | .adjustRate p newRate =>
    .ok (adjustInterestRate acc.1 p newRate,
      acc.2 ++ [(Severity.info, Msg.adjustedRate p newRate)])
  | .issueEquity amount => .ok (applyIssueEquity acc.1 amount acc.2)
  | .issueDebt p amount rate => .ok (applyIssueDebt acc.1 config p amount (some rate) acc.2)
  | .buySellAsset p delta _ => applyBuySellAsset acc.1 config p delta acc.2
  | .enterRepo dir col amount rate haircut =>
    .ok (applyEnterRepo acc.1 config dir col amount haircut rate acc.2)

/-- `Shock`. -/
inductive Shock
  | depositCompetition (retailRateIncrease : ℚ) (corporateRateIncrease : Option ℚ)
  | marketSpreadShock (wholesaleSpreadBps loanSpreadBps repoHaircutIncreasePct : ℚ)
  | idiosyncraticRun (outflowRateMultiplier : ℚ)
  | macroDownturn (pdMultiplier lgdMultiplier : ℚ)
  | counterpartyDefault (productType : ProductType) (lossAmount : ℚ)
deriving DecidableEq, Repr

/-- The mutable `ShockContext` threaded through the shock dispatcher. -/
structure ShockContextAcc where
  state : BankState
  events : List EventCore
  pdMultiplier : ℚ
  lgdMultiplier : ℚ
  lcrOutflowMultiplier : ℚ
  extraLosses : LossMap
deriving DecidableEq, Repr

/-- `ShockApplicationResult`. -/
structure ShockApplicationResult where
  pdMultiplier : ℚ
  lgdMultiplier : ℚ
  lcrOutflowMultiplier : ℚ
  extraLosses : LossMap
deriving DecidableEq, Repr

/-- `applyCounterpartyDefault` (losses accumulate by product). -/
def applyCounterpartyDefault (p : ProductType) (lossAmount : ℚ) (extraLosses : LossMap)
    (events : List EventCore) : LossMap × List EventCore :=
  let loss := max 0 lossAmount
  (bumpLoss extraLosses p loss,
   events ++ [(Severity.warning, Msg.counterpartyDefault p loss)])

/-- The shock dispatcher (`dispatchShock` with the five handlers). -/
def dispatchShock (config : SimulationConfig) (acc : ShockContextAcc) (shock : Shock) :
    ShockContextAcc :=
  match shock with
  | .depositCompetition retailRateIncrease corporateRateIncrease =>
    let m := acc.state.market
    let m := { m with competitorRetailDepositRate := (m.competitorRetailDepositRate + retailRateIncrease) }
    let m := match corporateRateIncrease with
      | none => m
      | some inc => { m with competitorCorporateDepositRate := (some ((m.competitorCorporateDepositRate.getD m.competitorRetailDepositRate) + inc)) }
    let acc := { acc with state := { acc.state with market := m } }
    { acc with events := (acc.events ++ [(Severity.info, Msg.shockDepositCompetition retailRateIncrease)]) }
  | .marketSpreadShock wholesaleSpreadBps loanSpreadBps repoHaircutIncreasePct =>
    let delta := wholesaleSpreadBps / 10000
    let m := acc.state.market
    let m := { m with
      wholesaleFundingSpread := (m.wholesaleFundingSpread + delta),
      seniorDebtSpread := (m.seniorDebtSpread + delta),
      corporateLoanSpread := (m.corporateLoanSpread + loanSpreadBps / 10000),
      creditSpread := (m.creditSpread + delta),
      giltRepoHaircut := (m.giltRepoHaircut + repoHaircutIncreasePct) }
    let acc := { acc with state := { acc.state with market := m } }
    { acc with events := (acc.events ++ [(Severity.warning, Msg.shockMarketSpread wholesaleSpreadBps)]) }
  | .idiosyncraticRun outflowRateMultiplier =>
    let state := acc.state
    let retailFound := findItem state.financial.balanceSheet .RetailDeposits
    let corporateFound := findItem state.financial.balanceSheet .CorporateDeposits
    let runParams := config.shockParameters.idiosyncraticRun
    let runOffRate := min runParams.maxRunOffRate
      (runParams.baseRunOffRate + max 0 (outflowRateMultiplier - 1) * runParams.incrementalRate)
    let retailRequested := match retailFound with
      | some r => r.balance * runOffRate
      | none => 0
    let corporateRequested := match corporateFound with
      | some cit => cit.balance * runOffRate
      | none => 0
    let totalRequested := retailRequested + corporateRequested
    let out := applyCashOutflowOrFail state totalRequested acc.events
    let state := out.1
    let events := out.2.1
    let totalPaid := out.2.2
    let allocationBase := if totalRequested > 0 then totalRequested else 1
    let rawRetailPaid := match retailFound with
      | some _ => totalPaid * retailRequested / allocationBase
      | none => 0
    let retailPaid := min totalPaid (max 0 rawRetailPaid)
    let corporatePaid := match corporateFound with
      | some _ => max 0 (totalPaid - retailPaid)
      | none => 0
    let stEv := match retailFound with
      | none => (state, events)
      | some _ =>
        let state := state.setItems (updateFirstItem state.items .RetailDeposits
          (fun it => { it with balance := (it.balance - retailPaid) }))
        let events := events ++ [(Severity.warning, Msg.runRetailReduced retailPaid runOffRate)]
        let events := if retailPaid < retailRequested then
            events ++ [(Severity.error, Msg.unmetRetailWithdrawal (retailRequested - retailPaid))]
          else events
        (state, events)
    let state := stEv.1
    let events := stEv.2
    let stEv2 := match corporateFound with
      | none => (state, events)
      | some _ =>
        let state := state.setItems (updateFirstItem state.items .CorporateDeposits
          (fun it => { it with balance := (it.balance - corporatePaid) }))
        let events := events ++
          [(Severity.warning, Msg.runCorporateReduced corporatePaid runOffRate)]
        let events := if corporatePaid < corporateRequested then
            events ++
              [(Severity.error, Msg.unmetCorporateWithdrawal (corporateRequested - corporatePaid))]
          else events
        (state, events)
    let acc := { acc with state := stEv2.1 }
    let acc := { acc with events := (stEv2.2 ++ [(Severity.warning, Msg.shockIdiosyncraticRun outflowRateMultiplier)]) }
    { acc with lcrOutflowMultiplier := (acc.lcrOutflowMultiplier * outflowRateMultiplier) }
  | .macroDownturn pdM lgdM =>
    let acc := { acc with pdMultiplier := (acc.pdMultiplier * pdM) }
    let acc := { acc with lgdMultiplier := (acc.lgdMultiplier * lgdM) }
    { acc with events := (acc.events ++ [(Severity.warning, Msg.shockMacroDownturn pdM lgdM)]) }
  | .counterpartyDefault p lossAmount =>
    let r := applyCounterpartyDefault p lossAmount acc.extraLosses acc.events
    let acc := { acc with extraLosses := r.1 }
    { acc with events := r.2 }

/-- `applyShocks`. -/
def applyShocks (state : BankState) (config : SimulationConfig) (shocks : List Shock)
    (events : List EventCore) : ShockContextAcc :=
  shocks.foldl (dispatchShock config) ⟨state, events, 1, 1, 1, []⟩

/-- `applyActions` (a short-circuiting fold because loan purchases may
throw through origination). -/
def applyActions (state : BankState) (config : SimulationConfig)
    (actions : List PlayerAction) (events : List EventCore) :
    Except EngineError (BankState × List EventCore) :=
  foldlE (dispatchAction config) (state, events) actions

/-- Per-product body of `applyDepositBehaviour`. -/
def depositBehaviourStep (config : SimulationConfig) (dtMonths : ℚ)
    (acc : BankState × List EventCore) (p : ProductType) : BankState × List EventCore :=
  let (state, events) := acc
  match findItem state.financial.balanceSheet p with
  | none => (state, events)
  | some item =>
    let competitor := match p.depositSegment with
      | some .corporate =>
        state.market.competitorCorporateDepositRate.getD state.market.competitorRetailDepositRate
      | _ => state.market.competitorRetailDepositRate
    let g := clampQ
      (config.behaviour.depositBaselineGrowthMonthly +
        (config.productParameters p).volumeElasticityToRate * (item.interestRate - competitor))
      config.behaviour.minDepositGrowthPerStep config.globalParams.maxDepositGrowthPerStep
    let growthFactor := max 0 (1 + g * dtMonths)
    let before := item.balance
    let desiredDelta := before * growthFactor - before
    if desiredDelta ≥ 0 then
      let state := state.setItems (updateFirstItem state.items p
        (fun it => { it with balance := (before * growthFactor) }))
      let r := adjustCashOrFail state desiredDelta events
      (r.1, r.2 ++ [(Severity.info, Msg.behaviourGrowth p (growthFactor - 1))])
    else
      let requestedOutflow := -desiredDelta
      let r := applyCashOutflowOrFail state requestedOutflow events
      let state := r.1.setItems (updateFirstItem r.1.items p
        (fun it => { it with balance := (before - r.2.2) }))
      let events := if r.2.2 < requestedOutflow then
          r.2.1 ++ [(Severity.error, Msg.unmetDepositWithdrawal p (requestedOutflow - r.2.2))]
        else r.2.1
      (state, events ++ [(Severity.info, Msg.behaviourGrowth p (growthFactor - 1))])

/-- `applyDepositBehaviour`: iterate over the customer-deposit lines. -/
def applyDepositBehaviour (config : SimulationConfig) (dtMonths : ℚ) (state : BankState)
    (events : List EventCore) : BankState × List EventCore :=
  let keys := (state.items.filter (fun i =>
    i.productType.affectsBehaviouralDepositFlow && i.productType.isCustomerDeposit)).map
      (·.productType)
  keys.foldl (depositBehaviourStep config dtMonths) (state, events)

/-- Per-product body of `applyLoanBehaviour`. -/
def loanBehaviourStep (config : SimulationConfig) (dtMonths : ℚ)
    (acc : BankState × List EventCore) (p : ProductType) :
    Except EngineError (BankState × List EventCore) :=
  let (state, events) := acc
  match findItem state.financial.balanceSheet p with
  | none => .ok (state, events)
  | some item =>
    let benchmark := match p.loanBenchmark with
      | some .mortgage => state.market.competitorMortgageRate
      | _ => state.market.riskFreeLong + state.market.corporateLoanSpread
    let g := clampQ
      (config.behaviour.loanBaselineGrowthMonthly +
        (config.productParameters p).volumeElasticityToRate * (item.interestRate - benchmark))
      config.behaviour.minLoanGrowthPerStep config.globalParams.maxLoanGrowthPerStep
    let growthFactor := max 0 (1 + g * dtMonths)
    let delta := item.balance * growthFactor - item.balance
    let params := config.productParameters p
    if delta > 0 then
      let availableCash :=
        max 0 (((findItem state.financial.balanceSheet .CashReserves).map (·.balance)).getD 0)
      let requested := min delta availableCash
      match upsertOriginationCohort state config p state.time.step requested
          item.interestRate none params.baseDefaultRate params.lossGivenDefault with
      | .error e => .error e
      | .ok (state, executed) =>
        let events := if executed + 1e-6 < requested then
            events ++ [(Severity.warning, Msg.insufficientCashToOriginate p requested executed)]
          else events
        .ok (state, events ++ [(Severity.info, Msg.behaviourGrowth p (growthFactor - 1))])
    else
      if delta < 0 then
        match applyExtraPrepayment state p |delta| with
        | .error e => .error e
        | .ok (state, _) =>
          .ok (state, events ++ [(Severity.info, Msg.behaviourGrowth p (growthFactor - 1))])
      else
        .ok (state, events ++ [(Severity.info, Msg.behaviourGrowth p (growthFactor - 1))])

/-- `applyLoanBehaviour`: iterate over the loan lines. -/
def applyLoanBehaviour (config : SimulationConfig) (dtMonths : ℚ) (state : BankState)
    (events : List EventCore) : Except EngineError (BankState × List EventCore) :=
  let keys := (state.items.filter (fun i =>
    i.productType.affectsBehaviouralLoanFlow && i.productType.isLoan)).map (·.productType)
  foldlE (loanBehaviourStep config dtMonths) (state, events) keys

/-- `PnLAccrualResult` (the asset/liability arrays of the source are
live references re-read later; here the downstream stages re-read the
state, which observes the same balances). -/
structure PnLAccrualResult where
  interestIncome : ℚ
  interestExpense : ℚ
deriving DecidableEq, Repr

/-- `accruePnL`: simple interest accrual; loan interest is excluded here
because `stepLoanCohorts` already produced it. -/
def accruePnL (state : BankState) (dtYears : ℚ) : PnLAccrualResult :=
  let assets := state.items.filter (fun i => i.side == Side.asset)
  let liabilities := state.items.filter (fun i => i.side == Side.liability)
  { interestIncome := ((assets.filter (fun a => !a.productType.isLoan)).foldl
      (fun sum a => sum + a.balance * a.interestRate * dtYears) 0)
    interestExpense := (liabilities.foldl
      (fun sum l => sum + l.balance * l.interestRate * dtYears) 0) }

/-- `LossRecognitionResult` (`loanItems` is re-read from the state by
`closeCapital`). -/
structure LossRecognitionResult where
  recognizedLoanLosses : LossMap
  recognizedNonLoanLosses : LossMap
  creditLosses : ℚ
deriving DecidableEq, Repr

/-- `recogniseLosses`: copy the loan losses from the cohort step, add the
non-loan extra losses capped at the line's balance, then write the
recognised non-loan losses down against the balances. -/
def recogniseLosses (state : BankState) (shockExtraLosses : LossMap)
    (recognizedLoanLossesInput : LossMap) : BankState × LossRecognitionResult :=
  let pass1 := shockExtraLosses.foldl
    (fun (acc : LossMap × ℚ) e =>
      if e.1.isLoan then acc
      else
        let recognized := match findItem state.financial.balanceSheet e.1 with
          | some item => min item.balance e.2
          | none => 0
        (if recognized > 0 then bumpLoss acc.1 e.1 recognized else acc.1, acc.2 + recognized))
    ([], recognizedLoanLossesInput.foldl (fun s e => s + e.2) 0)
  let state := shockExtraLosses.foldl
    (fun st (e : ProductType × ℚ) =>
      if e.1.isLoan then st
      else
        match findItem st.financial.balanceSheet e.1 with
        | none => st
        | some _ => st.setItems (updateFirstItem st.items e.1
            (fun it => { it with balance := (max 0 (it.balance - lookupLoss pass1.1 e.1)) })))
    state
  (state, ⟨recognizedLoanLossesInput, pass1.1, pass1.2⟩)

/-- `CapitalCloseResult`. -/
structure CapitalCloseResult where
  feeIncome : ℚ
  operatingExpenses : ℚ
  tax : ℚ
  netIncome : ℚ
  operatingCashDelta : ℚ
  operatingCashDeltaApplied : ℚ
  loanInterestIncome : ℚ
deriving DecidableEq, Repr

/-- `closeCapital`: close the period P&L into CET1 and apply the
operating cash conversion (net of the loan interest already paid in
cash). -/
def closeCapital (state : BankState) (config : SimulationConfig) (dtMonths dtYears : ℚ)
    (accruals : PnLAccrualResult) (losses : LossRecognitionResult) (loanInterestIncome : ℚ)
    (events : List EventCore) : BankState × List EventCore × CapitalCloseResult :=
  let loanBookBalance := (state.items.filter (fun i => i.productType.isLoan)).foldl
    (fun s i => s + i.balance) 0
  let totalAssetBalance := (state.items.filter (fun i => i.side == Side.asset)).foldl
    (fun s a => s + a.balance) 0
  let feeIncome := config.behaviour.loanFeeRateMonthly * dtMonths * loanBookBalance
  let operatingExpenses := config.globalParams.operatingCostRatio * totalAssetBalance * dtYears +
    config.globalParams.fixedOperatingCostPerMonth * dtMonths
  let totalInterestIncome := accruals.interestIncome + loanInterestIncome
  let netInterestIncome := totalInterestIncome - accruals.interestExpense
  let preTaxProfit := netInterestIncome + feeIncome - losses.creditLosses - operatingExpenses
  let tax := if preTaxProfit > 0 then preTaxProfit * config.globalParams.taxRate else 0
  let netIncome := preTaxProfit - tax
  let state := { state with financial := { state.financial with
    incomeStatement := ⟨totalInterestIncome, accruals.interestExpense, netInterestIncome,
      feeIncome, losses.creditLosses, operatingExpenses, preTaxProfit, tax, netIncome⟩,
    capital := { state.financial.capital with
      cet1 := (state.financial.capital.cet1 + netIncome) } } }
  let operatingCashDelta := totalInterestIncome - accruals.interestExpense + feeIncome -
    operatingExpenses - tax
  let r := adjustCashOrFail state (operatingCashDelta - loanInterestIncome) events
  (r.1, r.2, ⟨feeIncome, operatingExpenses, tax, netIncome, operatingCashDelta,
    operatingCashDelta - loanInterestIncome, loanInterestIncome⟩)

/-- The `computeMetrics` stage: store metrics and compliance, OR the four
breach flags into `hasFailed`, and emit the breach event when failed. -/
def computeMetricsStage (state : BankState) (config : SimulationConfig)
    (lcrOutflowMultiplier : ℚ) (events : List EventCore) : BankState × List EventCore :=
  let metrics := calculateRiskMetrics state config lcrOutflowMultiplier
  let compliance := evaluateCompliance metrics config.riskLimits
  let hasFailed := state.status.hasFailed || compliance.cet1Breached ||
    compliance.leverageBreached || compliance.lcrBreached || compliance.nsfrBreached
  let state := { state with risk := ⟨metrics, compliance⟩ }
  let state := { state with status := { state.status with hasFailed := hasFailed } }
  if hasFailed then (state, events ++ [(Severity.error, Msg.regulatoryBreach)])
  else (state, events)

/-- The balance of the last item carrying a product type (the JS
`prevBalances`/`currBalances` objects keep the last assignment). -/
def lastBalanceOf (items : List BalanceSheetItem) (p : ProductType) : Option ℚ :=
  ((items.filter (fun i => i.productType == p)).getLast?).map (·.balance)

/-- The side of the last item carrying a product type. -/
def lastSideOf (items : List BalanceSheetItem) (p : ProductType) : Option Side :=
  ((items.filter (fun i => i.productType == p)).getLast?).map (·.side)

/-- First-occurrence deduplication (JS `Set` insertion order). -/
def dedupKeys (l : List ProductType) : List ProductType :=
  l.foldl (fun acc p => if p ∈ acc then acc else acc ++ [p]) []

/-- `computeBalanceFlows`: classify balance deltas into operating,
investing and financing flows, adding back non-cash write-downs. -/
def computeBalanceFlows (inputState state : BankState) (losses : LossRecognitionResult) :
    ℚ × ℚ × ℚ :=
  let prevItems := inputState.items
  let currItems := state.items
  let keys := dedupKeys ((prevItems.map (·.productType)) ++ (currItems.map (·.productType)))
  let nonCashLossByProduct := losses.recognizedNonLoanLosses.foldl
    (fun m e => bumpLoss m e.1 e.2)
    (losses.recognizedLoanLosses.foldl (fun m e => bumpLoss m e.1 e.2) [])
  keys.foldl
    (fun (acc : ℚ × ℚ × ℚ) p =>
      let sideFound := match lastSideOf currItems p with
        | some s => some s
        | none => lastSideOf prevItems p
      match sideFound with
      | none => acc
      | some side =>
        let current := (lastBalanceOf currItems p).getD 0
        let previous := (lastBalanceOf prevItems p).getD 0
        if side = .asset then
          if p = .CashReserves then acc
          else
            let flow := -((current - previous) + lookupLoss nonCashLossByProduct p)
            if p = .Gilts then (acc.1, acc.2.1 + flow, acc.2.2)
            else (acc.1 + flow, acc.2.1, acc.2.2)
        else
          let flow := current - previous
          if p = .RetailDeposits ∨ p = .CorporateDeposits ∨ p = .WholesaleFundingST ∨
              p = .RepurchaseAgreements then
            (acc.1 + flow, acc.2.1, acc.2.2)
          else (acc.1, acc.2.1, acc.2.2 + flow))
    (0, 0, 0)

/-- `BuildStatementsResult`. -/
structure BuildStatementsResult where
  cashFlowStatement : CashFlowStatement
  cfMismatch : ℚ
deriving DecidableEq, Repr

/-- `buildStatements`: advance the clock, assemble the cash-flow
statement, and absorb a small tie-out mismatch into operating flows. -/
def buildStatements (inputState state : BankState) (config : SimulationConfig)
    (cashStart : ℚ) (capitalClose : CapitalCloseResult) (losses : LossRecognitionResult) :
    BankState × BuildStatementsResult :=
  let state := { state with time := ⟨state.time.step + 1,
    state.time.date + state.time.stepLengthMonths * 30 * 24 * 60 * 60 * 1000,
    state.time.stepLengthMonths⟩ }
  let cashEnd := ((findItem state.financial.balanceSheet .CashReserves).map (·.balance)).getD 0
  let netChange := cashEnd - cashStart
  let flows := computeBalanceFlows inputState state losses
  let investingCashFlow := flows.2.1
  let externalCapitalFlow := (state.financial.capital.cet1 + state.financial.capital.at1 -
    (inputState.financial.capital.cet1 + inputState.financial.capital.at1)) -
    capitalClose.netIncome
  let financingCashFlow := flows.2.2 + externalCapitalFlow
  let operatingCashFlow₀ := capitalClose.operatingCashDelta + flows.1
  let cfMismatch₀ := operatingCashFlow₀ + investingCashFlow + financingCashFlow - netChange
  let small := |cfMismatch₀| ≤ config.tolerances.cashFlowRoundingTolerance
  let cfs : CashFlowStatement := ⟨cashStart, cashEnd, netChange,
    (if small then operatingCashFlow₀ - cfMismatch₀ else operatingCashFlow₀),
    investingCashFlow, financingCashFlow⟩
  let state := { state with financial := { state.financial with cashFlowStatement := cfs } }
  (state, ⟨cfs, if small then 0 else cfMismatch₀⟩)

/-- `checkInvariants`.  Over the exact embedding the four regulatory
ratios are either finite rationals or `+Infinity` (`QInf`), so the
source's `NaN`/`-Infinity` ratio checks can never fire and are omitted;
the two reachable checks are the balance tie-out and negative lines. -/
def checkInvariants (state : BankState) : List Msg :=
  let assets := (state.items.filter (fun i => i.side == Side.asset)).foldl
    (fun s i => s + i.balance) 0
  let liabilities := (state.items.filter (fun i => i.side == Side.liability)).foldl
    (fun s i => s + i.balance) 0
  let diff := assets - (liabilities + (state.financial.capital.cet1 + state.financial.capital.at1))
  (if |diff| > 1 then [Msg.invariantNotBalanced diff] else []) ++
    ((state.items.filter (fun i => i.balance < -1e-6)).map
      (fun i => Msg.invariantNegativeBalance i.productType i.balance))

/-- The `invariants` stage: every violated invariant emits an error event
and marks the bank failed; a large cash-flow mismatch does the same. -/
def invariantsStage (state : BankState) (config : SimulationConfig) (events : List EventCore)
    (statements : BuildStatementsResult) : BankState × List EventCore :=
  let msgs := checkInvariants state
  let events := events ++ msgs.map (fun m => ((Severity.error, m) : EventCore))
  let state := if msgs = [] then state
    else { state with status := { state.status with hasFailed := true } }
  if |statements.cfMismatch| > config.tolerances.cashFlowBreachThreshold then
    ({ state with status := { state.status with hasFailed := true } },
     events ++ [(Severity.error, Msg.cashFlowMismatch
       statements.cashFlowStatement.operatingCashFlow
       statements.cashFlowStatement.investingCashFlow
       statements.cashFlowStatement.financingCashFlow
       statements.cashFlowStatement.netChange statements.cfMismatch)])
  else (state, events)

/-- `cloneBankState`: a value copy; the only observable normalisation is
that a missing `encumbrance` becomes `{ encumberedAmount: 0 }`. -/
def cloneBankState (s : BankState) : BankState :=
  s.setItems (s.items.map (fun it =>
    { it with encumbrance := (some ⟨(it.encumbrance.map (·.encumberedAmount)).getD 0⟩) }))

/-- `SimulationStepInput`. -/
structure SimulationStepInput where
  state : BankState
  config : SimulationConfig
  actions : List PlayerAction
  shocks : List Shock

/-- The deterministic part of `createSimulationEngine.step`: the full
pipeline, producing the next state and the event cores in emission order.
`rt12 x` models `Math.pow(x, 1/12)` and `advanceMarket` models
`advanceUkMarketState` (which the step calls on `state.market` alone). -/
def stepCore (rt12 : ℚ → ℚ) (advanceMarket : MarketState → ℚ → MarketState)
    (input : SimulationStepInput) : Except EngineError (BankState × List EventCore) :=
  let inputState := input.state
  let config := input.config
  let state := cloneBankState inputState
  let dtMonths := state.time.stepLengthMonths
  let dtYears := dtMonths / 12
  let cashStart := ((findItem inputState.financial.balanceSheet .CashReserves).map
    (·.balance)).getD 0
  let state := syncLoanBalancesFromCohorts state
  let shockAcc := applyShocks state config input.shocks []
  let shockEffects : ShockApplicationResult := ⟨shockAcc.pdMultiplier, shockAcc.lgdMultiplier,
    shockAcc.lcrOutflowMultiplier, shockAcc.extraLosses⟩
  match applyActions shockAcc.state config input.actions shockAcc.events with
  | .error e => .error e
  | .ok (state, events) =>
    let r₁ := applyDepositBehaviour config dtMonths state events
    match applyLoanBehaviour config dtMonths r₁.1 r₁.2 with
    | .error e => .error e
    | .ok (state, events) =>
      match stepLoanCohorts rt12 state config dtMonths shockEffects.pdMultiplier
          shockEffects.lgdMultiplier shockEffects.extraLosses with
      | .error e => .error e
      | .ok (state, cohortStep) =>
        let accruals := accruePnL state dtYears
        let r₂ := recogniseLosses state shockEffects.extraLosses cohortStep.recognizedLoanLosses
        let r₃ := closeCapital r₂.1 config dtMonths dtYears accruals r₂.2
          cohortStep.loanInterestIncome events
        let r₄ := computeMetricsStage r₃.1 config shockEffects.lcrOutflowMultiplier r₃.2.1
        let r₅ := buildStatements inputState r₄.1 config cashStart r₃.2.2 r₂.2
        let r₆ := invariantsStage r₅.1 config r₄.2 r₅.2
        .ok ({ r₆.1 with market := advanceMarket r₆.1.market dtMonths }, r₆.2)

/-- `SimulationEvent`: the id is the pair (timestamp, sequence number)
interpolated into `evt-${timestamp}-${eventSequence++}`. -/
structure SimulationEvent where
  id : ℤ × ℕ
  severity : Severity
  message : Msg
  timestamp : ℤ
deriving DecidableEq, Repr

/-- The ambient state `createEvent` reads: `Date.now()` (a function of
the global event counter's value at the call, the only piece of real time
the engine observes) and the module-level `eventSequence`. -/
structure EventEnv where
  now : ℕ → ℤ
  seq : ℕ

/-- Decorate the event cores in emission order exactly as the successive
`createEvent` calls would: the i-th event draws the next sequence number
and a `Date.now()` sample. -/
def decorate (env : EventEnv) : List EventCore → List SimulationEvent × EventEnv
  | [] => ([], env)
  | c :: rest =>
    let ts := env.now env.seq
    let r := decorate ⟨env.now, env.seq + 1⟩ rest
    (⟨(ts, env.seq), c.1, c.2, ts⟩ :: r.1, r.2)

/-- `SimulationStepOutput`. -/
structure SimulationStepOutput where
  nextState : BankState
  events : List SimulationEvent
deriving DecidableEq, Repr

/-- `createSimulationEngine.step`: the deterministic core followed by the
event decoration, threading the event environment. -/
def stepFull (rt12 : ℚ → ℚ) (advanceMarket : MarketState → ℚ → MarketState)
    (env : EventEnv) (input : SimulationStepInput) :
    Except EngineError (SimulationStepOutput × EventEnv) :=
  match stepCore rt12 advanceMarket input with
  | .error e => .error e
  | .ok (state, cores) =>
    let d := decorate env cores
    .ok (⟨state, d.1⟩, d.2)

/-! ## Concrete fixtures used by witnesses and counterexamples -/

/-- All-zero income statement. -/
def zeroIncome : IncomeStatement := ⟨0, 0, 0, 0, 0, 0, 0, 0, 0⟩

/-- All-zero cash-flow statement. -/
def zeroCashFlow : CashFlowStatement := ⟨0, 0, 0, 0, 0, 0⟩

/-- Placeholder risk metrics for an input state. -/
def demoMetrics : RiskMetrics := ⟨0, 0, .inf, .inf, 0, .inf, 1, 0, 0, .inf⟩

/-- Quiet market state. -/
def demoMarket : MarketState where
  baseRate := 0
  riskFreeShort := 0
  riskFreeLong := 0
  mortgageSpread := 0
  corporateLoanSpread := 0
  wholesaleFundingSpread := 0
  seniorDebtSpread := 0
  giltRepoHaircut := 0
  corpBondRepoHaircut := 0
  competitorRetailDepositRate := 0
  competitorMortgageRate := 0
  competitorCorporateDepositRate := none
  gdpGrowthMoM := 0
  unemploymentRate := 0
  inflationRate := 0
  creditSpread := 0
  giltCurve := ⟨⟨0, 0, 0, 1⟩, ⟨0, 0, 0, 0, 0, 0, 0⟩⟩
  macroModel := ⟨⟨0, 0, 0, 0⟩, .normal, 0, 0, 1⟩

/-- A balance-sheet line with only the behaviourally relevant data set. -/
def plainItem (side : Side) (p : ProductType) (balance rate : ℚ) : BalanceSheetItem :=
  ⟨side, p, balance, rate, none, none⟩

/-- Assemble a bank state from items and a cohort map. -/
def mkState (items : List BalanceSheetItem) (cohorts : CohortMap)
    (stepLengthMonths : ℚ := 1) (hasFailed : Bool := false) : BankState where
  version := "v1"
  time := ⟨0, 0, stepLengthMonths⟩
  financial := ⟨⟨items⟩, ⟨10, 0⟩, zeroIncome, zeroCashFlow⟩
  risk := ⟨demoMetrics, ⟨false, false, false, false⟩⟩
  market := demoMarket
  behaviour := ⟨1, 1, 0⟩
  loanCohorts := cohorts
  status := ⟨false, hasFailed⟩

/-- Demonstration configuration (its values match `baseConfig` in shape;
concrete numbers are only used inside closed witness theorems). -/
def demoConfig : SimulationConfig where
  productParameters := fun p =>
    { riskWeight := if p = .CorporateLoans then 1 else if p = .Mortgages then 7/20 else 0
      baseDefaultRate := 0
      lossGivenDefault := 0
      volumeElasticityToRate := 0
      loan := if p.isLoan then some ⟨360, 420⟩ else none }
  liquidityTags := fun p => ⟨p, .none, none, none, none, none⟩
  globalParams := ⟨1/4, 0, 2/25, 1/20, 0⟩
  riskLimits := ⟨0, 0, 0, 0⟩
  behaviour := ⟨0, 0, -1/10, -1/50, 0⟩
  shockParameters := ⟨⟨1/10, 1/10, 1/2⟩⟩
  tolerances := ⟨1/100, 1⟩

/-! ## C2: origination with no cash line -/

/-- A state whose balance sheet has no CashReserves item. -/
def noCashState : BankState :=
  mkState [plainItem .asset .Mortgages 100 (1/20)] []

/-- C2 counterexample: with no CashReserves item and a positive requested
principal, `upsertOriginationCohort` does **not** throw — the funded
principal is capped at the available cash of 0 and the function returns 0
before reaching its missing-cash-line check, leaving the state unchanged.
This refutes the claim that origination fails with a missing-cash-line
error in this situation. -/
theorem upsert_no_cash_returns_ok :
    upsertOriginationCohort noCashState demoConfig .Mortgages 0 100 (1/20) none 0 0 =
      .ok (noCashState, 0) := by
  decide

/-- C2 (amended): if the state has no CashReserves item, origination of
any positive principal returns normally with funded principal 0 and the
state unchanged; the missing-cash-line throw in the source is unreachable
on this path because the funded principal is already 0. -/
theorem upsert_no_cash_no_throw (state : BankState) (config : SimulationConfig)
    (p : ProductType) (cohortId : ℤ) (principalArg rate : ℚ) (termOpt : Option ℤ)
    (pd lgd : ℚ) (h : getCashItem state = none) :
    upsertOriginationCohort state config p cohortId principalArg rate termOpt pd lgd =
      .ok (state, 0) := by
  simp only [upsertOriginationCohort, h, Option.map_none', Option.getD_none, max_self]
  by_cases h1 : p.isLoan
  · simp only [h1, Bool.not_true, Bool.false_eq_true, if_false]
    by_cases h2 : max 0 principalArg ≤ 0
    · rw [if_pos h2]
    · rw [if_neg h2, if_pos (min_le_right (max 0 principalArg) 0)]
  · simp only [h1, Bool.not_false, if_true]

/-- Witness for `upsert_no_cash_no_throw` at a concrete input. -/
theorem upsert_no_cash_no_throw_witness :
    getCashItem noCashState = none ∧
      upsertOriginationCohort noCashState demoConfig .CorporateLoans 3 7 (1/10) none 0 0 =
        .ok (noCashState, 0) :=
  ⟨by decide, upsert_no_cash_no_throw noCashState demoConfig .CorporateLoans 3 7 (1/10) none 0 0
    (by decide)⟩

/-! ## C3: cohort validation bounds -/

/-- Characterisation of `validateCohort`: the exact list of conditions the
validator enforces.  Notably there is **no upper bound on `annualPd`**
(only `0 ≤ annualPd`), while `lgd` is bounded on both sides. -/
theorem validateCohort_eq_true_iff (c : LoanCohort) (maxTermMonths : ℤ) :
    validateCohort c maxTermMonths = true ↔
      (0 ≤ c.outstandingPrincipal ∧ 0 ≤ c.originalPrincipal ∧
       0 ≤ c.annualInterestRate ∧ 0 < c.termMonths ∧
       c.termMonths ≤ maxTermMonths ∧ c.termMonths ≤ 420 ∧
       0 ≤ c.ageMonths ∧ c.ageMonths < c.termMonths ∧
       0 ≤ c.annualPd ∧ 0 ≤ c.lgd ∧ c.lgd ≤ 1) := by
  simp only [validateCohort, Bool.and_eq_true, Bool.not_eq_true', Bool.or_eq_false_iff,
    decide_eq_true_eq, decide_eq_false_iff_not, not_lt, not_le]
  constructor
  · rintro ⟨⟨⟨⟨⟨⟨⟨⟨h1, h2⟩, h3⟩, h4⟩, h5, h6⟩, h7⟩, h8⟩, h9⟩, h10, h11⟩
    exact ⟨h1, h2, h3, h4, h5, h6, h7, h8, h9, h10, h11⟩
  · rintro ⟨h1, h2, h3, h4, h5, h6, h7, h8, h9, h10, h11⟩
    exact ⟨⟨⟨⟨⟨⟨⟨⟨h1, h2⟩, h3⟩, h4⟩, h5, h6⟩, h7⟩, h8⟩, h9⟩, h10, h11⟩

/-- C3 counterexample: a cohort with `annualPd = 3/2 ≥ 1` (all other
fields valid) is **accepted** by the validator — it does not throw — so
the claim that `validateCohort` throws for `annualPd ≥ 1` is false.  (Such
a cohort can also be stored: origination only clamps `annualPd` from
below.) -/
theorem validateCohort_accepts_pd_ge_one :
    validateCohort ⟨.Mortgages, 0, 100, 100, 1/20, 120, 0, 3/2, 1/2⟩ 420 = true := by
  decide

/-- C3 (amended): `validateCohort` succeeds exactly when all fields are
finite and `outstanding ≥ 0`, `original ≥ 0`, `rate ≥ 0`,
`0 < term ≤ min(config max, 420)`, `0 ≤ age < term`, `annualPd ≥ 0` and
`0 ≤ lgd ≤ 1`; it imposes no upper bound on `annualPd` (the stepping code
instead clamps the effective PD to `0.999999` at use). -/
theorem validateCohort_characterisation (c : LoanCohort) (maxTermMonths : ℤ) :
    validateCohort c maxTermMonths = true ↔
      (0 ≤ c.outstandingPrincipal ∧ 0 ≤ c.originalPrincipal ∧
       0 ≤ c.annualInterestRate ∧ 0 < c.termMonths ∧
       c.termMonths ≤ maxTermMonths ∧ c.termMonths ≤ 420 ∧
       0 ≤ c.ageMonths ∧ c.ageMonths < c.termMonths ∧
       0 ≤ c.annualPd ∧ 0 ≤ c.lgd ∧ c.lgd ≤ 1) :=
  validateCohort_eq_true_iff c maxTermMonths

/-! ## Helper lemmas about the loan-cohort engine -/

theorem foldl_add_init {α : Type _} (f : α → ℚ) (l : List α) (a : ℚ) :
    l.foldl (fun s x => s + f x) a = a + (l.map f).sum := by
  induction l generalizing a with
  | nil => simp
  | cons x xs ih => simp [ih, add_assoc]

theorem sumLoanOutstanding_eq (cs : List LoanCohort) :
    sumLoanOutstanding cs = (cs.map (·.outstandingPrincipal)).sum := by
  simpa using foldl_add_init (·.outstandingPrincipal) cs 0

theorem sumLoanOutstanding_nil : sumLoanOutstanding [] = 0 := rfl

theorem sumLoanOutstanding_cons (c : LoanCohort) (cs : List LoanCohort) :
    sumLoanOutstanding (c :: cs) = c.outstandingPrincipal + sumLoanOutstanding cs := by
  simp [sumLoanOutstanding_eq]

theorem sumLoanOutstanding_nonneg {cs : List LoanCohort}
    (h : ∀ c ∈ cs, 0 ≤ c.outstandingPrincipal) : 0 ≤ sumLoanOutstanding cs := by
  induction cs with
  | nil => simp [sumLoanOutstanding_nil]
  | cons c cs ih =>
    rw [sumLoanOutstanding_cons]
    have := h c (List.mem_cons_self c cs)
    have := ih (fun x hx => h x (List.mem_cons_of_mem c hx))
    linarith

/-- The allocation loop removes exactly the consumed part of `remaining`
from the total outstanding. -/
theorem allocPrepay_sum (actual total : ℚ) (cs : List LoanCohort) (remaining : ℚ) :
    sumLoanOutstanding (allocPrepay actual total cs remaining).1 =
      sumLoanOutstanding cs - (remaining - (allocPrepay actual total cs remaining).2) := by
  induction cs generalizing remaining with
  | nil => simp [allocPrepay]
  | cons c rest ih =>
    by_cases hbr : remaining ≤ 1e-9
    · simp [allocPrepay, hbr]
    · simp only [allocPrepay, hbr, if_false]
      have := ih (remaining -
        min c.outstandingPrincipal
          (max 0 (if rest = [] then remaining else actual * c.outstandingPrincipal / total)))
      simp only [sumLoanOutstanding_cons]
      rw [this]
      ring

/-- Under the loop invariant `remaining = actual · (suffix sum) / total`
(with non-negative cohorts and `0 ≤ actual ≤ total`), the loop leaves a
non-negative residual of at most `1e-9`. -/
theorem allocPrepay_rem (actual total : ℚ) (cs : List LoanCohort) (remaining : ℚ)
    (htotal : 0 < total) (ha0 : 0 ≤ actual) (hat : actual ≤ total)
    (houts : ∀ c ∈ cs, 0 ≤ c.outstandingPrincipal)
    (hinv : remaining = actual * sumLoanOutstanding cs / total) :
    0 ≤ (allocPrepay actual total cs remaining).2 ∧
      (allocPrepay actual total cs remaining).2 ≤ 1e-9 := by
  induction cs generalizing remaining with
  | nil =>
    simp only [allocPrepay]
    rw [hinv]
    norm_num [sumLoanOutstanding_nil]
  | cons c rest ih =>
    have hc0 : 0 ≤ c.outstandingPrincipal := houts c (List.mem_cons_self c rest)
    have hrest0 : 0 ≤ sumLoanOutstanding rest :=
      sumLoanOutstanding_nonneg (fun x hx => houts x (List.mem_cons_of_mem c hx))
    have hrem0 : 0 ≤ remaining := by
      rw [hinv]
      have : 0 ≤ sumLoanOutstanding (c :: rest) := by
        rw [sumLoanOutstanding_cons]; linarith
      positivity
    by_cases hbr : remaining ≤ 1e-9
    · simp only [allocPrepay]
      rw [if_pos hbr]
      exact ⟨hrem0, hbr⟩
    · simp only [allocPrepay]
      rw [if_neg hbr]
      by_cases hlast : rest = []
      · -- final cohort: the base is the whole remainder, which the
        -- invariant bounds by the cohort's own outstanding
        subst hlast
        have hshare : remaining ≤ c.outstandingPrincipal := by
          rw [hinv, sumLoanOutstanding_cons, sumLoanOutstanding_nil, add_zero]
          rw [div_le_iff₀ htotal]
          calc actual * c.outstandingPrincipal ≤ total * c.outstandingPrincipal := by
                apply mul_le_mul_of_nonneg_right hat hc0
            _ = c.outstandingPrincipal * total := by ring
        have hred : min c.outstandingPrincipal (max 0 remaining) = remaining := by
          rw [max_eq_right hrem0, min_eq_right hshare]
        rw [if_pos rfl, hred, sub_self]
        simp only [allocPrepay]
        norm_num
      · -- a non-final cohort consumes exactly its pro-rata share
        have hshare : actual * c.outstandingPrincipal / total ≤ c.outstandingPrincipal := by
          rw [div_le_iff₀ htotal]
          calc actual * c.outstandingPrincipal ≤ total * c.outstandingPrincipal := by
                apply mul_le_mul_of_nonneg_right hat hc0
            _ = c.outstandingPrincipal * total := by ring
        have hshare0 : 0 ≤ actual * c.outstandingPrincipal / total := by positivity
        have hred : min c.outstandingPrincipal (max 0 (actual * c.outstandingPrincipal / total)) =
            actual * c.outstandingPrincipal / total := by
          rw [max_eq_right hshare0, min_eq_right hshare]
        rw [if_neg hlast, hred]
        apply ih _ (fun x hx => houts x (List.mem_cons_of_mem c hx))
        rw [hinv, sumLoanOutstanding_cons]
        field_simp
        ring

/-- When the loop never breaks early, every cohort — the final one
included — is reduced by exactly its pro-rata share
`actual · outstanding / total`, and nothing is left unallocated. -/
theorem allocPrepay_prorata (actual total : ℚ) (cs : List LoanCohort) (remaining : ℚ)
    (htotal : 0 < total) (ha0 : 0 ≤ actual) (hat : actual ≤ total)
    (houts : ∀ c ∈ cs, 0 ≤ c.outstandingPrincipal)
    (hinv : remaining = actual * sumLoanOutstanding cs / total)
    (hnb : ∀ n < cs.length, ¬(actual * sumLoanOutstanding (cs.drop n) / total ≤ 1e-9)) :
    (allocPrepay actual total cs remaining).1 =
      cs.map (fun c =>
        { c with outstandingPrincipal :=
            c.outstandingPrincipal - actual * c.outstandingPrincipal / total }) ∧
    (allocPrepay actual total cs remaining).2 = 0 := by
  induction cs generalizing remaining with
  | nil =>
    simp only [allocPrepay, List.map_nil]
    rw [hinv]
    norm_num [sumLoanOutstanding_nil]
  | cons c rest ih =>
    have hc0 : 0 ≤ c.outstandingPrincipal := houts c (List.mem_cons_self c rest)
    have hbr : ¬(remaining ≤ 1e-9) := by
      rw [hinv]
      simpa using hnb 0 (by simp)
    simp only [allocPrepay]
    rw [if_neg hbr]
    have hshare : actual * c.outstandingPrincipal / total ≤ c.outstandingPrincipal := by
      rw [div_le_iff₀ htotal]
      calc actual * c.outstandingPrincipal ≤ total * c.outstandingPrincipal := by
            apply mul_le_mul_of_nonneg_right hat hc0
        _ = c.outstandingPrincipal * total := by ring
    have hshare0 : 0 ≤ actual * c.outstandingPrincipal / total := by positivity
    by_cases hlast : rest = []
    · subst hlast
      have hrem : remaining = actual * c.outstandingPrincipal / total := by
        rw [hinv, sumLoanOutstanding_cons, sumLoanOutstanding_nil, add_zero]
      have hred : min c.outstandingPrincipal (max 0 remaining) = remaining := by
        rw [max_eq_right (hrem ▸ hshare0), min_eq_right (hrem ▸ hshare)]
      rw [if_pos rfl, hred]
      simp [allocPrepay, hrem]
    · have hred : min c.outstandingPrincipal (max 0 (actual * c.outstandingPrincipal / total)) =
          actual * c.outstandingPrincipal / total := by
        rw [max_eq_right hshare0, min_eq_right hshare]
      rw [if_neg hlast, hred]
      have hinv' : remaining - actual * c.outstandingPrincipal / total =
          actual * sumLoanOutstanding rest / total := by
        rw [hinv, sumLoanOutstanding_cons]
        field_simp
        ring
      have := ih _ (fun x hx => houts x (List.mem_cons_of_mem c hx)) hinv'
        (fun n hn => by simpa using hnb (n + 1) (by simpa using hn))
      exact ⟨by simp [this.1], this.2⟩

/-- `allocLoss` is `allocPrepay` plus the written-down total, which is
exactly the consumed part of `remaining`. -/
theorem allocLoss_eq_allocPrepay (lossToApply total : ℚ) (cs : List LoanCohort) (remaining : ℚ) :
    allocLoss lossToApply total cs remaining =
      ((allocPrepay lossToApply total cs remaining).1,
       (allocPrepay lossToApply total cs remaining).2,
       remaining - (allocPrepay lossToApply total cs remaining).2) := by
  induction cs generalizing remaining with
  | nil => simp [allocLoss, allocPrepay]
  | cons c rest ih =>
    by_cases hbr : remaining ≤ 1e-9
    · simp [allocLoss, allocPrepay, hbr]
    · simp only [allocLoss, allocPrepay, hbr, if_false]
      rw [ih]
      simp only [Prod.mk.injEq, true_and]
      ring

/-- Every cohort surviving `cleanCohorts` has more than dust outstanding
and has not yet reached its term. -/
theorem cleanCohorts_mem {c : LoanCohort} {cs : List LoanCohort}
    (h : c ∈ cleanCohorts cs) :
    1e-2 < c.outstandingPrincipal ∧ c.ageMonths < c.termMonths := by
  simp only [cleanCohorts, List.mem_filter, Bool.not_eq_true', Bool.or_eq_false_iff,
    decide_eq_false_iff_not, not_le] at h
  exact ⟨h.2.1, h.2.2⟩

/-- `cleanCohorts` on a cons, with the removal condition as a proposition. -/
theorem cleanCohorts_cons (c : LoanCohort) (cs : List LoanCohort) :
    cleanCohorts (c :: cs) =
      if c.outstandingPrincipal ≤ 1e-2 ∨ c.termMonths ≤ c.ageMonths then cleanCohorts cs
      else c :: cleanCohorts cs := by
  by_cases h1 : c.outstandingPrincipal ≤ 1e-2 <;>
    by_cases h2 : c.termMonths ≤ c.ageMonths <;>
      simp [cleanCohorts, List.filter_cons, h1, h2, ge_iff_le]

/-- The dust removed by `cleanCohorts` is bounded: with non-negative
outstandings and no matured cohorts, the sum shrinks by at most
`1e-2` per cohort. -/
theorem cleanCohorts_sum_bound {cs : List LoanCohort}
    (houts : ∀ c ∈ cs, 0 ≤ c.outstandingPrincipal)
    (hage : ∀ c ∈ cs, c.ageMonths < c.termMonths) :
    sumLoanOutstanding cs - 1e-2 * cs.length ≤ sumLoanOutstanding (cleanCohorts cs) ∧
      sumLoanOutstanding (cleanCohorts cs) ≤ sumLoanOutstanding cs := by
  induction cs with
  | nil => simp [cleanCohorts, sumLoanOutstanding_nil]
  | cons c rest ih =>
    have hc0 := houts c (List.mem_cons_self c rest)
    have hcage := hage c (List.mem_cons_self c rest)
    have ihr := ih (fun x hx => houts x (List.mem_cons_of_mem c hx))
      (fun x hx => hage x (List.mem_cons_of_mem c hx))
    rw [cleanCohorts_cons]
    by_cases hkeep : c.outstandingPrincipal ≤ 1e-2 ∨ c.termMonths ≤ c.ageMonths
    · -- the cohort is removed; it held at most 1e-2
      have hdust : c.outstandingPrincipal ≤ 1e-2 := by
        rcases hkeep with h | h
        · exact h
        · exact absurd h (not_le.mpr hcage)
      rw [if_pos hkeep, sumLoanOutstanding_cons]
      constructor
      · simp only [List.length_cons]
        push_cast
        nlinarith [ihr.1]
      · linarith [ihr.2]
    · -- the cohort is kept
      rw [if_neg hkeep, sumLoanOutstanding_cons, sumLoanOutstanding_cons]
      constructor
      · simp only [List.length_cons]
        push_cast
        nlinarith [ihr.1]
      · linarith [ihr.2]

/-- Sum of asset-side balances (the quantity conserved by prepayment up
to the dust/residual tolerances). -/
def sumAssetBalances (items : List BalanceSheetItem) : ℚ :=
  ((items.filter (fun i => i.side == Side.asset)).map (·.balance)).sum

theorem allocPrepay_length (actual total : ℚ) (cs : List LoanCohort) (remaining : ℚ) :
    (allocPrepay actual total cs remaining).1.length = cs.length := by
  induction cs generalizing remaining with
  | nil => simp [allocPrepay]
  | cons c rest ih =>
    by_cases hbr : remaining ≤ 1e-9
    · simp [allocPrepay, hbr]
    · simp only [allocPrepay]
      rw [if_neg hbr]
      simp [ih]

/-- Every cohort in the allocation result comes from a source cohort with
the same identity fields and a smaller (still non-negative) outstanding. -/
theorem allocPrepay_mem (actual total : ℚ) {cs : List LoanCohort} (remaining : ℚ)
    (houts : ∀ c ∈ cs, 0 ≤ c.outstandingPrincipal) :
    ∀ c' ∈ (allocPrepay actual total cs remaining).1, ∃ c ∈ cs,
      c'.productType = c.productType ∧ c'.cohortId = c.cohortId ∧
      c'.ageMonths = c.ageMonths ∧ c'.termMonths = c.termMonths ∧
      0 ≤ c'.outstandingPrincipal ∧ c'.outstandingPrincipal ≤ c.outstandingPrincipal := by
  induction cs generalizing remaining with
  | nil => simp [allocPrepay]
  | cons c rest ih =>
    intro c' hc'
    have hc0 : 0 ≤ c.outstandingPrincipal := houts c (List.mem_cons_self c rest)
    by_cases hbr : remaining ≤ 1e-9
    · simp only [allocPrepay] at hc'
      rw [if_pos hbr] at hc'
      exact ⟨c', hc', rfl, rfl, rfl, rfl,
        houts c' (by simpa using hc'), le_refl _⟩
    · simp only [allocPrepay] at hc'
      rw [if_neg hbr] at hc'
      simp only [List.mem_cons] at hc'
      rcases hc' with hc' | hc'
      · refine ⟨c, List.mem_cons_self c rest, ?_⟩
        subst hc'
        have hredbounds :
            0 ≤ min c.outstandingPrincipal
              (max 0 (if rest = [] then remaining else actual * c.outstandingPrincipal / total)) ∧
            min c.outstandingPrincipal
              (max 0 (if rest = [] then remaining else actual * c.outstandingPrincipal / total)) ≤
              c.outstandingPrincipal :=
          ⟨le_min hc0 (le_max_left 0 _), min_le_left _ _⟩
        refine ⟨rfl, rfl, rfl, rfl, ?_, ?_⟩
        · simp only []
          linarith [hredbounds.2]
        · simp only []
          linarith [hredbounds.1]
      · obtain ⟨c₀, hc₀, hrest⟩ := ih _ (fun x hx => houts x (List.mem_cons_of_mem c hx)) c' hc'
        exact ⟨c₀, List.mem_cons_of_mem c hc₀, hrest⟩

theorem findItemIn_updateFirstItem_self (items : List BalanceSheetItem) (p : ProductType)
    (f : BalanceSheetItem → BalanceSheetItem)
    (hf : ∀ it, (f it).productType = it.productType) :
    findItemIn (updateFirstItem items p f) p = (findItemIn items p).map f := by
  induction items with
  | nil => simp [updateFirstItem, findItemIn]
  | cons i rest ih =>
    by_cases hip : i.productType = p
    · simp [updateFirstItem, findItemIn, hip, hf i, List.find?_cons]
    · simp only [updateFirstItem, if_neg hip]
      simp only [findItemIn, List.find?_cons] at ih ⊢
      rw [show (i.productType == p) = false by simpa using hip]
      exact ih

theorem findItemIn_updateFirstItem_other (items : List BalanceSheetItem) (p q : ProductType)
    (f : BalanceSheetItem → BalanceSheetItem)
    (hf : ∀ it, (f it).productType = it.productType) (hpq : q ≠ p) :
    findItemIn (updateFirstItem items p f) q = findItemIn items q := by
  induction items with
  | nil => simp [updateFirstItem]
  | cons i rest ih =>
    by_cases hip : i.productType = p
    · have hiq : ((f i).productType == q) = false := by
        rw [hf i, hip]
        exact beq_eq_false_iff_ne.mpr (Ne.symm hpq)
      have hiq' : (i.productType == q) = false := by
        rw [hip]
        exact beq_eq_false_iff_ne.mpr (Ne.symm hpq)
      simp only [updateFirstItem, if_pos hip, findItemIn, List.find?_cons, hiq, hiq']
    · simp only [updateFirstItem, if_neg hip]
      simp only [findItemIn, List.find?_cons] at ih ⊢
      cases hiq : (i.productType == q) <;> simp [ih]

theorem sumAssetBalances_updateFirstItem (items : List BalanceSheetItem) (p : ProductType)
    (f : BalanceSheetItem → BalanceSheetItem)
    (hf_side : ∀ it, (f it).side = it.side) :
    sumAssetBalances (updateFirstItem items p f) =
      sumAssetBalances items +
        (match findItemIn items p with
         | none => 0
         | some it => if it.side = .asset then (f it).balance - it.balance else 0) := by
  induction items with
  | nil => simp [updateFirstItem, findItemIn, sumAssetBalances]
  | cons i rest ih =>
    by_cases hip : i.productType = p
    · have hfind : findItemIn (i :: rest) p = some i := by
        simp [findItemIn, List.find?_cons, hip]
      rw [hfind]
      simp only [updateFirstItem, if_pos hip]
      by_cases hside : i.side = .asset
      · have h1 : ((f i).side == Side.asset) = true := by simp [hf_side i, hside]
        have h2 : (i.side == Side.asset) = true := by simp [hside]
        simp only [sumAssetBalances, List.filter_cons, h1, h2, if_pos, List.map_cons,
          List.sum_cons, if_pos hside]
        ring
      · have h1 : ((f i).side == Side.asset) = false := by
          simp only [hf_side i]
          simpa using hside
        have h2 : (i.side == Side.asset) = false := by simpa using hside
        simp only [sumAssetBalances, List.filter_cons, h1, h2, if_neg hside]
        simp
    · have hfind : findItemIn (i :: rest) p = findItemIn rest p := by
        simp only [findItemIn, List.find?_cons]
        rw [show (i.productType == p) = false by simpa using hip]
      rw [hfind]
      simp only [updateFirstItem, if_neg hip]
      cases hside : (i.side == Side.asset)
      · simp only [sumAssetBalances, List.filter_cons, hside, Bool.false_eq_true, if_false] at ih ⊢
        exact ih
      · simp only [sumAssetBalances, List.filter_cons, hside, if_true, List.map_cons,
          List.sum_cons] at ih ⊢
        rw [ih]
        ring

/-- Loan products are never CashReserves. -/
theorem isLoan_ne_cash {p : ProductType} (h : p.isLoan = true) : p ≠ .CashReserves := by
  intro hc
  subst hc
  simp [ProductType.isLoan] at h

/-- A record update writing back the same balance is the identity. -/
theorem item_update_balance_self (it : BalanceSheetItem) :
    ({ it with balance := it.balance } : BalanceSheetItem) = it := rfl

/-- A successful cohort lookup produces a member entry. -/
theorem lookupCohorts_mem {m : CohortMap} {p : ProductType} {cs : List LoanCohort}
    (h : lookupCohorts m p = some cs) : (p, cs) ∈ m := by
  induction m with
  | nil => simp [lookupCohorts] at h
  | cons e rest ih =>
    by_cases hep : e.1 = p
    · have h2 : e.2 = cs := by
        simp [lookupCohorts, List.find?_cons, show (e.1 == p) = true by simpa using hep] at h
        exact h
      have hecs : e = (p, cs) := by
        cases e
        simp only [Prod.mk.injEq]
        exact ⟨hep, h2⟩
      exact List.mem_cons.mpr (Or.inl hecs.symm)
    · right
      apply ih
      simpa [lookupCohorts, List.find?_cons,
        show (e.1 == p) = false by simpa using hep] using h

/-- `getLoanCohortsArray` on a present key returns the stored array and
leaves the map untouched. -/
theorem getOrCreateCohorts_of_lookup {m : CohortMap} {p : ProductType} {cs : List LoanCohort}
    (h : lookupCohorts m p = some cs) : getOrCreateCohorts m p = (m, cs) := by
  simp [getOrCreateCohorts, h]

/-- Looking up the key just written by `setCohorts`. -/
theorem setCohorts_lookup_self (m : CohortMap) (p : ProductType) (cs : List LoanCohort) :
    lookupCohorts (setCohorts m p cs) p = some cs := by
  induction m with
  | nil => simp [setCohorts, lookupCohorts, List.find?_cons]
  | cons e rest ih =>
    by_cases hep : e.1 = p
    · rw [setCohorts, if_pos hep]
      simp [lookupCohorts, List.find?_cons]
    · rw [setCohorts, if_neg hep]
      simpa [lookupCohorts, List.find?_cons,
        show (e.1 == p) = false by simpa using hep] using ih

/-- `syncFold` does not touch items whose product is not a loan key of the
entry list. -/
theorem syncFold_find_frame (entries : CohortMap) (items : List BalanceSheetItem)
    (q : ProductType) (h : ∀ e ∈ entries, e.1.isLoan = true → e.1 ≠ q) :
    findItemIn (syncFold items entries) q = findItemIn items q := by
  induction entries generalizing items with
  | nil => rfl
  | cons e rest ih =>
    rw [syncFold]
    by_cases hl : e.1.isLoan
    · rw [if_pos hl]
      rw [ih _ (fun e' he' => h e' (List.mem_cons_of_mem e he'))]
      exact findItemIn_updateFirstItem_other items e.1 q
        (fun it => { it with balance := sumLoanOutstanding e.2 }) (fun _ => rfl)
        (fun hq => h e (List.mem_cons_self e rest) hl hq.symm)
    · rw [if_neg hl]
      exact ih _ (fun e' he' => h e' (List.mem_cons_of_mem e he'))

/-- With unique keys, `syncFold` rewrites the balance of a loan entry's
line to that entry's cohort sum. -/
theorem syncFold_find_mem (entries : CohortMap) (items : List BalanceSheetItem)
    (q : ProductType) (cs : List LoanCohort)
    (hnd : (entries.map (·.1)).Nodup) (hmem : (q, cs) ∈ entries) (hql : q.isLoan = true) :
    findItemIn (syncFold items entries) q =
      (findItemIn items q).map (fun it => { it with balance := sumLoanOutstanding cs }) := by
  induction entries generalizing items with
  | nil => simp at hmem
  | cons e rest ih =>
    rw [List.map_cons, List.nodup_cons] at hnd
    by_cases heq : e.1 = q
    · have hecs : e = (q, cs) := by
        rcases List.mem_cons.mp hmem with h | h
        · exact h.symm
        · exact absurd (heq ▸ List.mem_map_of_mem (·.1) h) hnd.1
      rw [syncFold, hecs]
      simp only [hql, if_pos]
      rw [syncFold_find_frame rest _ q (fun e' he' _ hq =>
        hnd.1 (heq ▸ hq ▸ List.mem_map_of_mem (·.1) he'))]
      exact findItemIn_updateFirstItem_self items q
        (fun it => { it with balance := sumLoanOutstanding cs }) (fun _ => rfl)
    · have hmem' : (q, cs) ∈ rest := by
        rcases List.mem_cons.mp hmem with h | h
        · exact absurd (congrArg Prod.fst h.symm) heq
        · exact h
      rw [syncFold]
      by_cases hl : e.1.isLoan
      · rw [if_pos hl]
        rw [ih _ hnd.2 hmem']
        rw [findItemIn_updateFirstItem_other items e.1 q
          (fun it => { it with balance := sumLoanOutstanding e.2 }) (fun _ => rfl)
          (fun hq => heq hq.symm)]
      · rw [if_neg hl]
        exact ih _ hnd.2 hmem'

/-- With unique keys, `syncFold` changes the asset-balance total by the
sum of the per-entry balance rewrites, measured against the initial
items. -/
theorem syncFold_sum (entries : CohortMap) (items : List BalanceSheetItem)
    (hnd : (entries.map (·.1)).Nodup) :
    sumAssetBalances (syncFold items entries) =
      sumAssetBalances items +
        (entries.map (fun e =>
          if e.1.isLoan then
            match findItemIn items e.1 with
            | none => 0
            | some it => if it.side = .asset then sumLoanOutstanding e.2 - it.balance else 0
          else 0)).sum := by
  induction entries generalizing items with
  | nil => simp [syncFold]
  | cons e rest ih =>
    rw [List.map_cons, List.nodup_cons] at hnd
    rw [syncFold]
    by_cases hl : e.1.isLoan
    · rw [if_pos hl]
      rw [ih _ hnd.2]
      rw [sumAssetBalances_updateFirstItem items e.1
        (fun it => { it with balance := sumLoanOutstanding e.2 }) (fun _ => rfl)]
      have hcongr : ∀ e' ∈ rest,
          (if e'.1.isLoan then
            match findItemIn
              (updateFirstItem items e.1
                (fun it => { it with balance := sumLoanOutstanding e.2 })) e'.1 with
            | none => (0 : ℚ)
            | some it => if it.side = .asset then sumLoanOutstanding e'.2 - it.balance else 0
           else (0 : ℚ)) =
          (if e'.1.isLoan then
            match findItemIn items e'.1 with
            | none => (0 : ℚ)
            | some it => if it.side = .asset then sumLoanOutstanding e'.2 - it.balance else 0
           else (0 : ℚ)) := by
        intro e' he'
        rw [findItemIn_updateFirstItem_other items e.1 e'.1
          (fun it => { it with balance := sumLoanOutstanding e.2 }) (fun _ => rfl)
          (fun hq => hnd.1 (hq ▸ List.mem_map_of_mem (·.1) he'))]
      rw [List.map_congr_left hcongr]
      simp only [List.map_cons, List.sum_cons, hl, if_pos]
      ring
    · rw [if_neg hl]
      rw [ih _ hnd.2]
      simp only [List.map_cons, List.sum_cons, hl]
      simp only [Bool.false_eq_true, if_false]
      ring

theorem sum_zero_of_all_zero (l : CohortMap) (f : ProductType × List LoanCohort → ℚ)
    (h : ∀ e ∈ l, f e = 0) : (l.map f).sum = 0 := by
  induction l with
  | nil => simp
  | cons x xs ihx =>
    simp only [List.map_cons, List.sum_cons]
    rw [h x (List.mem_cons_self x xs), ihx (fun e' he' => h e' (List.mem_cons_of_mem x he'))]
    ring

/-- Terms vanish off the distinguished key, so the sum collapses to the
single matching entry. -/
theorem sum_eq_single_of_key (l : CohortMap) (f : ProductType × List LoanCohort → ℚ)
    (p : ProductType) (cs : List LoanCohort)
    (hz : ∀ e ∈ l, e.1 ≠ p → f e = 0) (hnd : (l.map (·.1)).Nodup) (hp : (p, cs) ∈ l) :
    (l.map f).sum = f (p, cs) := by
  induction l with
  | nil => simp at hp
  | cons e rest ih =>
    rw [List.map_cons, List.nodup_cons] at hnd
    by_cases hep : e.1 = p
    · have hecs : e = (p, cs) := by
        rcases List.mem_cons.mp hp with h | h
        · exact h.symm
        · exact absurd (hep ▸ List.mem_map_of_mem (·.1) h) hnd.1
      have hrest : ∀ e' ∈ rest, f e' = 0 := by
        intro e' he'
        refine hz e' (List.mem_cons_of_mem e he') ?_
        intro hq
        exact hnd.1 (hep ▸ hq ▸ List.mem_map_of_mem (·.1) he')
      have hzero : (rest.map f).sum = 0 := sum_zero_of_all_zero rest f hrest
      simp only [List.map_cons, List.sum_cons, hzero, hecs]
      ring
    · have hp' : (p, cs) ∈ rest := by
        rcases List.mem_cons.mp hp with h | h
        · exact absurd (congrArg Prod.fst h.symm) hep
        · exact h
      simp only [List.map_cons, List.sum_cons]
      rw [hz e (List.mem_cons_self e rest) hep,
        ih (fun e' he' hne => hz e' (List.mem_cons_of_mem e he') hne) hnd.2 hp']
      ring

/-- When the keys are unique and the key is present, `setCohorts` is a
pointwise map. -/
theorem setCohorts_eq_map (m : CohortMap) (p : ProductType) (cs : List LoanCohort)
    (hnd : (m.map (·.1)).Nodup) (hmem : (lookupCohorts m p).isSome) :
    setCohorts m p cs = m.map (fun e => if e.1 = p then (p, cs) else e) := by
  induction m with
  | nil => simp [lookupCohorts] at hmem
  | cons e rest ih =>
    by_cases hep : e.1 = p
    · simp only [setCohorts, if_pos hep, List.map_cons, if_pos hep]
      have hrest : ∀ e' ∈ rest, e'.1 ≠ p := by
        intro e' he' hc
        have hmem' : e.1 ∈ List.map (fun x => x.1) rest := by
          rw [hep, ← hc]
          exact List.mem_map_of_mem _ he'
        exact (List.nodup_cons.mp hnd).1 hmem'
      refine congrArg (List.cons (p, cs)) ?_
      exact ((List.map_congr_left
        (fun e' he' => by rw [if_neg (hrest e' he')]; rfl)).trans (List.map_id rest)).symm
    · simp only [setCohorts, if_neg hep, List.map_cons, if_neg hep]
      refine congrArg _ ?_
      apply ih (List.nodup_cons.mp hnd).2
      simpa [lookupCohorts, List.find?_cons, show (e.1 == p) = false by simpa using hep] using hmem

/-- The main path of `applyExtraPrepayment`: for a loan product with a
stored cohort entry, a cash line, and a positive actual amount, the
function succeeds with `prepayApply`. -/
theorem applyExtraPrepayment_main (s : BankState) (p : ProductType) (amount : ℚ)
    (cohorts : List LoanCohort)
    (hp : p.isLoan = true)
    (hlook : lookupCohorts s.loanCohorts p = some cohorts)
    (hcash : (getCashItem s).isSome)
    (hpos : 0 < min (max 0 amount) (sumLoanOutstanding cohorts)) :
    applyExtraPrepayment s p amount =
      .ok (prepayApply s p (min (max 0 amount) (sumLoanOutstanding cohorts))
            (sumLoanOutstanding cohorts) cohorts,
          min (max 0 amount) (sumLoanOutstanding cohorts)) := by
  unfold applyExtraPrepayment
  rw [hp]
  simp only [Bool.not_true, Bool.false_eq_true, if_false,
    getOrCreateCohorts_of_lookup hlook]
  have hs : ({ s with loanCohorts := s.loanCohorts } : BankState) = s := rfl
  rw [hs]
  rw [if_neg (not_le.mpr hpos)]
  rw [if_neg (by
    rw [Option.isNone_iff_eq_none]
    intro hnone
    rw [show getCashItem s = none from hnone] at hcash
    simp at hcash)]

/-- C7 (amended): prepayment of a loan product returns
`paid = min(max(0, requested), total outstanding)` and credits cash with
exactly `paid`; the allocation loop reduces the cohorts pro-rata (for
every processed non-final cohort exactly `paid·outstanding/total`, the
final cohort absorbing the remainder) — except that the loop stops as
soon as the remaining amount drops to `1e-9`, leaving a residual
`ρ ∈ [0, 1e-9]` unallocated; cohorts reduced to at most `1e-2` (or at
term) are removed; and the call is an exact no-op returning 0 for
non-loan products. -/
theorem prepayment_spec :
    (∀ (s : BankState) (q : ProductType) (amount : ℚ), q.isLoan = false →
      applyExtraPrepayment s q amount = .ok (s, 0)) ∧
    (∀ (s : BankState) (p : ProductType) (amount : ℚ) (cohorts : List LoanCohort)
        (cashIt : BalanceSheetItem),
      p.isLoan = true →
      lookupCohorts s.loanCohorts p = some cohorts →
      findItemIn s.items .CashReserves = some cashIt →
      (∀ c ∈ cohorts, 0 ≤ c.outstandingPrincipal) →
      0 < min (max 0 amount) (sumLoanOutstanding cohorts) →
      -- abbreviations used below:
      -- total := sumLoanOutstanding cohorts
      -- paid  := min (max 0 amount) total
      -- alloc := allocPrepay paid total cohorts paid
      (applyExtraPrepayment s p amount =
        .ok (prepayApply s p (min (max 0 amount) (sumLoanOutstanding cohorts))
              (sumLoanOutstanding cohorts) cohorts,
            min (max 0 amount) (sumLoanOutstanding cohorts))) ∧
      (findItemIn (prepayApply s p (min (max 0 amount) (sumLoanOutstanding cohorts))
          (sumLoanOutstanding cohorts) cohorts).items .CashReserves =
        some { cashIt with balance :=
          cashIt.balance + min (max 0 amount) (sumLoanOutstanding cohorts) }) ∧
      (lookupCohorts (prepayApply s p (min (max 0 amount) (sumLoanOutstanding cohorts))
          (sumLoanOutstanding cohorts) cohorts).loanCohorts p =
        some (cleanCohorts
          (allocPrepay (min (max 0 amount) (sumLoanOutstanding cohorts))
            (sumLoanOutstanding cohorts) cohorts
            (min (max 0 amount) (sumLoanOutstanding cohorts))).1)) ∧
      (∀ c ∈ cleanCohorts
          (allocPrepay (min (max 0 amount) (sumLoanOutstanding cohorts))
            (sumLoanOutstanding cohorts) cohorts
            (min (max 0 amount) (sumLoanOutstanding cohorts))).1,
        1e-2 < c.outstandingPrincipal ∧ c.ageMonths < c.termMonths) ∧
      (0 ≤ (allocPrepay (min (max 0 amount) (sumLoanOutstanding cohorts))
              (sumLoanOutstanding cohorts) cohorts
              (min (max 0 amount) (sumLoanOutstanding cohorts))).2 ∧
        (allocPrepay (min (max 0 amount) (sumLoanOutstanding cohorts))
            (sumLoanOutstanding cohorts) cohorts
            (min (max 0 amount) (sumLoanOutstanding cohorts))).2 ≤ 1e-9 ∧
        sumLoanOutstanding
            (allocPrepay (min (max 0 amount) (sumLoanOutstanding cohorts))
              (sumLoanOutstanding cohorts) cohorts
              (min (max 0 amount) (sumLoanOutstanding cohorts))).1 =
          sumLoanOutstanding cohorts - min (max 0 amount) (sumLoanOutstanding cohorts) +
            (allocPrepay (min (max 0 amount) (sumLoanOutstanding cohorts))
              (sumLoanOutstanding cohorts) cohorts
              (min (max 0 amount) (sumLoanOutstanding cohorts))).2) ∧
      ((∀ n < cohorts.length,
          ¬(min (max 0 amount) (sumLoanOutstanding cohorts) *
              sumLoanOutstanding (cohorts.drop n) / sumLoanOutstanding cohorts ≤ 1e-9)) →
        (allocPrepay (min (max 0 amount) (sumLoanOutstanding cohorts))
            (sumLoanOutstanding cohorts) cohorts
            (min (max 0 amount) (sumLoanOutstanding cohorts))).1 =
          cohorts.map (fun c =>
            { c with outstandingPrincipal :=
                c.outstandingPrincipal -
                  min (max 0 amount) (sumLoanOutstanding cohorts) *
                    c.outstandingPrincipal / sumLoanOutstanding cohorts }))) := by
  constructor
  · intro s q amount hq
    unfold applyExtraPrepayment
    rw [hq]
    rfl
  · intro s p amount cohorts cashIt hp hlook hcashIt houts hpos
    have htotal : 0 < sumLoanOutstanding cohorts := lt_of_lt_of_le hpos (min_le_right _ _)
    have hpaid0 : (0 : ℚ) ≤ min (max 0 amount) (sumLoanOutstanding cohorts) := le_of_lt hpos
    have hpaidtot : min (max 0 amount) (sumLoanOutstanding cohorts) ≤
        sumLoanOutstanding cohorts := min_le_right _ _
    have hinv : min (max 0 amount) (sumLoanOutstanding cohorts) =
        min (max 0 amount) (sumLoanOutstanding cohorts) * sumLoanOutstanding cohorts /
          sumLoanOutstanding cohorts := by
      field_simp
    have hcash : (getCashItem s).isSome := by
      rw [getCashItem, hcashIt]
      rfl
    refine ⟨applyExtraPrepayment_main s p amount cohorts hp hlook hcash hpos, ?_, ?_, ?_, ?_, ?_⟩
    · -- cash line credited with exactly the paid amount
      unfold prepayApply
      show findItemIn (syncFold _ _) _ = _
      rw [syncFold_find_frame _ _ _ (fun e _ hl => isLoan_ne_cash hl)]
      show findItemIn (updateFirstItem s.items .CashReserves _) _ = _
      rw [findItemIn_updateFirstItem_self s.items .CashReserves
        (fun it =>
          { it with balance := (it.balance + min (max 0 amount) (sumLoanOutstanding cohorts)) })
        (fun _ => rfl)]
      rw [show findItemIn s.items .CashReserves = some cashIt from hcashIt]
      rfl
    · -- the product's cohort entry is the cleaned allocation result
      unfold prepayApply
      show lookupCohorts (setCohorts _ p _) p = _
      exact setCohorts_lookup_self _ p _
    · -- surviving cohorts hold more than dust and are not at term
      intro c hc
      exact cleanCohorts_mem hc
    · -- residual bounds and the outstanding-sum equation
      have hrem := allocPrepay_rem (min (max 0 amount) (sumLoanOutstanding cohorts))
        (sumLoanOutstanding cohorts) cohorts
        (min (max 0 amount) (sumLoanOutstanding cohorts)) htotal hpaid0 hpaidtot houts hinv
      refine ⟨hrem.1, hrem.2, ?_⟩
      have := allocPrepay_sum (min (max 0 amount) (sumLoanOutstanding cohorts))
        (sumLoanOutstanding cohorts) cohorts (min (max 0 amount) (sumLoanOutstanding cohorts))
      rw [this]
      ring
    · -- pro-rata allocation when the loop never breaks early
      intro hnb
      exact (allocPrepay_prorata (min (max 0 amount) (sumLoanOutstanding cohorts))
        (sumLoanOutstanding cohorts) cohorts (min (max 0 amount) (sumLoanOutstanding cohorts))
        htotal hpaid0 hpaidtot houts hinv hnb).1

/-- A fixed-rate mortgage cohort used by the prepayment fixtures. -/
def prepayCohort : LoanCohort := ⟨.Mortgages, 0, 100, 100, 3/50, 120, 0, 0, 0⟩

/-- A solvent two-line state holding the fixture cohort. -/
def prepayState : BankState :=
  mkState [plainItem .asset .CashReserves 1000 0, plainItem .asset .Mortgages 100 (3/50)]
    [(.Mortgages, [prepayCohort])]

/-- C7 counterexample: a prepayment request of `1e-10` against a cohort
of 100 returns `paid = 1e-10 > 0` and credits cash with it, but the
allocation loop breaks immediately (the remaining amount is already below
`1e-9`), so **no** cohort is reduced — the claimed pro-rata allocation of
the paid amount does not happen. -/
theorem prepay_tiny_request_not_allocated :
    (applyExtraPrepayment prepayState .Mortgages 1e-10).map
      (fun r => (r.2, lookupCohorts r.1.loanCohorts .Mortgages,
        (findItemIn r.1.items .CashReserves).map (·.balance))) =
      .ok (1e-10, some [prepayCohort], some (1000 + 1e-10)) := by
  decide

/-- Witness for `prepayment_spec` at a concrete prepayment of 50. -/
theorem prepayment_spec_witness :
    applyExtraPrepayment prepayState .Mortgages 50 =
      .ok (prepayApply prepayState .Mortgages
            (min (max 0 50) (sumLoanOutstanding [prepayCohort]))
            (sumLoanOutstanding [prepayCohort]) [prepayCohort],
          min (max 0 50) (sumLoanOutstanding [prepayCohort])) :=
  (prepayment_spec.2 prepayState .Mortgages 50 [prepayCohort]
    (plainItem .asset .CashReserves 1000 0)
    (by decide) (by decide) (by decide) (by decide) (by decide)).1

/-! ## C9: prepayment frame and conservation -/

/-- Rewriting a present key preserves the key list. -/
theorem setCohorts_keys_of_present (m : CohortMap) (p : ProductType) (cs : List LoanCohort)
    (hnd : (m.map (·.1)).Nodup) (hmem : (lookupCohorts m p).isSome) :
    (setCohorts m p cs).map (·.1) = m.map (·.1) := by
  rw [setCohorts_eq_map m p cs hnd hmem, List.map_map]
  refine List.map_congr_left ?_
  intro e _
  by_cases hep : e.1 = p
  · simp [Function.comp, hep]
  · simp [Function.comp, hep]

/-- Entries of `setCohorts` off the written key come from the original
map. -/
theorem setCohorts_mem_of_ne (m : CohortMap) (p : ProductType) (cs : List LoanCohort)
    (hnd : (m.map (·.1)).Nodup) (hmem : (lookupCohorts m p).isSome)
    {e : ProductType × List LoanCohort} (he : e ∈ setCohorts m p cs) (hne : e.1 ≠ p) :
    e ∈ m := by
  rw [setCohorts_eq_map m p cs hnd hmem] at he
  obtain ⟨e₀, he₀, hge⟩ := List.mem_map.mp he
  by_cases hep : e₀.1 = p
  · rw [if_pos hep] at hge
    exact absurd (congrArg Prod.fst hge.symm) hne
  · rw [if_neg hep] at hge
    exact hge ▸ he₀

/-- C9 (amended): prepayment credits cash with exactly the paid amount
and leaves capital and every other balance-sheet line — liabilities and
other assets alike — unchanged (assuming the state was cohort-synced);
the prepaid product's line is re-synced to its cohorts, so total assets
are conserved **up to** a residual `ρ ∈ [0, 1e-9]` left unallocated by
the loop's early break and the dust `d ∈ [0, 1e-2 · #cohorts]` dropped
when emptied cohorts are removed: the asset total changes by exactly
`ρ − d`, not necessarily by 0. -/
theorem prepayment_frame_and_conservation (s : BankState) (p : ProductType) (amount : ℚ)
    (cohorts : List LoanCohort) (cashIt pIt : BalanceSheetItem)
    (hp : p.isLoan = true)
    (hlook : lookupCohorts s.loanCohorts p = some cohorts)
    (hnd : (s.loanCohorts.map (·.1)).Nodup)
    (hcashIt : findItemIn s.items .CashReserves = some cashIt)
    (hcside : cashIt.side = .asset)
    (hpIt : findItemIn s.items p = some pIt)
    (hpside : pIt.side = .asset)
    (houts : ∀ c ∈ cohorts, 0 ≤ c.outstandingPrincipal)
    (hage : ∀ c ∈ cohorts, c.ageMonths < c.termMonths)
    (hsynced : ∀ e ∈ s.loanCohorts, e.1.isLoan = true →
      ∀ it, findItemIn s.items e.1 = some it → it.balance = sumLoanOutstanding e.2)
    (hpos : 0 < min (max 0 amount) (sumLoanOutstanding cohorts)) :
    (applyExtraPrepayment s p amount =
      .ok (prepayApply s p (min (max 0 amount) (sumLoanOutstanding cohorts))
            (sumLoanOutstanding cohorts) cohorts,
          min (max 0 amount) (sumLoanOutstanding cohorts))) ∧
    (findItemIn (prepayApply s p (min (max 0 amount) (sumLoanOutstanding cohorts))
        (sumLoanOutstanding cohorts) cohorts).items .CashReserves =
      some { cashIt with balance :=
        cashIt.balance + min (max 0 amount) (sumLoanOutstanding cohorts) }) ∧
    ((prepayApply s p (min (max 0 amount) (sumLoanOutstanding cohorts))
        (sumLoanOutstanding cohorts) cohorts).financial.capital = s.financial.capital) ∧
    (∀ q, q ≠ ProductType.CashReserves → q ≠ p →
      findItemIn (prepayApply s p (min (max 0 amount) (sumLoanOutstanding cohorts))
        (sumLoanOutstanding cohorts) cohorts).items q = findItemIn s.items q) ∧
    (∃ ρ d : ℚ, 0 ≤ ρ ∧ ρ ≤ 1e-9 ∧ 0 ≤ d ∧ d ≤ 1e-2 * (cohorts.length : ℚ) ∧
      sumAssetBalances (prepayApply s p (min (max 0 amount) (sumLoanOutstanding cohorts))
        (sumLoanOutstanding cohorts) cohorts).items =
        sumAssetBalances s.items + ρ - d) := by
  have htotal : 0 < sumLoanOutstanding cohorts := lt_of_lt_of_le hpos (min_le_right _ _)
  have hpaid0 : (0 : ℚ) ≤ min (max 0 amount) (sumLoanOutstanding cohorts) := le_of_lt hpos
  have hpaidtot : min (max 0 amount) (sumLoanOutstanding cohorts) ≤
      sumLoanOutstanding cohorts := min_le_right _ _
  have hinv : min (max 0 amount) (sumLoanOutstanding cohorts) =
      min (max 0 amount) (sumLoanOutstanding cohorts) * sumLoanOutstanding cohorts /
        sumLoanOutstanding cohorts := by
    field_simp
  have hcash : (getCashItem s).isSome := by
    rw [getCashItem, hcashIt]
    rfl
  have hlookSome : (lookupCohorts s.loanCohorts p).isSome := by rw [hlook]; rfl
  -- notation shortcuts (proof-local)
  set paid := min (max 0 amount) (sumLoanOutstanding cohorts) with hpaiddef
  set total := sumLoanOutstanding cohorts with htotaldef
  set alloc := allocPrepay paid total cohorts paid with hallocdef
  set cleaned := cleanCohorts alloc.1 with hcleandef
  have hitems2 : (prepayApply s p paid total cohorts).items =
      syncFold (updateFirstItem s.items .CashReserves
        (fun it => { it with balance := it.balance + paid }))
        (setCohorts s.loanCohorts p cleaned) := rfl
  have hmap3nd : ((setCohorts s.loanCohorts p cleaned).map (·.1)).Nodup := by
    rw [setCohorts_keys_of_present s.loanCohorts p cleaned hnd hlookSome]
    exact hnd
  have hfind2 : ∀ q, q ≠ ProductType.CashReserves →
      findItemIn (updateFirstItem s.items .CashReserves
        (fun it => { it with balance := it.balance + paid })) q = findItemIn s.items q := by
    intro q hq
    exact findItemIn_updateFirstItem_other s.items .CashReserves q
      (fun it => { it with balance := it.balance + paid }) (fun _ => rfl) hq
  refine ⟨applyExtraPrepayment_main s p amount cohorts hp hlook hcash hpos, ?_, rfl, ?_, ?_⟩
  · -- cash credited with exactly paid
    rw [hitems2]
    rw [syncFold_find_frame _ _ _ (fun e _ hl => isLoan_ne_cash hl)]
    rw [findItemIn_updateFirstItem_self s.items .CashReserves
      (fun it => { it with balance := it.balance + paid }) (fun _ => rfl)]
    rw [hcashIt]
    rfl
  · -- frame: every other line is unchanged
    intro q hqcash hqp
    rw [hitems2]
    by_cases hkey : ∀ e ∈ setCohorts s.loanCohorts p cleaned, e.1.isLoan = true → e.1 ≠ q
    · rw [syncFold_find_frame _ _ _ hkey]
      exact hfind2 q hqcash
    · push_neg at hkey
      obtain ⟨e, he, hel, heq⟩ := hkey
      have he' : (q, e.2) ∈ setCohorts s.loanCohorts p cleaned := by
        rw [← heq]
        exact he
      have heorig : (q, e.2) ∈ s.loanCohorts :=
        setCohorts_mem_of_ne s.loanCohorts p cleaned hnd hlookSome he' (by simpa using hqp)
      rw [syncFold_find_mem _ _ q e.2 hmap3nd he' (heq ▸ hel)]
      rw [hfind2 q hqcash]
      cases hfq : findItemIn s.items q with
      | none => rfl
      | some itq =>
        have hbal : itq.balance = sumLoanOutstanding e.2 :=
          hsynced (q, e.2) heorig (heq ▸ hel) itq hfq
        simp only [Option.map_some']
        rw [← hbal]
  · -- conservation up to residual and dust
    have hrem := allocPrepay_rem paid total cohorts paid htotal hpaid0 hpaidtot houts hinv
    have hsum := allocPrepay_sum paid total cohorts paid
    have hmem := @allocPrepay_mem paid total cohorts paid houts
    have houts' : ∀ c ∈ alloc.1, 0 ≤ c.outstandingPrincipal := by
      intro c hc
      obtain ⟨c₀, _, _, _, _, _, h0, _⟩ := hmem c hc
      exact h0
    have hage' : ∀ c ∈ alloc.1, c.ageMonths < c.termMonths := by
      intro c hc
      obtain ⟨c₀, hc₀, _, _, hagee, hterm, _, _⟩ := hmem c hc
      rw [hagee, hterm]
      exact hage c₀ hc₀
    have hclean := cleanCohorts_sum_bound houts' hage'
    have hlen := allocPrepay_length paid total cohorts paid
    -- asset sum through the cash update
    have hsum2 : sumAssetBalances (updateFirstItem s.items .CashReserves
        (fun it => { it with balance := it.balance + paid })) =
        sumAssetBalances s.items + paid := by
      rw [sumAssetBalances_updateFirstItem s.items .CashReserves
        (fun it => { it with balance := it.balance + paid }) (fun _ => rfl)]
      rw [hcashIt]
      simp only [hcside, if_pos]
      ring
    -- asset sum through the sync fold: only the prepaid product moves
    have hsum3 : sumAssetBalances (prepayApply s p paid total cohorts).items =
        sumAssetBalances s.items + paid + (sumLoanOutstanding cleaned - total) := by
      rw [hitems2, syncFold_sum _ _ hmap3nd, hsum2]
      have hz : ∀ e ∈ setCohorts s.loanCohorts p cleaned, e.1 ≠ p →
          (if e.1.isLoan then
            match findItemIn (updateFirstItem s.items .CashReserves
              (fun it => { it with balance := it.balance + paid })) e.1 with
            | none => (0 : ℚ)
            | some it => if it.side = .asset then sumLoanOutstanding e.2 - it.balance else 0
           else (0 : ℚ)) = 0 := by
        intro e he hne
        by_cases hl : e.1.isLoan
        · rw [if_pos hl]
          have heorig : e ∈ s.loanCohorts := by
            have : (e.1, e.2) ∈ setCohorts s.loanCohorts p cleaned := he
            exact setCohorts_mem_of_ne s.loanCohorts p cleaned hnd hlookSome he hne
          rw [hfind2 e.1 (isLoan_ne_cash hl)]
          cases hfe : findItemIn s.items e.1 with
          | none => rfl
          | some ite =>
            have hbal : ite.balance = sumLoanOutstanding e.2 :=
              hsynced e heorig hl ite hfe
            simp only [hbal, sub_self, ite_self]
        · rw [if_neg hl]
      have hpmem : (p, cleaned) ∈ setCohorts s.loanCohorts p cleaned :=
        lookupCohorts_mem (setCohorts_lookup_self s.loanCohorts p cleaned)
      rw [sum_eq_single_of_key _ _ p cleaned hz hmap3nd hpmem]
      have hpfind2 : findItemIn (updateFirstItem s.items .CashReserves
          (fun it => { it with balance := it.balance + paid })) p = some pIt := by
        rw [hfind2 p (isLoan_ne_cash hp), hpIt]
      have hpbal : pIt.balance = total :=
        hsynced (p, cohorts) (lookupCohorts_mem hlook) hp pIt hpIt
      simp only [hp, if_pos, hpfind2, hpside]
      rw [hpbal]
    refine ⟨alloc.2, sumLoanOutstanding alloc.1 - sumLoanOutstanding cleaned,
      hrem.1, hrem.2, by linarith [hclean.2], ?_, ?_⟩
    · have := hclean.1
      rw [hlen] at this
      linarith
    · rw [hsum3, hsum]
      ring

/-- C9 counterexample: prepaying `99.995` of a single cohort of 100
leaves a dust balance of `0.005 ≤ 1e-2`, which `cleanCohorts` removes and
the re-sync zeroes out of the loan line; cash gains the full `99.995`, so
the asset total drops from 1100 to 1099.995 — the claimed exact
conservation of total assets fails. -/
theorem prepay_dust_removal_changes_asset_total :
    (applyExtraPrepayment prepayState .Mortgages (19999/200)).map
      (fun r => sumAssetBalances r.1.items) = .ok (219999/200) ∧
    sumAssetBalances prepayState.items = 1100 ∧ (219999/200 : ℚ) ≠ 1100 := by
  refine ⟨by decide, by decide, by decide⟩

/-- Witness for `prepayment_frame_and_conservation` at a concrete
prepayment of 50 on the fixture state. -/
theorem prepayment_frame_witness :
    (prepayApply prepayState .Mortgages
      (min (max 0 50) (sumLoanOutstanding [prepayCohort]))
      (sumLoanOutstanding [prepayCohort]) [prepayCohort]).financial.capital =
      prepayState.financial.capital :=
  (prepayment_frame_and_conservation prepayState .Mortgages 50 [prepayCohort]
    (plainItem .asset .CashReserves 1000 0) (plainItem .asset .Mortgages 100 (3/50))
    (by decide) (by decide) (by decide) (by decide) (by decide) (by decide) (by decide)
    (by decide) (by decide)
    (by
      intro e he hl it hit
      have he' : e = (ProductType.Mortgages, [prepayCohort]) := by
        have h : e ∈ [(ProductType.Mortgages, [prepayCohort])] := he
        simpa using h
      subst he'
      have hit' : it = plainItem .asset .Mortgages 100 (3/50) := by
        have h := hit
        rw [show findItemIn prepayState.items (ProductType.Mortgages, [prepayCohort]).1 =
          some (plainItem .asset .Mortgages 100 (3/50)) from by decide] at h
        exact (Option.some.inj h).symm
      subst hit'
      decide)
    (by decide)).2.2.1

/-! ## C4: the extra-losses stage of stepLoanCohorts -/

/-- C4 counterexample: with `dtMonths = 0`, `stepLoanCohorts` returns
immediately with an empty loss map even though the extra-losses entry
targets a loan product (`Mortgages`) with positive total outstanding —
the extra losses are **not** applied after the (empty) monthly loop. -/
theorem zero_dt_skips_extra_losses :
    stepLoanCohorts id prepayState demoConfig 0 1 1 [(.Mortgages, 50)] =
      .ok (prepayState, { loanInterestIncome := 0, recognizedLoanLosses := [] }) ∧
    ProductType.Mortgages.isLoan = true ∧ (0 : ℚ) < 50 ∧
    lookupCohorts prepayState.loanCohorts .Mortgages = some [prepayCohort] ∧
    0 < sumLoanOutstanding [prepayCohort] := by
  refine ⟨by decide, by decide, by decide, by decide, by decide⟩

/-- C4 (amended): `stepLoanCohorts` with a zero month count (any
`dtMonths` flooring to 0) returns the input state untouched and an empty
loss map **before** the extra-losses stage, so extra losses are skipped
entirely in that case.  When an extra-loss entry for a loan product with
positive loss and positive total outstanding *is* processed
(`applyExtraLossEntry`), the cohorts are written down by the `allocLoss`
loop and cleaned, and `recognizedLoanLosses[product]` receives the total
written amount — which equals `min(loss, total)` minus the residual the
loop's `≤ 1e-9` early break leaves unallocated, so it lies in
`[min(loss,total) − 1e-9, min(loss,total)]` rather than being exactly
`min(loss,total)`; the allocation is pro-rata with the last cohort taking
the residual on the iterations where the loop does not break. -/
theorem extra_losses_stage_spec :
    (∀ (rt12 : ℚ → ℚ) (state : BankState) (config : SimulationConfig)
        (dtMonths pdM lgdM : ℚ) (extra : LossMap), ⌊dtMonths⌋ ≤ 0 →
      stepLoanCohorts rt12 state config dtMonths pdM lgdM extra =
        .ok (state, { loanInterestIncome := 0, recognizedLoanLosses := [] })) ∧
    (∀ (state : BankState) (losses : LossMap) (p : ProductType) (loss : ℚ)
        (cohorts : List LoanCohort) (alloc : List LoanCohort × ℚ × ℚ),
      alloc = allocLoss (min loss (sumLoanOutstanding cohorts)) (sumLoanOutstanding cohorts)
        cohorts (min loss (sumLoanOutstanding cohorts)) →
      p.isLoan = true →
      lookupCohorts state.loanCohorts p = some cohorts →
      0 < loss → 0 < sumLoanOutstanding cohorts →
      (∀ c ∈ cohorts, 0 ≤ c.outstandingPrincipal) →
      (applyExtraLossEntry (state, losses) (p, loss) =
        ({ state with loanCohorts := setCohorts state.loanCohorts p (cleanCohorts alloc.1) },
         if min loss (sumLoanOutstanding cohorts) ≤ 1e-9 then losses
         else bumpLoss losses p alloc.2.2)) ∧
      (min loss (sumLoanOutstanding cohorts) - 1e-9 ≤ alloc.2.2 ∧
        alloc.2.2 ≤ min loss (sumLoanOutstanding cohorts)) ∧
      (sumLoanOutstanding alloc.1 = sumLoanOutstanding cohorts - alloc.2.2) ∧
      ((∀ n < cohorts.length,
          ¬(min loss (sumLoanOutstanding cohorts) * sumLoanOutstanding (cohorts.drop n) /
              sumLoanOutstanding cohorts ≤ 1e-9)) →
        alloc.1 = cohorts.map (fun c =>
          { c with outstandingPrincipal := (c.outstandingPrincipal -
              min loss (sumLoanOutstanding cohorts) * c.outstandingPrincipal /
                sumLoanOutstanding cohorts) }) ∧
        alloc.2.2 = min loss (sumLoanOutstanding cohorts))) := by
  constructor
  · intro rt12 state config dtMonths pdM lgdM extra hdt
    have hm : (max 0 ⌊dtMonths⌋).toNat = 0 := by omega
    simp only [stepLoanCohorts]
    rw [if_pos hm]
  · intro state losses p loss cohorts alloc halloc hp hlook hloss htot houts
    obtain ⟨cs', rem', written⟩ := alloc
    have htotal := htot
    have hL0 : (0 : ℚ) < min loss (sumLoanOutstanding cohorts) := lt_min hloss htot
    have hLt : min loss (sumLoanOutstanding cohorts) ≤ sumLoanOutstanding cohorts :=
      min_le_right _ _
    have hinv : min loss (sumLoanOutstanding cohorts) =
        min loss (sumLoanOutstanding cohorts) * sumLoanOutstanding cohorts /
          sumLoanOutstanding cohorts := by
      field_simp
    have he : ((cs', rem', written) : List LoanCohort × ℚ × ℚ) =
        ((allocPrepay (min loss (sumLoanOutstanding cohorts)) (sumLoanOutstanding cohorts)
            cohorts (min loss (sumLoanOutstanding cohorts))).1,
         (allocPrepay (min loss (sumLoanOutstanding cohorts)) (sumLoanOutstanding cohorts)
            cohorts (min loss (sumLoanOutstanding cohorts))).2,
         min loss (sumLoanOutstanding cohorts) -
           (allocPrepay (min loss (sumLoanOutstanding cohorts)) (sumLoanOutstanding cohorts)
             cohorts (min loss (sumLoanOutstanding cohorts))).2) :=
      halloc.trans (allocLoss_eq_allocPrepay _ _ _ _)
    have hcs : cs' = (allocPrepay (min loss (sumLoanOutstanding cohorts))
        (sumLoanOutstanding cohorts) cohorts (min loss (sumLoanOutstanding cohorts))).1 :=
      congrArg (·.1) he
    have hremeq : rem' = (allocPrepay (min loss (sumLoanOutstanding cohorts))
        (sumLoanOutstanding cohorts) cohorts (min loss (sumLoanOutstanding cohorts))).2 :=
      congrArg (·.2.1) he
    have hwr : written = min loss (sumLoanOutstanding cohorts) -
        (allocPrepay (min loss (sumLoanOutstanding cohorts)) (sumLoanOutstanding cohorts)
          cohorts (min loss (sumLoanOutstanding cohorts))).2 :=
      congrArg (·.2.2) he
    have hrem := allocPrepay_rem (min loss (sumLoanOutstanding cohorts))
      (sumLoanOutstanding cohorts) cohorts (min loss (sumLoanOutstanding cohorts))
      htotal (le_of_lt hL0) hLt houts hinv
    refine ⟨?_, ?_, ?_, ?_⟩
    · simp only [applyExtraLossEntry]
      rw [hp]
      simp only [Bool.not_true, Bool.false_eq_true, if_false,
        getOrCreateCohorts_of_lookup hlook]
      have hs : ({ state with loanCohorts := state.loanCohorts } : BankState) = state := rfl
      rw [hs]
      rw [if_neg (not_le.mpr hloss), if_neg (not_le.mpr htot), ← halloc]
    · have hb1 : min loss (sumLoanOutstanding cohorts) - 1e-9 ≤ written := by
        rw [hwr]
        linarith [hrem.2]
      have hb2 : written ≤ min loss (sumLoanOutstanding cohorts) := by
        rw [hwr]
        linarith [hrem.1]
      exact ⟨hb1, hb2⟩
    · show sumLoanOutstanding cs' = sumLoanOutstanding cohorts - written
      rw [hcs, hwr, allocPrepay_sum]
    · intro hnb
      have hpro := allocPrepay_prorata (min loss (sumLoanOutstanding cohorts))
        (sumLoanOutstanding cohorts) cohorts (min loss (sumLoanOutstanding cohorts))
        htotal (le_of_lt hL0) hLt houts hinv hnb
      have hw' : written = min loss (sumLoanOutstanding cohorts) := by
        rw [hwr, hpro.2]
        ring
      exact ⟨hcs.trans hpro.1, hw'⟩

/-- Witness for `extra_losses_stage_spec` at an extra loss of 50 against
the fixture cohort of 100. -/
theorem extra_losses_stage_witness :
    min 50 (sumLoanOutstanding [prepayCohort]) - 1e-9 ≤
      (allocLoss (min 50 (sumLoanOutstanding [prepayCohort]))
        (sumLoanOutstanding [prepayCohort]) [prepayCohort]
        (min 50 (sumLoanOutstanding [prepayCohort]))).2.2 ∧
    (allocLoss (min 50 (sumLoanOutstanding [prepayCohort]))
        (sumLoanOutstanding [prepayCohort]) [prepayCohort]
        (min 50 (sumLoanOutstanding [prepayCohort]))).2.2 ≤
      min 50 (sumLoanOutstanding [prepayCohort]) :=
  (extra_losses_stage_spec.2 prepayState [] .Mortgages 50 [prepayCohort] _ rfl
    (by decide) (by decide) (by decide) (by decide) (by decide)).2.1

/-! ## C5: the amortisation law -/

/-- When the numeric guards of `monthlyPayment` pass and the monthly rate
is positive, the function computes the textbook annuity formula, and the
scheduled principal `pmt − interest` lies in `[0, P]` (so the source's
clamping is inactive). -/
theorem monthlyPayment_formula (P r : ℚ) (n : ℤ)
    (hx : 1e-12 ≤ r / 12)
    (hden : 1e-12 ≤ 1 - (1 + r / 12) ^ (-n))
    (hn : 1 ≤ n) (hP : 0 < P) :
    monthlyPayment P r n = P * (r / 12) / (1 - (1 + r / 12) ^ (-n)) ∧
    0 ≤ monthlyPayment P r n - P * (r / 12) ∧
    monthlyPayment P r n - P * (r / 12) ≤ P := by
  have hx0 : (0:ℚ) < r / 12 := lt_of_lt_of_le (by decide) hx
  have h1x : (1:ℚ) < 1 + r / 12 := by linarith
  have h1x0 : (0:ℚ) < 1 + r / 12 := by linarith
  have hne : (1 + r / 12) ≠ 0 := ne_of_gt h1x0
  have hy0 : (0:ℚ) < (1 + r / 12) ^ (-n) := zpow_pos h1x0 _
  have hden0 : (0:ℚ) < 1 - (1 + r / 12) ^ (-n) := lt_of_lt_of_le (by decide) hden
  have hdenne : (1 - (1 + r / 12) ^ (-n)) ≠ 0 := ne_of_gt hden0
  have hformula : monthlyPayment P r n = P * (r / 12) / (1 - (1 + r / 12) ^ (-n)) := by
    unfold monthlyPayment
    rw [if_neg (by omega : ¬ n ≤ 0)]
    rw [if_neg (show ¬ |r / 12| < 1e-12 by rw [abs_of_pos hx0]; exact not_lt.mpr hx)]
    rw [if_neg hne]
    rw [if_neg (show ¬ |1 - (1 + r / 12) ^ (-n)| < 1e-12 by
      rw [abs_of_pos hden0]; exact not_lt.mpr hden)]
  have hkey : (1 + r / 12) ^ (-n) * (1 + r / 12) ≤ 1 := by
    have hz : (1 + r / 12) ^ (-n) * (1 + r / 12) = (1 + r / 12) ^ (-n + 1) :=
      (zpow_add_one₀ hne (-n)).symm
    rw [hz]
    exact zpow_le_one_of_nonpos₀ (le_of_lt h1x) (by omega)
  have hdelta : monthlyPayment P r n - P * (r / 12) =
      P * (r / 12) * (1 + r / 12) ^ (-n) / (1 - (1 + r / 12) ^ (-n)) := by
    rw [hformula, eq_div_iff hdenne, sub_mul, div_mul_cancel₀ _ hdenne]
    ring
  refine ⟨hformula, ?_, ?_⟩
  · rw [hdelta]
    exact div_nonneg (mul_nonneg (mul_nonneg hP.le hx0.le) hy0.le) hden0.le
  · rw [hdelta, div_le_iff₀ hden0]
    have h2 : (r / 12) * (1 + r / 12) ^ (-n) ≤ 1 - (1 + r / 12) ^ (-n) := by
      nlinarith [hkey]
    calc P * (r / 12) * (1 + r / 12) ^ (-n)
        = P * ((r / 12) * (1 + r / 12) ^ (-n)) := by ring
      _ ≤ P * (1 - (1 + r / 12) ^ (-n)) := mul_le_mul_of_nonneg_left h2 hP.le

/-- One month of the cohort loop with zeroed default multipliers: the
cohort pays interest plus the scheduled principal and no loss is
recognised (the default branch computes `defaulted = 0`). -/
theorem stepCohortMonthCore_noDefault (rt12 : ℚ → ℚ) (c : LoanCohort)
    (hrt : rt12 1 = 1)
    (h0 : 0 ≤ monthlyPayment c.outstandingPrincipal c.annualInterestRate
      (c.termMonths - c.ageMonths) - c.outstandingPrincipal * (c.annualInterestRate / 12))
    (h1 : monthlyPayment c.outstandingPrincipal c.annualInterestRate
      (c.termMonths - c.ageMonths) - c.outstandingPrincipal * (c.annualInterestRate / 12) ≤
      c.outstandingPrincipal) :
    stepCohortMonthCore rt12 0 0 c =
      ({ c with
          outstandingPrincipal := (c.outstandingPrincipal -
            (monthlyPayment c.outstandingPrincipal c.annualInterestRate
              (c.termMonths - c.ageMonths) -
             c.outstandingPrincipal * (c.annualInterestRate / 12))),
          ageMonths := c.ageMonths + 1 },
       monthlyPayment c.outstandingPrincipal c.annualInterestRate (c.termMonths - c.ageMonths),
       c.outstandingPrincipal * (c.annualInterestRate / 12), none) := by
  simp only [stepCohortMonthCore, mul_zero]
  rw [show clampQ 0 0 0.999999 = 0 from by decide]
  rw [sub_zero, hrt, sub_self, mul_zero, max_self]
  rw [if_neg (lt_irrefl 0)]
  rw [max_eq_right h0, min_eq_right h1]
  have hcash : c.outstandingPrincipal * (c.annualInterestRate / 12) +
      (monthlyPayment c.outstandingPrincipal c.annualInterestRate (c.termMonths - c.ageMonths) -
       c.outstandingPrincipal * (c.annualInterestRate / 12)) =
      monthlyPayment c.outstandingPrincipal c.annualInterestRate
        (c.termMonths - c.ageMonths) := by
    ring
  rw [hcash]

/-- C5 (amended): for a state holding a single cohort at age 0, stepping
one month with both multipliers zeroed yields exactly the amortisation
law — cash gains `pmt = P·(r/12)/(1 − (1+r/12)^(−n))`, the returned
interest income is `P·r/12`, the cohort's outstanding drops by the
scheduled principal `pmt − P·r/12` and its age becomes 1 — **provided**
the source's numeric guards pass (`r/12 ≥ 1e-12` and the annuity
denominator is at least `1e-12`), the term is at least 2 months and the
post-payment outstanding stays above the dust threshold `1e-2`; a cohort
that reaches its term or falls to dust is removed instead. -/
theorem amortisation_law (rt12 : ℚ → ℚ) (s : BankState) (config : SimulationConfig)
    (p : ProductType) (c : LoanCohort) (cashIt : BalanceSheetItem)
    (hrt : rt12 1 = 1)
    (hp : p.isLoan = true)
    (hcoh : s.loanCohorts = [(p, [c])])
    (hcashIt : findItemIn s.items .CashReserves = some cashIt)
    (hage0 : c.ageMonths = 0)
    (hP : 0 < c.outstandingPrincipal)
    (hvalid : validateCohort c (getMaxTermMonths config p) = true)
    (hx : 1e-12 ≤ c.annualInterestRate / 12)
    (hden : 1e-12 ≤ 1 - (1 + c.annualInterestRate / 12) ^ (-c.termMonths))
    (hn2 : 2 ≤ c.termMonths)
    (hsurv : 1e-2 < c.outstandingPrincipal -
      (monthlyPayment c.outstandingPrincipal c.annualInterestRate c.termMonths -
       c.outstandingPrincipal * (c.annualInterestRate / 12))) :
    monthlyPayment c.outstandingPrincipal c.annualInterestRate c.termMonths =
      c.outstandingPrincipal * (c.annualInterestRate / 12) /
        (1 - (1 + c.annualInterestRate / 12) ^ (-c.termMonths)) ∧
    ∃ s' : BankState,
      stepLoanCohorts rt12 s config 1 0 0 [] =
        .ok (s', { loanInterestIncome := c.outstandingPrincipal * (c.annualInterestRate / 12),
                   recognizedLoanLosses := [] }) ∧
      findItemIn s'.items .CashReserves =
        some { cashIt with balance := (cashIt.balance +
          monthlyPayment c.outstandingPrincipal c.annualInterestRate c.termMonths) } ∧
      lookupCohorts s'.loanCohorts p =
        some [{ c with
          outstandingPrincipal := (c.outstandingPrincipal -
            (monthlyPayment c.outstandingPrincipal c.annualInterestRate c.termMonths -
             c.outstandingPrincipal * (c.annualInterestRate / 12))),
          ageMonths := 1 }] := by
  have hform := monthlyPayment_formula c.outstandingPrincipal c.annualInterestRate c.termMonths
    hx hden (by omega) hP
  have hrem : c.termMonths - c.ageMonths = c.termMonths := by rw [hage0]; ring
  have h0c : 0 ≤ monthlyPayment c.outstandingPrincipal c.annualInterestRate
      (c.termMonths - c.ageMonths) - c.outstandingPrincipal * (c.annualInterestRate / 12) := by
    rw [hrem]
    exact hform.2.1
  have h1c : monthlyPayment c.outstandingPrincipal c.annualInterestRate
      (c.termMonths - c.ageMonths) - c.outstandingPrincipal * (c.annualInterestRate / 12) ≤
      c.outstandingPrincipal := by
    rw [hrem]
    exact hform.2.2
  have hcore := stepCohortMonthCore_noDefault rt12 c hrt h0c h1c
  rw [hrem, hage0, zero_add] at hcore
  have hguard1 : ¬ (c.outstandingPrincipal ≤ 0) := not_le.mpr hP
  have hguard2 : ¬ (c.ageMonths ≥ c.termMonths) := by omega
  have hmonth : stepCohortMonth rt12 0 0 (getMaxTermMonths config p) c =
      .ok ({ c with
          outstandingPrincipal := (c.outstandingPrincipal -
            (monthlyPayment c.outstandingPrincipal c.annualInterestRate c.termMonths -
             c.outstandingPrincipal * (c.annualInterestRate / 12))),
          ageMonths := 1 },
        monthlyPayment c.outstandingPrincipal c.annualInterestRate c.termMonths,
        c.outstandingPrincipal * (c.annualInterestRate / 12), none) := by
    unfold stepCohortMonth
    rw [if_neg hguard1, if_neg hguard2, hvalid]
    simp only [Bool.not_true, Bool.false_eq_true, if_false]
    rw [hcore]
  have hacc : stepCohortAcc rt12 0 0 (getMaxTermMonths config p) p ([], 0, 0, []) c =
      .ok ([{ c with
          outstandingPrincipal := (c.outstandingPrincipal -
            (monthlyPayment c.outstandingPrincipal c.annualInterestRate c.termMonths -
             c.outstandingPrincipal * (c.annualInterestRate / 12))),
          ageMonths := 1 }],
        0 + monthlyPayment c.outstandingPrincipal c.annualInterestRate c.termMonths,
        0 + c.outstandingPrincipal * (c.annualInterestRate / 12), []) := by
    unfold stepCohortAcc
    rw [hmonth]
    rfl
  have hfold1 : foldlE (stepCohortAcc rt12 0 0 (getMaxTermMonths config p) p)
      ([], 0, 0, []) [c] =
      .ok ([{ c with
          outstandingPrincipal := (c.outstandingPrincipal -
            (monthlyPayment c.outstandingPrincipal c.annualInterestRate c.termMonths -
             c.outstandingPrincipal * (c.annualInterestRate / 12))),
          ageMonths := 1 }],
        0 + monthlyPayment c.outstandingPrincipal c.annualInterestRate c.termMonths,
        0 + c.outstandingPrincipal * (c.annualInterestRate / 12), []) := by
    simp only [foldlE]
    rw [hacc]
  have hlookc : lookupCohorts s.loanCohorts p = some [c] := by
    rw [hcoh]
    simp [lookupCohorts]
  have hclean : cleanCohorts [{ c with
        outstandingPrincipal := (c.outstandingPrincipal -
          (monthlyPayment c.outstandingPrincipal c.annualInterestRate c.termMonths -
           c.outstandingPrincipal * (c.annualInterestRate / 12))),
        ageMonths := 1 }] =
      [{ c with
        outstandingPrincipal := (c.outstandingPrincipal -
          (monthlyPayment c.outstandingPrincipal c.annualInterestRate c.termMonths -
           c.outstandingPrincipal * (c.annualInterestRate / 12))),
        ageMonths := 1 }] := by
    rw [cleanCohorts_cons]
    rw [if_neg (not_or.mpr ⟨not_le.mpr hsurv, not_le.mpr (show (1:ℤ) < c.termMonths by omega)⟩)]
    rfl
  have hprod : stepProductMonth rt12 0 0 config (s, 0, []) p =
      .ok ({ s.setItems (updateFirstItem s.items .CashReserves
              (fun it => { it with balance := (it.balance +
                (0 + monthlyPayment c.outstandingPrincipal c.annualInterestRate
                  c.termMonths)) })) with
            loanCohorts := setCohorts s.loanCohorts p
              (cleanCohorts [{ c with
                outstandingPrincipal := (c.outstandingPrincipal -
                  (monthlyPayment c.outstandingPrincipal c.annualInterestRate c.termMonths -
                   c.outstandingPrincipal * (c.annualInterestRate / 12))),
                ageMonths := 1 }]) },
           0 + (0 + c.outstandingPrincipal * (c.annualInterestRate / 12)), []) := by
    unfold stepProductMonth
    rw [hp]
    simp only [Bool.not_true, Bool.false_eq_true, if_false, getOrCreateCohorts_of_lookup hlookc]
    have hs : ({ s with loanCohorts := s.loanCohorts } : BankState) = s := rfl
    rw [hs, hfold1]
    rfl
  rw [hclean] at hprod
  have hsetc : setCohorts s.loanCohorts p
      [{ c with
        outstandingPrincipal := (c.outstandingPrincipal -
          (monthlyPayment c.outstandingPrincipal c.annualInterestRate c.termMonths -
           c.outstandingPrincipal * (c.annualInterestRate / 12))),
        ageMonths := 1 }] =
      [(p, [{ c with
        outstandingPrincipal := (c.outstandingPrincipal -
          (monthlyPayment c.outstandingPrincipal c.annualInterestRate c.termMonths -
           c.outstandingPrincipal * (c.annualInterestRate / 12))),
        ageMonths := 1 }])] := by
    rw [hcoh]
    simp [setCohorts]
  refine ⟨hform.1, ?_⟩
  have hgc : getCashItem s = some cashIt := by
    rw [getCashItem]
    exact hcashIt
  refine ⟨?st, ?_, ?_, ?_⟩
  case st => exact syncLoanBalancesFromCohorts ({ s.setItems (updateFirstItem s.items .CashReserves (fun it => { it with balance := (it.balance + monthlyPayment c.outstandingPrincipal c.annualInterestRate c.termMonths) })) with loanCohorts := setCohorts s.loanCohorts p [{ c with outstandingPrincipal := (c.outstandingPrincipal - (monthlyPayment c.outstandingPrincipal c.annualInterestRate c.termMonths - c.outstandingPrincipal * (c.annualInterestRate / 12))), ageMonths := 1 }] })
  · -- the step computes: the month loop runs once over the single product
    simp only [stepLoanCohorts]
    rw [if_neg (show ¬ ((max 0 ⌊(1:ℚ)⌋).toNat = 0) by rw [Int.floor_one]; decide)]
    rw [if_neg (show ¬ ((getCashItem s).isNone = true) by rw [hgc]; simp)]
    rw [hcoh]
    rw [show (([(p, [c])] : CohortMap).map (fun x => x.1)) = [p] from rfl]
    rw [show (max 0 ⌊(1:ℚ)⌋).toNat = 1 from by rw [Int.floor_one]; decide]
    rw [show List.range 1 = [0] from rfl]
    simp only [foldlE]
    rw [hprod]
    rw [hcoh]
    simp only [zero_add]
    exact rfl
  · -- cash line credited with exactly the monthly payment
    show findItemIn (syncFold
        (updateFirstItem s.items .CashReserves
          (fun it => { it with balance := (it.balance +
            monthlyPayment c.outstandingPrincipal c.annualInterestRate c.termMonths) }))
        (setCohorts s.loanCohorts p
          [{ c with
            outstandingPrincipal := (c.outstandingPrincipal -
              (monthlyPayment c.outstandingPrincipal c.annualInterestRate c.termMonths -
               c.outstandingPrincipal * (c.annualInterestRate / 12))),
            ageMonths := 1 }])) .CashReserves = _
    rw [hsetc]
    rw [syncFold_find_frame _ _ _ (fun e _ hl => isLoan_ne_cash hl)]
    rw [findItemIn_updateFirstItem_self s.items .CashReserves
      (fun it => { it with balance := (it.balance +
        monthlyPayment c.outstandingPrincipal c.annualInterestRate c.termMonths) })
      (fun _ => rfl)]
    rw [hcashIt]
    rfl
  · -- the stored cohort advanced by the scheduled principal, age 1
    show lookupCohorts (setCohorts s.loanCohorts p
        [{ c with
          outstandingPrincipal := (c.outstandingPrincipal -
            (monthlyPayment c.outstandingPrincipal c.annualInterestRate c.termMonths -
             c.outstandingPrincipal * (c.annualInterestRate / 12))),
          ageMonths := 1 }]) p = _
    rw [setCohorts_lookup_self]

/-- A one-month cohort for the C5 counterexample. -/
def amortCexCohort : LoanCohort := ⟨.Mortgages, 0, 100, 100, 12, 1, 0, 0, 0⟩

/-- State holding the one-month cohort. -/
def amortCexState : BankState :=
  mkState [plainItem .asset .CashReserves 1000 0, plainItem .asset .Mortgages 100 12]
    [(.Mortgages, [amortCexCohort])]

/-- C5 counterexample: a single cohort with term `n = 1` (P = 100,
annual rate 1200% so every quantity is exact).  One month is stepped with
zero multipliers: cash does gain the payment (1200 total) and the interest
income is 100, but the cohort is fully amortised and `cleanCohorts`
removes it at term, so the stored cohort list is empty — its `ageMonths`
does **not** become 1, contradicting part (d) of the claim for n = 1. -/
theorem term_one_cohort_removed :
    (stepLoanCohorts id amortCexState demoConfig 1 0 0 []).map
      (fun r => (lookupCohorts r.1.loanCohorts .Mortgages, r.2.loanInterestIncome,
        (findItemIn r.1.items .CashReserves).map (·.balance))) =
      .ok (some [], 100, some 1200) := by
  decide

/-- A two-month cohort satisfying every guard of `amortisation_law`. -/
def amortWitCohort : LoanCohort := ⟨.Mortgages, 0, 100, 100, 12, 2, 0, 0, 0⟩

/-- State holding the two-month cohort. -/
def amortWitState : BankState :=
  mkState [plainItem .asset .CashReserves 1000 0, plainItem .asset .Mortgages 100 12]
    [(.Mortgages, [amortWitCohort])]

/-- Witness for `amortisation_law` on the two-month fixture cohort. -/
theorem amortisation_law_witness :
    monthlyPayment amortWitCohort.outstandingPrincipal amortWitCohort.annualInterestRate
      amortWitCohort.termMonths =
      amortWitCohort.outstandingPrincipal * (amortWitCohort.annualInterestRate / 12) /
        (1 - (1 + amortWitCohort.annualInterestRate / 12) ^ (-amortWitCohort.termMonths)) :=
  (amortisation_law id amortWitState demoConfig .Mortgages amortWitCohort
    (plainItem .asset .CashReserves 1000 0) rfl (by decide) rfl (by decide) rfl (by decide)
    (by decide) (by decide) (by decide) (by decide) (by decide)).1

/-! ## C6: the LCR computation -/

/-- Spec-side outflow total: "outflows sum `balance · lcrOutflowRate · m`
over items with an outflow rate, where `m` is the stress multiplier for
RetailDeposits and CorporateDeposits and 1 for all other products". -/
def specLcrOutflows (items : List BalanceSheetItem) (m : ℚ) : ℚ :=
  (items.filterMap (fun item =>
    (item.liquidityTag.bind (·.lcrOutflowRate)).map (fun rate =>
      item.balance * rate *
        (if item.productType = .RetailDeposits ∨ item.productType = .CorporateDeposits then m
         else 1)))).sum

/-- Spec-side inflow total: "inflows sum `balance · lcrInflowRate`". -/
def specLcrInflows (items : List BalanceSheetItem) : ℚ :=
  (items.filterMap (fun item =>
    (item.liquidityTag.bind (·.lcrInflowRate)).map (fun rate => item.balance * rate))).sum

/-- Spec-side net outflows with the 75% inflow cap applied. -/
def specLcrNetOutflows (items : List BalanceSheetItem) (m : ℚ) : ℚ :=
  max 0 (specLcrOutflows items m - min (specLcrInflows items) (3/4 * specLcrOutflows items m))

/-- Folding a pair of running sums equals the two mapped sums. -/
theorem foldl_pair_sum {α : Type _} (f g : α → ℚ) (l : List α) (a b : ℚ) :
    l.foldl (fun (acc : ℚ × ℚ) x => (acc.1 + f x, acc.2 + g x)) (a, b) =
      (a + (l.map f).sum, b + (l.map g).sum) := by
  induction l generalizing a b with
  | nil => simp
  | cons x xs ih => simp [ih, add_assoc]

/-- Summing `(g x).getD 0` equals summing over the `filterMap`. -/
theorem sum_map_getD_eq_sum_filterMap {α : Type _} (g : α → Option ℚ) (l : List α) :
    (l.map (fun x => (g x).getD 0)).sum = (l.filterMap g).sum := by
  induction l with
  | nil => simp
  | cons x xs ih =>
    cases h : g x <;> simp [List.filterMap_cons, h, ih]

/-- The per-item outflow contribution, written with `Option` combinators. -/
theorem lcrItemOutflow_eq_getD (m : ℚ) (item : BalanceSheetItem) :
    lcrItemOutflow m item =
      ((item.liquidityTag.bind (·.lcrOutflowRate)).map (fun rate =>
        item.balance * rate *
          (if item.productType = .RetailDeposits ∨ item.productType = .CorporateDeposits then m
           else 1))).getD 0 := by
  cases htag : item.liquidityTag with
  | none => simp [lcrItemOutflow, htag]
  | some tag => cases hrate : tag.lcrOutflowRate <;> simp [lcrItemOutflow, htag, hrate]

/-- The per-item inflow contribution, written with `Option` combinators. -/
theorem lcrItemInflow_eq_getD (item : BalanceSheetItem) :
    lcrItemInflow item =
      ((item.liquidityTag.bind (·.lcrInflowRate)).map (fun rate =>
        item.balance * rate)).getD 0 := by
  cases htag : item.liquidityTag with
  | none => simp [lcrItemInflow, htag]
  | some tag => cases hrate : tag.lcrInflowRate <;> simp [lcrItemInflow, htag, hrate]

/-- The accumulated outflow total equals the spec-side sum. -/
theorem lcrOutflows_eq_spec (items : List BalanceSheetItem) (m : ℚ) :
    (items.map (lcrItemOutflow m)).sum = specLcrOutflows items m := by
  unfold specLcrOutflows
  rw [← sum_map_getD_eq_sum_filterMap]
  congr 1
  exact List.map_congr_left (fun item _ => lcrItemOutflow_eq_getD m item)

/-- The accumulated inflow total equals the spec-side sum. -/
theorem lcrInflows_eq_spec (items : List BalanceSheetItem) :
    (items.map lcrItemInflow).sum = specLcrInflows items := by
  unfold specLcrInflows
  rw [← sum_map_getD_eq_sum_filterMap]
  congr 1
  exact List.map_congr_left (fun item _ => lcrItemInflow_eq_getD item)

/-- C6: the LCR computation matches the specification.  Outflows sum
`balance · rate · m` with the stress multiplier applied exactly to retail
and corporate deposits; inflows sum `balance · rate`; inflows are capped
at 75% of outflows; net outflows are floored at 0; and the ratio is
`hqla / netOutflows`, equal to `+∞` exactly when net outflows are zero. -/
theorem computeLcr_matches_spec (items : List BalanceSheetItem) (hqla m : ℚ) :
    computeLcr items hqla m =
      (if specLcrNetOutflows items m = 0 then QInf.inf
       else QInf.fin (hqla / specLcrNetOutflows items m),
       specLcrNetOutflows items m) ∧
    ((computeLcr items hqla m).1 = QInf.inf ↔ specLcrNetOutflows items m = 0) := by
  have hfold :
      (items.foldl (fun (acc : ℚ × ℚ) item =>
        (acc.1 + lcrItemOutflow m item, acc.2 + lcrItemInflow item)) (0, 0)) =
      (specLcrOutflows items m, specLcrInflows items) := by
    rw [foldl_pair_sum]
    rw [lcrOutflows_eq_spec, lcrInflows_eq_spec]
    simp
  have hnet : (0 : ℚ) ≤ specLcrNetOutflows items m := le_max_left 0 _
  have hmain : computeLcr items hqla m =
      (if specLcrNetOutflows items m = 0 then QInf.inf
       else QInf.fin (hqla / specLcrNetOutflows items m),
       specLcrNetOutflows items m) := by
    unfold computeLcr
    rw [hfold]
    simp only [specLcrNetOutflows]
    by_cases hz :
        max 0 (specLcrOutflows items m -
          min (specLcrInflows items) (3/4 * specLcrOutflows items m)) = 0
    · rw [hz]
      simp
    · have hpos : 0 < max 0 (specLcrOutflows items m -
          min (specLcrInflows items) (3/4 * specLcrOutflows items m)) :=
        lt_of_le_of_ne (le_max_left 0 _) (Ne.symm hz)
      rw [if_pos hpos, if_neg hz]
  refine ⟨hmain, ?_⟩
  rw [hmain]
  by_cases hz : specLcrNetOutflows items m = 0 <;> simp [hz]

/-! ## C10: infinite ratios on zero denominators never breach -/

/-- The LCR value is determined by the net-outflow component. -/
theorem computeLcr_fst (items : List BalanceSheetItem) (hqla m : ℚ) :
    (computeLcr items hqla m).1 =
      if (computeLcr items hqla m).2 > 0 then
        QInf.fin (hqla / (computeLcr items hqla m).2)
      else QInf.inf := by
  unfold computeLcr
  simp

/-- The NSFR value is determined by the asf/rsf components. -/
theorem computeNsfr_third (items : List BalanceSheetItem) (cet1 at1 : ℚ) :
    (computeNsfr items cet1 at1).2.2 =
      if (computeNsfr items cet1 at1).2.1 > 0 then
        QInf.fin ((computeNsfr items cet1 at1).1 / (computeNsfr items cet1 at1).2.1)
      else QInf.inf := by
  unfold computeNsfr
  simp

/-- C10: when a ratio's denominator is zero the metric is `+∞` — for
`cet1Ratio` this holds regardless of the sign of `cet1` — and the
compliance check then reports no breach for that ratio.  Stated for each
of the four ratios (rwa = 0, total assets = 0, LCR net outflows = 0,
NSFR required stable funding = 0). -/
theorem zero_denominator_ratios_never_breach (s : BankState) (config : SimulationConfig)
    (m : ℚ) (limits : RiskLimits) :
    (rwaOf s config = 0 →
      (calculateRiskMetrics s config m).cet1Ratio = QInf.inf ∧
      (evaluateCompliance (calculateRiskMetrics s config m) limits).cet1Breached = false) ∧
    (totalAssetsOf s = 0 →
      (calculateRiskMetrics s config m).leverageRatio = QInf.inf ∧
      (evaluateCompliance (calculateRiskMetrics s config m) limits).leverageBreached = false) ∧
    ((computeLcr s.items (computeHqla (assetsOf s)) m).2 = 0 →
      (calculateRiskMetrics s config m).lcr = QInf.inf ∧
      (evaluateCompliance (calculateRiskMetrics s config m) limits).lcrBreached = false) ∧
    ((computeNsfr s.items s.financial.capital.cet1 s.financial.capital.at1).2.1 = 0 →
      (calculateRiskMetrics s config m).nsfr = QInf.inf ∧
      (evaluateCompliance (calculateRiskMetrics s config m) limits).nsfrBreached = false) := by
  refine ⟨fun h => ?_, fun h => ?_, fun h => ?_, fun h => ?_⟩
  · have hr : (calculateRiskMetrics s config m).cet1Ratio = QInf.inf := by
      simp only [calculateRiskMetrics, h]
      norm_num
    exact ⟨hr, by simp [evaluateCompliance, hr, QInf.ltQ]⟩
  · have hr : (calculateRiskMetrics s config m).leverageRatio = QInf.inf := by
      simp only [calculateRiskMetrics, h]
      norm_num
    exact ⟨hr, by simp [evaluateCompliance, hr, QInf.ltQ]⟩
  · have hr : (calculateRiskMetrics s config m).lcr = QInf.inf := by
      have hl : (calculateRiskMetrics s config m).lcr =
          (computeLcr s.items (computeHqla (assetsOf s)) m).1 := by
        simp only [calculateRiskMetrics]
      rw [hl, computeLcr_fst, if_neg (by rw [h]; exact lt_irrefl 0)]
    exact ⟨hr, by simp [evaluateCompliance, hr, QInf.ltQ]⟩
  · have hr : (calculateRiskMetrics s config m).nsfr = QInf.inf := by
      have hn : (calculateRiskMetrics s config m).nsfr =
          (computeNsfr s.items s.financial.capital.cet1 s.financial.capital.at1).2.2 := by
        simp only [calculateRiskMetrics]
      rw [hn, computeNsfr_third, if_neg (by rw [h]; exact lt_irrefl 0)]
    exact ⟨hr, by simp [evaluateCompliance, hr, QInf.ltQ]⟩

/-- Witness for `zero_denominator_ratios_never_breach`: a state with an
empty balance sheet and negative capital has all four denominators zero,
all four ratios `+∞`, and no breaches. -/
theorem zero_denominator_witness :
    rwaOf (mkState [] []) demoConfig = 0 ∧
    ((calculateRiskMetrics (mkState [] []) demoConfig 1).cet1Ratio = QInf.inf ∧
      (evaluateCompliance (calculateRiskMetrics (mkState [] []) demoConfig 1)
        demoConfig.riskLimits).cet1Breached = false) :=
  ⟨by decide,
   (zero_denominator_ratios_never_breach (mkState [] []) demoConfig 1
     demoConfig.riskLimits).1 (by decide)⟩

/-! ## C1: determinism of the step -/

/-- Decoration preserves the (severity, message) cores in order, for
every event environment. -/
theorem decorate_severity_message (cores : List EventCore) (env : EventEnv) :
    (decorate env cores).1.map (fun e => (e.severity, e.message)) = cores := by
  induction cores generalizing env with
  | nil => rfl
  | cons c rest ih =>
    simp only [decorate, List.map_cons, ih]

/-- C1 (amended): the step pipeline is a pure function of its inputs —
two runs with identical inputs (state, config, actions, shocks, and thus
the same `macroModel.rngSeed`) produce identical next states and the same
events up to ids and timestamps: the severities and messages agree
record-for-record in the same order.  The ids and timestamps, however,
come from `Date.now()` and the module-global `eventSequence` counter
(modelled by the event environment), which differ between two otherwise
identical runs, so the full event records are **not** byte-identical
(see the counterexample). -/
theorem step_deterministic_up_to_event_identity (rt12 : ℚ → ℚ)
    (advanceMarket : MarketState → ℚ → MarketState) (env₁ env₂ : EventEnv)
    (input : SimulationStepInput) :
    (stepFull rt12 advanceMarket env₁ input).map (fun r => r.1.nextState) =
      (stepFull rt12 advanceMarket env₂ input).map (fun r => r.1.nextState) ∧
    (stepFull rt12 advanceMarket env₁ input).map
        (fun r => r.1.events.map (fun e => (e.severity, e.message))) =
      (stepFull rt12 advanceMarket env₂ input).map
        (fun r => r.1.events.map (fun e => (e.severity, e.message))) := by
  unfold stepFull
  cases hstep : stepCore rt12 advanceMarket input with
  | error e => exact ⟨rfl, rfl⟩
  | ok v =>
    cases v with
    | mk st cores =>
      refine ⟨rfl, ?_⟩
      show (Except.ok ((decorate env₁ cores).1.map (fun e => (e.severity, e.message))) :
          Except EngineError (List (Severity × Msg))) =
        Except.ok ((decorate env₂ cores).1.map (fun e => (e.severity, e.message)))
      rw [decorate_severity_message, decorate_severity_message]

/-- Single-line state used by the determinism counterexample. -/
def c1State : BankState := mkState [plainItem .asset .CashReserves 100 0] [] 0

/-- One step input with a single rate action and no shocks. -/
def c1Input : SimulationStepInput :=
  ⟨c1State, demoConfig, [.adjustRate .CashReserves 0], []⟩

/-- C1 counterexample: two runs on identical inputs — the second drawn
after the global `eventSequence` has advanced by one, exactly as it has
after any first run — produce the same next state but events with
different ids, so the outputs are not identical record-for-record. -/
theorem event_ids_differ_between_identical_runs :
    (stepFull id (fun m _ => m) ⟨fun _ => 0, 0⟩ c1Input).map
        (fun r => r.1.events.map (·.id)) ≠
      (stepFull id (fun m _ => m) ⟨fun _ => 0, 1⟩ c1Input).map
        (fun r => r.1.events.map (·.id)) ∧
    (stepFull id (fun m _ => m) ⟨fun _ => 0, 0⟩ c1Input).map (fun r => r.1.nextState) =
      (stepFull id (fun m _ => m) ⟨fun _ => 0, 1⟩ c1Input).map (fun r => r.1.nextState) := by
  refine ⟨by decide, by decide⟩

/-! ## C8: hasFailed is sticky -/

/-- A predicate preserved by every step of a fold is preserved by the
fold. -/
theorem foldl_preserves {α β : Type _} (f : β → α → β) (P : β → Prop)
    (hf : ∀ b a, P b → P (f b a)) (l : List α) (b : β) (hb : P b) : P (l.foldl f b) := by
  induction l generalizing b with
  | nil => exact hb
  | cons a as ih => exact ih (f b a) (hf b a hb)

/-- A predicate preserved by every successful step of a short-circuiting
fold is preserved by the fold. -/
theorem foldlE_preserves {α β : Type _} (f : β → α → Except EngineError β) (P : β → Prop)
    (hf : ∀ b a b', f b a = .ok b' → P b → P b') (l : List α) (b b' : β)
    (h : foldlE f b l = .ok b') (hb : P b) : P b' := by
  induction l generalizing b with
  | nil =>
    simp only [foldlE] at h
    cases h
    exact hb
  | cons a as ih =>
    simp only [foldlE] at h
    cases hfa : f b a with
    | error e => rw [hfa] at h; cases h
    | ok b₁ => rw [hfa] at h; exact ih b₁ h (hf b a b₁ hfa hb)

/-- `upsertApply` never touches the status block. -/
theorem upsertApply_status (s : BankState) (p : ProductType) (cid : ℤ) (f r : ℚ) (t : ℤ)
    (pd lgd : ℚ) : (upsertApply s p cid f r t pd lgd).status = s.status := by
  unfold upsertApply
  cases hG : getOrCreateCohorts s.loanCohorts p with
  | mk m1 cs => rfl

/-- `upsertOriginationCohort` never touches the status block. -/
theorem upsertOriginationCohort_status (s : BankState) (config : SimulationConfig)
    (p : ProductType) (cid : ℤ) (principal rate : ℚ) (t : Option ℤ) (pd lgd : ℚ)
    (out : BankState × ℚ)
    (h : upsertOriginationCohort s config p cid principal rate t pd lgd = .ok out) :
    out.1.status = s.status := by
  simp only [upsertOriginationCohort] at h
  repeat' split at h
  all_goals first
    | (cases h; rfl)
    | (cases h; exact upsertApply_status _ _ _ _ _ _ _ _)
    | cases h

/-- `prepayApply` never touches the status block. -/
theorem prepayApply_status (s : BankState) (p : ProductType) (actual total : ℚ)
    (cohorts : List LoanCohort) : (prepayApply s p actual total cohorts).status = s.status := by
  unfold prepayApply
  cases hA : allocPrepay actual total cohorts actual with
  | mk cs' rem => rfl

/-- `applyExtraPrepayment` never touches the status block. -/
theorem applyExtraPrepayment_status (s : BankState) (p : ProductType) (amount : ℚ)
    (out : BankState × ℚ) (h : applyExtraPrepayment s p amount = .ok out) :
    out.1.status = s.status := by
  simp only [applyExtraPrepayment] at h
  repeat' split at h
  all_goals first
    | (cases h; rfl)
    | (cases h; exact prepayApply_status _ _ _ _ _)
    | cases h

/-- One entry of the extra-losses stage never touches the status block. -/
theorem applyExtraLossEntry_status (st : BankState) (ls : LossMap) (p : ProductType)
    (loss : ℚ) : (applyExtraLossEntry (st, ls) (p, loss)).1.status = st.status := by
  simp only [applyExtraLossEntry]
  repeat' split
  all_goals rfl

/-- A month of one product never touches the status block. -/
theorem stepProductMonth_status (rt12 : ℚ → ℚ) (pdM lgdM : ℚ) (config : SimulationConfig)
    (st : BankState) (inc : ℚ) (ls : LossMap) (p : ProductType)
    (b' : BankState × ℚ × LossMap)
    (h : stepProductMonth rt12 pdM lgdM config (st, inc, ls) p = .ok b') :
    b'.1.status = st.status := by
  simp only [stepProductMonth] at h
  repeat' split at h
  all_goals first
    | (cases h; rfl)
    | cases h

/-- `stepLoanCohorts` never touches the status block. -/
theorem stepLoanCohorts_status (rt12 : ℚ → ℚ) (state : BankState) (config : SimulationConfig)
    (dtMonths pdM lgdM : ℚ) (extra : LossMap) (out : BankState × LoanCohortStepResult)
    (h : stepLoanCohorts rt12 state config dtMonths pdM lgdM extra = .ok out) :
    out.1.status = state.status := by
  simp only [stepLoanCohorts] at h
  split at h
  · cases h; rfl
  · split at h
    · cases h
    · split at h
      · cases h
      · rename_i st2 inc ls heq
        have h2 : st2.status = state.status := by
          refine foldlE_preserves _ (fun (b : BankState × ℚ × LossMap) =>
            b.1.status = state.status) ?_ _ _ _ heq rfl
          intro b a b' hba hb
          obtain ⟨bst, binc, bls⟩ := b
          refine (foldlE_preserves _ (fun (x : BankState × ℚ × LossMap) =>
            x.1.status = bst.status) ?_ _ _ _ hba rfl).trans hb
          intro x a2 x' hx hxP
          obtain ⟨xst, xinc, xls⟩ := x
          exact (stepProductMonth_status rt12 pdM lgdM config xst xinc xls a2 x' hx).trans hxP
        have h3 : (List.foldl applyExtraLossEntry (st2, ls) extra).1.status = st2.status := by
          refine foldl_preserves applyExtraLossEntry (fun (b : BankState × LossMap) =>
            b.1.status = st2.status) ?_ extra (st2, ls) rfl
          intro b e hb
          obtain ⟨bst, bls⟩ := b
          obtain ⟨ep, el⟩ := e
          exact (applyExtraLossEntry_status bst bls ep el).trans hb
        cases h
        exact h3.trans h2

/-- `adjustCashOrFail` only ever raises `hasFailed`. -/
theorem adjustCashOrFail_mono (st : BankState) (delta : ℚ) (events : List EventCore)
    (hf : st.status.hasFailed = true) :
    (adjustCashOrFail st delta events).1.status.hasFailed = true := by
  simp only [adjustCashOrFail]
  repeat' split
  all_goals first | exact hf | rfl

/-- `applyCashOutflowOrFail` only ever raises `hasFailed`. -/
theorem applyCashOutflowOrFail_mono (st : BankState) (outflow : ℚ) (events : List EventCore)
    (hf : st.status.hasFailed = true) :
    (applyCashOutflowOrFail st outflow events).1.status.hasFailed = true := by
  simp only [applyCashOutflowOrFail]
  repeat' split
  all_goals first | exact hf | rfl

/-- `adjustInterestRate` never touches the status block. -/
theorem adjustInterestRate_status (st : BankState) (p : ProductType) (r : ℚ) :
    (adjustInterestRate st p r).status = st.status := by
  simp only [adjustInterestRate]
  repeat' split
  all_goals rfl

/-- `applyIssueEquity` never touches the status block. -/
theorem applyIssueEquity_status (st : BankState) (amount : ℚ) (events : List EventCore) :
    (applyIssueEquity st amount events).1.status = st.status := by
  simp only [applyIssueEquity]
  repeat' split
  all_goals rfl

/-- `applyIssueDebt` never touches the status block. -/
theorem applyIssueDebt_status (st : BankState) (config : SimulationConfig) (p : ProductType)
    (amount : ℚ) (rateOverride : Option ℚ) (events : List EventCore) :
    (applyIssueDebt st config p amount rateOverride events).1.status = st.status := by
  simp only [applyIssueDebt, ensureLineItem]
  repeat' split
  all_goals rfl

/-- `if` on a pair of state/event results preserves a common status. -/
theorem statusPair_ite (c : Prop) [inst : Decidable c] (x y : BankState × List EventCore)
    (S : SimulationStatus) (hx : x.1.status = S) (hy : y.1.status = S) :
    (if c then x else y).1.status = S := by
  split
  · exact hx
  · exact hy

/-- `applyRepoBorrow` never touches the status block. -/
theorem applyRepoBorrow_status (st : BankState) (config : SimulationConfig)
    (col : ProductType) (amount : ℚ) (haircut : Option ℚ) (rate : ℚ)
    (events : List EventCore) :
    (applyRepoBorrow st config col amount haircut rate events).1.status = st.status := by
  unfold applyRepoBorrow ensureLineItem
  cases hCash : findItem st.financial.balanceSheet .CashReserves with
  | none => rfl
  | some c0 =>
    cases hCol : findItem st.financial.balanceSheet col with
    | none =>
      cases hRepo : findItem st.financial.balanceSheet .RepurchaseAgreements with
      | none => exact statusPair_ite _ _ _ _ rfl rfl
      | some r0 => exact statusPair_ite _ _ _ _ rfl rfl
    | some col0 =>
      cases hRepo : findItem st.financial.balanceSheet .RepurchaseAgreements with
      | none => exact statusPair_ite _ _ _ _ rfl rfl
      | some r0 => exact statusPair_ite _ _ _ _ rfl rfl

/-- `applyRepoLend` never touches the status block. -/
theorem applyRepoLend_status (st : BankState) (config : SimulationConfig) (amount rate : ℚ)
    (events : List EventCore) :
    (applyRepoLend st config amount rate events).1.status = st.status := by
  unfold applyRepoLend ensureLineItem
  cases hCash : findItem st.financial.balanceSheet .CashReserves with
  | none => rfl
  | some c0 =>
    cases hRepo : findItem st.financial.balanceSheet .ReverseRepo with
    | none => rfl
    | some r0 => rfl

/-- `applyBuySellAsset` only ever raises `hasFailed`. -/
theorem applyBuySellAsset_mono (st : BankState) (config : SimulationConfig) (p : ProductType)
    (delta : ℚ) (events : List EventCore) (out : BankState × List EventCore)
    (h : applyBuySellAsset st config p delta events = .ok out)
    (hf : st.status.hasFailed = true) : out.1.status.hasFailed = true := by
  unfold applyBuySellAsset at h
  cases hA : findItem st.financial.balanceSheet p with
  | none =>
    rw [hA] at h
    cases hC : findItem st.financial.balanceSheet .CashReserves with
    | none => rw [hC] at h; cases h; exact hf
    | some c0 => rw [hC] at h; cases h; exact hf
  | some asset =>
    rw [hA] at h
    cases hC : findItem st.financial.balanceSheet .CashReserves with
    | none => rw [hC] at h; cases h; exact hf
    | some cashIt =>
      rw [hC] at h
      simp only [] at h
      split at h
      · split at h
        · split at h
          · cases h
          · rename_i st2 ex2 hup
            have hs : st2.status = st.status :=
              upsertOriginationCohort_status _ _ _ _ _ _ _ _ _ _ hup
            cases h
            show st2.status.hasFailed = true
            rw [hs]; exact hf
        · split at h
          · cases h
          · rename_i st2 ex2 hpre
            have hs : st2.status = st.status := applyExtraPrepayment_status _ _ _ _ hpre
            cases h
            show st2.status.hasFailed = true
            rw [hs]; exact hf
      · split at h
        · cases h; exact hf
        · cases h
          exact adjustCashOrFail_mono _ _ _ hf

/-- The action dispatcher only ever raises `hasFailed`. -/
theorem dispatchAction_mono (config : SimulationConfig) (acc : BankState × List EventCore)
    (a : PlayerAction) (out : BankState × List EventCore)
    (h : dispatchAction config acc a = .ok out) (hf : acc.1.status.hasFailed = true) :
    out.1.status.hasFailed = true := by
  cases a with
  | adjustRate p r =>
    cases h
    rw [adjustInterestRate_status]
    exact hf
  | issueEquity amount =>
    cases h
    rw [applyIssueEquity_status]
    exact hf
  | issueDebt p amount rate =>
    cases h
    rw [applyIssueDebt_status]
    exact hf
  | buySellAsset p delta r =>
    exact applyBuySellAsset_mono _ _ _ _ _ _ h hf
  | enterRepo dir col amount rate haircut =>
    cases h
    cases dir with
    | borrow =>
      rw [show applyEnterRepo acc.1 config .borrow col amount haircut rate acc.2 =
        applyRepoBorrow acc.1 config col amount haircut rate acc.2 from rfl]
      rw [applyRepoBorrow_status]
      exact hf
    | lend =>
      rw [show applyEnterRepo acc.1 config .lend col amount haircut rate acc.2 =
        applyRepoLend acc.1 config amount rate acc.2 from rfl]
      rw [applyRepoLend_status]
      exact hf

/-- The shock dispatcher only ever raises `hasFailed`. -/
theorem dispatchShock_mono (config : SimulationConfig) (acc : ShockContextAcc) (shock : Shock)
    (hf : acc.state.status.hasFailed = true) :
    (dispatchShock config acc shock).state.status.hasFailed = true := by
  cases shock with
  | depositCompetition a b => exact hf
  | marketSpreadShock a b c => exact hf
  | macroDownturn a b => exact hf
  | counterpartyDefault p l => exact hf
  | idiosyncraticRun mult =>
    simp only [dispatchShock]
    cases hR : findItem acc.state.financial.balanceSheet .RetailDeposits with
    | none =>
      cases hC : findItem acc.state.financial.balanceSheet .CorporateDeposits with
      | none => exact applyCashOutflowOrFail_mono _ _ _ hf
      | some cit => exact applyCashOutflowOrFail_mono _ _ _ hf
    | some rit =>
      cases hC : findItem acc.state.financial.balanceSheet .CorporateDeposits with
      | none => exact applyCashOutflowOrFail_mono _ _ _ hf
      | some cit => exact applyCashOutflowOrFail_mono _ _ _ hf

/-- `applyShocks` only ever raises `hasFailed`. -/
theorem applyShocks_mono (state : BankState) (config : SimulationConfig)
    (shocks : List Shock) (events : List EventCore) (hf : state.status.hasFailed = true) :
    (applyShocks state config shocks events).state.status.hasFailed = true := by
  unfold applyShocks
  refine foldl_preserves _ (fun acc => acc.state.status.hasFailed = true)
    (fun acc sh hacc => dispatchShock_mono config acc sh hacc) shocks _ ?_
  exact hf

/-- `applyActions` only ever raises `hasFailed`. -/
theorem applyActions_mono (state : BankState) (config : SimulationConfig)
    (actions : List PlayerAction) (events : List EventCore) (out : BankState × List EventCore)
    (h : applyActions state config actions events = .ok out)
    (hf : state.status.hasFailed = true) : out.1.status.hasFailed = true := by
  unfold applyActions at h
  exact foldlE_preserves _ (fun (b : BankState × List EventCore) =>
    b.1.status.hasFailed = true)
    (fun b a b' hba hb => dispatchAction_mono config b a b' hba hb) actions _ _ h hf

/-- One deposit-behaviour product only ever raises `hasFailed`. -/
theorem depositBehaviourStep_mono (config : SimulationConfig) (dt : ℚ) (st : BankState)
    (ev : List EventCore) (p : ProductType) (hf : st.status.hasFailed = true) :
    (depositBehaviourStep config dt (st, ev) p).1.status.hasFailed = true := by
  simp only [depositBehaviourStep]
  repeat' split
  all_goals first
    | exact hf
    | exact adjustCashOrFail_mono _ _ _ hf
    | exact applyCashOutflowOrFail_mono _ _ _ hf

/-- `applyDepositBehaviour` only ever raises `hasFailed`. -/
theorem applyDepositBehaviour_mono (config : SimulationConfig) (dt : ℚ) (state : BankState)
    (events : List EventCore) (hf : state.status.hasFailed = true) :
    (applyDepositBehaviour config dt state events).1.status.hasFailed = true := by
  unfold applyDepositBehaviour
  refine foldl_preserves _ (fun (b : BankState × List EventCore) =>
    b.1.status.hasFailed = true) ?_ _ _ hf
  intro b a hb
  obtain ⟨bst, bev⟩ := b
  exact depositBehaviourStep_mono config dt bst bev a hb

/-- One loan-behaviour product only ever raises `hasFailed`. -/
theorem loanBehaviourStep_mono (config : SimulationConfig) (dt : ℚ) (st : BankState)
    (ev : List EventCore) (p : ProductType) (out : BankState × List EventCore)
    (h : loanBehaviourStep config dt (st, ev) p = .ok out)
    (hf : st.status.hasFailed = true) : out.1.status.hasFailed = true := by
  simp only [loanBehaviourStep] at h
  split at h
  · cases h; exact hf
  · split at h
    · split at h
      · cases h
      · rename_i st2 ex2 hup
        have hs : st2.status = st.status :=
          upsertOriginationCohort_status _ _ _ _ _ _ _ _ _ _ hup
        cases h
        show st2.status.hasFailed = true
        rw [hs]; exact hf
    · split at h
      · split at h
        · cases h
        · rename_i st2 ex2 hpre
          have hs : st2.status = st.status := applyExtraPrepayment_status _ _ _ _ hpre
          cases h
          show st2.status.hasFailed = true
          rw [hs]; exact hf
      · cases h; exact hf

/-- `applyLoanBehaviour` only ever raises `hasFailed`. -/
theorem applyLoanBehaviour_mono (config : SimulationConfig) (dt : ℚ) (state : BankState)
    (events : List EventCore) (out : BankState × List EventCore)
    (h : applyLoanBehaviour config dt state events = .ok out)
    (hf : state.status.hasFailed = true) : out.1.status.hasFailed = true := by
  unfold applyLoanBehaviour at h
  refine foldlE_preserves _ (fun (b : BankState × List EventCore) =>
    b.1.status.hasFailed = true) ?_ _ _ _ h hf
  intro b a b' hba hb
  obtain ⟨bst, bev⟩ := b
  exact loanBehaviourStep_mono config dt bst bev a b' hba hb

/-- `recogniseLosses` never touches the status block. -/
theorem recogniseLosses_status (st : BankState) (extra input : LossMap) :
    (recogniseLosses st extra input).1.status = st.status := by
  simp only [recogniseLosses]
  refine foldl_preserves _ (fun b => b.status = st.status) ?_ extra st rfl
  intro b e hb
  repeat' split
  all_goals exact hb

/-- `closeCapital` only ever raises `hasFailed`. -/
theorem closeCapital_mono (st : BankState) (config : SimulationConfig) (dtm dty : ℚ)
    (accruals : PnLAccrualResult) (losses : LossRecognitionResult) (lii : ℚ)
    (events : List EventCore) (hf : st.status.hasFailed = true) :
    (closeCapital st config dtm dty accruals losses lii events).1.status.hasFailed = true := by
  simp only [closeCapital]
  exact adjustCashOrFail_mono _ _ _ hf

/-- The metrics stage only ever raises `hasFailed` (it ORs the breach
flags into the current value). -/
theorem computeMetricsStage_mono (st : BankState) (config : SimulationConfig) (m : ℚ)
    (events : List EventCore) (hf : st.status.hasFailed = true) :
    (computeMetricsStage st config m events).1.status.hasFailed = true := by
  simp only [computeMetricsStage, hf, Bool.true_or]
  repeat' split
  all_goals rfl

/-- `buildStatements` never touches the status block. -/
theorem buildStatements_status (inputState st : BankState) (config : SimulationConfig)
    (cashStart : ℚ) (cc : CapitalCloseResult) (losses : LossRecognitionResult) :
    (buildStatements inputState st config cashStart cc losses).1.status = st.status := rfl

/-- The invariants stage only ever raises `hasFailed`. -/
theorem invariantsStage_mono (st : BankState) (config : SimulationConfig)
    (events : List EventCore) (statements : BuildStatementsResult)
    (hf : st.status.hasFailed = true) :
    (invariantsStage st config events statements).1.status.hasFailed = true := by
  simp only [invariantsStage]
  repeat' split
  all_goals first | exact hf | rfl

/-- The whole step only ever raises `hasFailed`. -/
theorem stepCore_mono (rt12 : ℚ → ℚ) (adv : MarketState → ℚ → MarketState)
    (input : SimulationStepInput) (out : BankState × List EventCore)
    (h : stepCore rt12 adv input = .ok out)
    (hf : input.state.status.hasFailed = true) : out.1.status.hasFailed = true := by
  simp only [stepCore] at h
  split at h
  · cases h
  · rename_i st1 ev1 heq1
    have h1 : st1.status.hasFailed = true :=
      applyActions_mono _ _ _ _ _ heq1 (applyShocks_mono _ _ _ _ hf)
    split at h
    · cases h
    · rename_i st2 ev2 heq2
      have h2 : st2.status.hasFailed = true :=
        applyLoanBehaviour_mono _ _ _ _ _ heq2 (applyDepositBehaviour_mono _ _ _ _ h1)
      split at h
      · cases h
      · rename_i st3 res heq3
        have h3 : st3.status.hasFailed = true := by
          rw [stepLoanCohorts_status _ _ _ _ _ _ _ _ heq3]
          exact h2
        cases h
        refine invariantsStage_mono _ _ _ _ ?_
        rw [buildStatements_status]
        refine computeMetricsStage_mono _ _ _ _ ?_
        refine closeCapital_mono _ _ _ _ _ _ _ _ ?_
        rw [recogniseLosses_status]
        exact h3

/-- C8: `hasFailed` is sticky throughout the pipeline — every stage
either preserves the status block exactly or only ORs new failures into
it, and the whole step maps a failed input state to a failed output
state; no stage ever resets `hasFailed` from `true` to `false`. -/
theorem hasFailed_sticky :
    (∀ (config : SimulationConfig) (acc : ShockContextAcc) (shock : Shock),
      acc.state.status.hasFailed = true →
      (dispatchShock config acc shock).state.status.hasFailed = true) ∧
    (∀ (config : SimulationConfig) (acc : BankState × List EventCore) (a : PlayerAction)
        (out : BankState × List EventCore), dispatchAction config acc a = .ok out →
      acc.1.status.hasFailed = true → out.1.status.hasFailed = true) ∧
    (∀ (config : SimulationConfig) (dt : ℚ) (state : BankState) (events : List EventCore),
      state.status.hasFailed = true →
      (applyDepositBehaviour config dt state events).1.status.hasFailed = true) ∧
    (∀ (config : SimulationConfig) (dt : ℚ) (state : BankState) (events : List EventCore)
        (out : BankState × List EventCore),
      applyLoanBehaviour config dt state events = .ok out →
      state.status.hasFailed = true → out.1.status.hasFailed = true) ∧
    (∀ (rt12 : ℚ → ℚ) (state : BankState) (config : SimulationConfig)
        (dtMonths pdM lgdM : ℚ) (extra : LossMap) (out : BankState × LoanCohortStepResult),
      stepLoanCohorts rt12 state config dtMonths pdM lgdM extra = .ok out →
      out.1.status = state.status) ∧
    (∀ (st : BankState) (config : SimulationConfig) (dtm dty : ℚ)
        (accruals : PnLAccrualResult) (losses : LossRecognitionResult) (lii : ℚ)
        (events : List EventCore), st.status.hasFailed = true →
      (closeCapital st config dtm dty accruals losses lii events).1.status.hasFailed = true) ∧
    (∀ (st : BankState) (config : SimulationConfig) (m : ℚ) (events : List EventCore),
      st.status.hasFailed = true →
      (computeMetricsStage st config m events).1.status.hasFailed = true) ∧
    (∀ (inputState st : BankState) (config : SimulationConfig) (cashStart : ℚ)
        (cc : CapitalCloseResult) (losses : LossRecognitionResult),
      (buildStatements inputState st config cashStart cc losses).1.status = st.status) ∧
    (∀ (st : BankState) (config : SimulationConfig) (events : List EventCore)
        (statements : BuildStatementsResult), st.status.hasFailed = true →
      (invariantsStage st config events statements).1.status.hasFailed = true) ∧
    (∀ (rt12 : ℚ → ℚ) (adv : MarketState → ℚ → MarketState) (input : SimulationStepInput)
        (out : BankState × List EventCore), stepCore rt12 adv input = .ok out →
      input.state.status.hasFailed = true → out.1.status.hasFailed = true) :=
  ⟨fun config acc shock => dispatchShock_mono config acc shock,
   fun config acc a out => dispatchAction_mono config acc a out,
   fun config dt state events => applyDepositBehaviour_mono config dt state events,
   fun config dt state events out => applyLoanBehaviour_mono config dt state events out,
   fun rt12 state config dtMonths pdM lgdM extra out =>
     stepLoanCohorts_status rt12 state config dtMonths pdM lgdM extra out,
   fun st config dtm dty accruals losses lii events =>
     closeCapital_mono st config dtm dty accruals losses lii events,
   fun st config m events => computeMetricsStage_mono st config m events,
   fun inputState st config cashStart cc losses =>
     buildStatements_status inputState st config cashStart cc losses,
   fun st config events statements => invariantsStage_mono st config events statements,
   fun rt12 adv input out => stepCore_mono rt12 adv input out⟩

/-- A state already marked failed, for the stickiness witness. -/
def failedState : BankState := mkState [plainItem .asset .CashReserves 100 0] [] 1 true

/-- Witness for `hasFailed_sticky`: the metrics stage keeps a failed
state failed. -/
theorem hasFailed_sticky_witness :
    (computeMetricsStage failedState demoConfig 1 []).1.status.hasFailed = true :=
  hasFailed_sticky.2.2.2.2.2.2.1 failedState demoConfig 1 [] (by decide)

end Banksim
